import Mathlib

/-!
# Co-occurrence histograms (`makecomat.c`)

A shallow embedding of the eight entry points of `src/makecomat.c`
(`makecomat1D` .. `makecomat4D` and `makecomat1D_2T` .. `makecomat4D_2T`)
and a verification of the properties stated about them.

Conventions of the embedding.

* An `int*` buffer is a `List Int`.  Reading or writing a cell outside the
  buffer is undefined behaviour in C; the embedding makes it observable: every
  entry point returns `Option (List Int)`, and `none` means that the call
  touched a cell outside one of its buffers.
* The `void` functions mutate `output` in place; the embedding passes the
  output buffer in and returns the updated buffer.
* Each entry point is embedded twice.  `makecomat1D` .. `makecomat4D_2T` compute
  on unbounded integers: they describe the code as long as no `int` expression
  overflows.  `makecomat1D_i32` .. `makecomat4D_2T_i32` compute every `int`
  expression modulo 2^32; they carry the properties that state the value of an
  index or of a counter, under hypotheses that keep indices and counters in
  the range of `int`.  The theorems `makecomat*_i32_eq` show that the machine
  entry points compute the unbounded ones modulo 2^32 as long as the indices
  stay in range.
-/

namespace GenTex

/-! ## Memory and control primitives -/

/-- Read of `b[k]`: `none` when `k` is not an index of the buffer. -/
def rd (b : List Int) (k : Int) : Option Int :=
  if 0 ≤ k then b[k.toNat]? else none

/-- The statement `output[k]++`: `none` when `k` is not an index of the buffer. -/
def incr (output : List Int) (k : Int) : Option (List Int) :=
  match rd output k with
  | none => none
  | some v => some (output.set k.toNat (v + 1))

/-- The loop `for (x = 0; x < n; x++) body`, threading the state through the
iterations; no body in `makecomat.c` assigns its loop variable. -/
def forLoop {σ : Type} (n : Int) (body : Int → σ → Option σ) (s : σ) : Option σ :=
  (List.range n.toNat).foldlM (fun s (k : Nat) => body (k : Int) s) s

/-! ## Single-image entry points -/

/-- Embedding of `makecomat1D` (makecomat.c, lines 12-37). -/
def makecomat1D (input mask : List Int) (xi : Int) (coords : List Int)
    (levels : Int) (output : List Int) : Option (List Int) :=
  forLoop xi (fun x output => do
    let m ← rd mask x
    if m = 1 then
      let i ← rd input x
      let c0 ← rd coords 0
      let xval := x + c0
      if 0 ≤ xval ∧ xval < xi then
        let m2 ← rd mask xval
        if m2 = 1 then
          let j ← rd input xval
          if 0 ≤ i ∧ i < levels ∧ 0 ≤ j ∧ j < levels then
            incr output (i * levels + j)
          else pure output
        else pure output
      else pure output
    else pure output) output

/-- Embedding of `makecomat2D` (makecomat.c, lines 39-71). -/
def makecomat2D (input mask : List Int) (xi yi : Int) (coords : List Int)
    (levels : Int) (output : List Int) : Option (List Int) :=
  forLoop xi (fun x output =>
    forLoop yi (fun y output => do
      let m ← rd mask (x * yi + y)
      if m = 1 then
        let i ← rd input (x * yi + y)
        let c0 ← rd coords 0
        let xval := x + c0
        let c1 ← rd coords 1
        let yval := y + c1
        if 0 ≤ xval ∧ xval < xi ∧ 0 ≤ yval ∧ yval < yi then
          let m2 ← rd mask (xval * yi + yval)
          if m2 = 1 then
            let j ← rd input (xval * yi + yval)
            if 0 ≤ i ∧ i < levels ∧ 0 ≤ j ∧ j < levels then
              incr output (i * levels + j)
            else pure output
          else pure output
        else pure output
      else pure output) output) output

/-- Embedding of `makecomat3D` (makecomat.c, lines 73-117). -/
def makecomat3D (input mask : List Int) (xi yi zi : Int) (coords : List Int)
    (levels : Int) (output : List Int) : Option (List Int) :=
  forLoop xi (fun x output =>
    forLoop yi (fun y output =>
      forLoop zi (fun z output => do
        let m ← rd mask ((x * yi + y) * zi + z)
        if m = 1 then
          let i ← rd input ((x * yi + y) * zi + z)
          let c0 ← rd coords 0
          let xval := x + c0
          let c1 ← rd coords 1
          let yval := y + c1
          let c2 ← rd coords 2
          let zval := z + c2
          if 0 ≤ xval ∧ xval < xi ∧ 0 ≤ yval ∧ yval < yi ∧ 0 ≤ zval ∧ zval < zi then
            let m2 ← rd mask ((xval * yi + yval) * zi + zval)
            if m2 = 1 then
              let j ← rd input ((xval * yi + yval) * zi + zval)
              if 0 ≤ i ∧ i < levels ∧ 0 ≤ j ∧ j < levels then
                incr output (i * levels + j)
              else pure output
            else pure output
          else pure output
        else pure output) output) output) output

/-- Embedding of `makecomat4D` (makecomat.c, lines 119-160). -/
def makecomat4D (input mask : List Int) (xi yi zi ti : Int) (coords : List Int)
    (levels : Int) (output : List Int) : Option (List Int) :=
  forLoop xi (fun x output =>
    forLoop yi (fun y output =>
      forLoop zi (fun z output =>
        forLoop ti (fun t output => do
          let m ← rd mask (((x * yi + y) * zi + z) * ti + t)
          if m = 1 then
            let i ← rd input (((x * yi + y) * zi + z) * ti + t)
            let c0 ← rd coords 0
            let xval := x + c0
            let c1 ← rd coords 1
            let yval := y + c1
            let c2 ← rd coords 2
            let zval := z + c2
            let c3 ← rd coords 3
            let tval := t + c3
            if 0 ≤ xval ∧ xval < xi ∧ 0 ≤ yval ∧ yval < yi ∧
                0 ≤ zval ∧ zval < zi ∧ 0 ≤ tval ∧ tval < ti then
              let m2 ← rd mask (((xval * yi + yval) * zi + zval) * ti + tval)
              if m2 = 1 then
                let j ← rd input (((xval * yi + yval) * zi + zval) * ti + tval)
                if 0 ≤ i ∧ i < levels ∧ 0 ≤ j ∧ j < levels then
                  incr output (i * levels + j)
                else pure output
              else pure output
            else pure output
          else pure output) output) output) output) output

/-! ## Two-image entry points

The parameters `xi2` (and, in the higher ranks, only the outermost secondary
extent) are accepted and never used by the C code: the neighbour is tested
against the extents of the first image and addressed with the strides of the
second. -/

/-- Embedding of `makecomat1D_2T` (makecomat.c, lines 164-192). -/
def makecomat1D_2T (input1 mask1 : List Int) (xi1 : Int) (input2 mask2 : List Int)
    (xi2 : Int) (coords : List Int) (levels1 levels2 : Int) (output : List Int) :
    Option (List Int) :=
  let _ := xi2
  forLoop xi1 (fun x output => do
    let m ← rd mask1 x
    if m = 1 then
      let i ← rd input1 x
      let c0 ← rd coords 0
      let xval := x + c0
      if 0 ≤ xval ∧ xval < xi1 then
        let m2 ← rd mask2 xval
        if m2 = 1 then
          let j ← rd input2 xval
          if 0 ≤ i ∧ i < levels1 ∧ 0 ≤ j ∧ j < levels2 then
            incr output (i * levels2 + j)
          else pure output
        else pure output
      else pure output
    else pure output) output

/-- Embedding of `makecomat2D_2T` (makecomat.c, lines 194-229). -/
def makecomat2D_2T (input1 mask1 : List Int) (xi1 yi1 : Int) (input2 mask2 : List Int)
    (xi2 yi2 : Int) (coords : List Int) (levels1 levels2 : Int) (output : List Int) :
    Option (List Int) :=
  let _ := xi2
  forLoop xi1 (fun x output =>
    forLoop yi1 (fun y output => do
      let m ← rd mask1 (x * yi1 + y)
      if m = 1 then
        let i ← rd input1 (x * yi1 + y)
        let c0 ← rd coords 0
        let xval := x + c0
        let c1 ← rd coords 1
        let yval := y + c1
        if 0 ≤ xval ∧ xval < xi1 ∧ 0 ≤ yval ∧ yval < yi1 then
          let m2 ← rd mask2 (xval * yi2 + yval)
          if m2 = 1 then
            let j ← rd input2 (xval * yi2 + yval)
            if 0 ≤ i ∧ i < levels1 ∧ 0 ≤ j ∧ j < levels2 then
              incr output (i * levels2 + j)
            else pure output
          else pure output
        else pure output
      else pure output) output) output

/-- Embedding of `makecomat3D_2T` (makecomat.c, lines 231-278). -/
def makecomat3D_2T (input1 mask1 : List Int) (xi1 yi1 zi1 : Int) (input2 mask2 : List Int)
    (xi2 yi2 zi2 : Int) (coords : List Int) (levels1 levels2 : Int) (output : List Int) :
    Option (List Int) :=
  let _ := xi2
  forLoop xi1 (fun x output =>
    forLoop yi1 (fun y output =>
      forLoop zi1 (fun z output => do
        let m ← rd mask1 ((x * yi1 + y) * zi1 + z)
        if m = 1 then
          let i ← rd input1 ((x * yi1 + y) * zi1 + z)
          let c0 ← rd coords 0
          let xval := x + c0
          let c1 ← rd coords 1
          let yval := y + c1
          let c2 ← rd coords 2
          let zval := z + c2
          if 0 ≤ xval ∧ xval < xi1 ∧ 0 ≤ yval ∧ yval < yi1 ∧ 0 ≤ zval ∧ zval < zi1 then
            let m2 ← rd mask2 ((xval * yi2 + yval) * zi2 + zval)
            if m2 = 1 then
              let j ← rd input2 ((xval * yi2 + yval) * zi2 + zval)
              if 0 ≤ i ∧ i < levels1 ∧ 0 ≤ j ∧ j < levels2 then
                incr output (i * levels2 + j)
              else pure output
            else pure output
          else pure output
        else pure output) output) output) output

/-- Embedding of `makecomat4D_2T` (makecomat.c, lines 280-324). -/
def makecomat4D_2T (input1 mask1 : List Int) (xi1 yi1 zi1 ti1 : Int)
    (input2 mask2 : List Int) (xi2 yi2 zi2 ti2 : Int) (coords : List Int)
    (levels1 levels2 : Int) (output : List Int) : Option (List Int) :=
  let _ := xi2
  forLoop xi1 (fun x output =>
    forLoop yi1 (fun y output =>
      forLoop zi1 (fun z output =>
        forLoop ti1 (fun t output => do
          let m ← rd mask1 (((x * yi1 + y) * zi1 + z) * ti1 + t)
          if m = 1 then
            let i ← rd input1 (((x * yi1 + y) * zi1 + z) * ti1 + t)
            let c0 ← rd coords 0
            let xval := x + c0
            let c1 ← rd coords 1
            let yval := y + c1
            let c2 ← rd coords 2
            let zval := z + c2
            let c3 ← rd coords 3
            let tval := t + c3
            if 0 ≤ xval ∧ xval < xi1 ∧ 0 ≤ yval ∧ yval < yi1 ∧
                0 ≤ zval ∧ zval < zi1 ∧ 0 ≤ tval ∧ tval < ti1 then
              let m2 ← rd mask2 (((xval * yi2 + yval) * zi2 + zval) * ti2 + tval)
              if m2 = 1 then
                let j ← rd input2 (((xval * yi2 + yval) * zi2 + zval) * ti2 + tval)
                if 0 ≤ i ∧ i < levels1 ∧ 0 ≤ j ∧ j < levels2 then
                  incr output (i * levels2 + j)
                else pure output
              else pure output
            else pure output
          else pure output) output) output) output) output

/-! ## The common shape of the eight loop nests

Every loop body visits one centre.  It depends on the loop variables only
through the flat index `c` of the centre and the outcome `nb` of the neighbour
computation.  The definitions below name these two ingredients; the lemmas
`makecomat*_2T_run` show that each entry point is the fold of `visit` over its
list of cells. -/

/-- One visited centre.  `nb = none`: a read of `coords` left the buffer;
`nb = some none`: the neighbour fails the extent test; `nb = some (some n)`:
the neighbour passes and has flat index `n` in the second image. -/
def visit (input1 mask1 input2 mask2 : List Int) (levels1 levels2 : Int)
    (c : Int) (nb : Option (Option Int)) (output : List Int) : Option (List Int) := do
  let m ← rd mask1 c
  if m = 1 then
    let i ← rd input1 c
    let r ← nb
    match r with
    | none => pure output
    | some n =>
      let m2 ← rd mask2 n
      if m2 = 1 then
        let j ← rd input2 n
        if 0 ≤ i ∧ i < levels1 ∧ 0 ≤ j ∧ j < levels2 then
          incr output (i * levels2 + j)
        else pure output
      else pure output
  else pure output

/-- Fold of `visit` over a list of cells `(c, nb)`. -/
def run (input1 mask1 input2 mask2 : List Int) (levels1 levels2 : Int)
    (cells : List (Int × Option (Option Int))) (output : List Int) : Option (List Int) :=
  cells.foldlM (fun out q => visit input1 mask1 input2 mask2 levels1 levels2 q.1 q.2 out) output

/-- The values `0, 1, .., n-1` taken by a loop variable. -/
def grid1 (n : Int) : List Int := (List.range n.toNat).map (fun (k : Nat) => (k : Int))

/-- Neighbour computation of the rank-1 bodies. -/
def nbr1 (coords : List Int) (xi x : Int) : Option (Option Int) := do
  let c0 ← rd coords 0
  pure (if 0 ≤ x + c0 ∧ x + c0 < xi then some (x + c0) else none)

/-- Neighbour computation of the rank-2 bodies (`yi2`: stride of the second image). -/
def nbr2 (coords : List Int) (xi yi yi2 x y : Int) : Option (Option Int) := do
  let c0 ← rd coords 0
  let c1 ← rd coords 1
  pure (if 0 ≤ x + c0 ∧ x + c0 < xi ∧ 0 ≤ y + c1 ∧ y + c1 < yi then
    some ((x + c0) * yi2 + (y + c1)) else none)

/-- Neighbour computation of the rank-3 bodies. -/
def nbr3 (coords : List Int) (xi yi zi yi2 zi2 x y z : Int) : Option (Option Int) := do
  let c0 ← rd coords 0
  let c1 ← rd coords 1
  let c2 ← rd coords 2
  pure (if 0 ≤ x + c0 ∧ x + c0 < xi ∧ 0 ≤ y + c1 ∧ y + c1 < yi ∧ 0 ≤ z + c2 ∧ z + c2 < zi then
    some (((x + c0) * yi2 + (y + c1)) * zi2 + (z + c2)) else none)

/-- Neighbour computation of the rank-4 bodies. -/
def nbr4 (coords : List Int) (xi yi zi ti yi2 zi2 ti2 x y z t : Int) : Option (Option Int) := do
  let c0 ← rd coords 0
  let c1 ← rd coords 1
  let c2 ← rd coords 2
  let c3 ← rd coords 3
  pure (if 0 ≤ x + c0 ∧ x + c0 < xi ∧ 0 ≤ y + c1 ∧ y + c1 < yi ∧
      0 ≤ z + c2 ∧ z + c2 < zi ∧ 0 ≤ t + c3 ∧ t + c3 < ti then
    some ((((x + c0) * yi2 + (y + c1)) * zi2 + (z + c2)) * ti2 + (t + c3)) else none)

/-- Coordinates visited by the rank-2 loop nest, in loop order. -/
def pts2 (xi yi : Int) : List (Int × Int) := List.product (grid1 xi) (grid1 yi)

/-- Coordinates visited by the rank-3 loop nest, in loop order. -/
def pts3 (xi yi zi : Int) : List (Int × Int × Int) := List.product (grid1 xi) (pts2 yi zi)

/-- Coordinates visited by the rank-4 loop nest, in loop order. -/
def pts4 (xi yi zi ti : Int) : List (Int × Int × Int × Int) :=
  List.product (grid1 xi) (pts3 yi zi ti)

/-- Cell of a rank-1 coordinate. -/
def cell1 (coords : List Int) (xi : Int) (x : Int) : Int × Option (Option Int) :=
  (x, nbr1 coords xi x)

/-- Cell of a rank-2 coordinate. -/
def cell2 (coords : List Int) (xi yi yi2 : Int) (p : Int × Int) : Int × Option (Option Int) :=
  (p.1 * yi + p.2, nbr2 coords xi yi yi2 p.1 p.2)

/-- Cell of a rank-3 coordinate. -/
def cell3 (coords : List Int) (xi yi zi yi2 zi2 : Int) (p : Int × Int × Int) :
    Int × Option (Option Int) :=
  ((p.1 * yi + p.2.1) * zi + p.2.2, nbr3 coords xi yi zi yi2 zi2 p.1 p.2.1 p.2.2)

/-- Cell of a rank-4 coordinate. -/
def cell4 (coords : List Int) (xi yi zi ti yi2 zi2 ti2 : Int) (p : Int × Int × Int × Int) :
    Int × Option (Option Int) :=
  (((p.1 * yi + p.2.1) * zi + p.2.2.1) * ti + p.2.2.2,
    nbr4 coords xi yi zi ti yi2 zi2 ti2 p.1 p.2.1 p.2.2.1 p.2.2.2)

/-- Cells visited by the rank-1 loop, in loop order. -/
def cells1 (coords : List Int) (xi : Int) : List (Int × Option (Option Int)) :=
  (grid1 xi).map (cell1 coords xi)

/-- Cells visited by the rank-2 loop nest, in loop order. -/
def cells2 (coords : List Int) (xi yi yi2 : Int) : List (Int × Option (Option Int)) :=
  (pts2 xi yi).map (cell2 coords xi yi yi2)

/-- Cells visited by the rank-3 loop nest, in loop order. -/
def cells3 (coords : List Int) (xi yi zi yi2 zi2 : Int) : List (Int × Option (Option Int)) :=
  (pts3 xi yi zi).map (cell3 coords xi yi zi yi2 zi2)

/-- Cells visited by the rank-4 loop nest, in loop order. -/
def cells4 (coords : List Int) (xi yi zi ti yi2 zi2 ti2 : Int) :
    List (Int × Option (Option Int)) :=
  (pts4 xi yi zi ti).map (cell4 coords xi yi zi ti yi2 zi2 ti2)

/-! ## The histogram as a pure tally

When no access leaves a buffer the fold of `visit` computes a pure function of
the cells: each cell names at most one output index (`target`) and the output
is the initial buffer with one unit added per named index (`tally`). -/

/-- Total read, `0` outside the buffer. -/
def gd (b : List Int) (k : Int) : Int := (rd b k).getD 0

/-- The output index incremented at a cell, if any. -/
def target (input1 mask1 input2 mask2 : List Int) (levels1 levels2 : Int)
    (q : Int × Option (Option Int)) : Option Int :=
  match q.2 with
  | some (some n) =>
    if gd mask1 q.1 = 1 ∧ gd mask2 n = 1 ∧ 0 ≤ gd input1 q.1 ∧ gd input1 q.1 < levels1 ∧
        0 ≤ gd input2 n ∧ gd input2 n < levels2 then
      some (gd input1 q.1 * levels2 + gd input2 n)
    else none
  | _ => none

/-- Add one unit at an optional index. -/
def bump (out : List Int) (t : Option Int) : List Int :=
  match t with
  | none => out
  | some k => out.set k.toNat (gd out k + 1)

/-- The buffer after all cells have been visited. -/
def tally (input1 mask1 input2 mask2 : List Int) (levels1 levels2 : Int)
    (cells : List (Int × Option (Option Int))) (out : List Int) : List Int :=
  cells.foldl (fun out q => bump out (target input1 mask1 input2 mask2 levels1 levels2 q)) out

/-- Number of cells that name the output index `k`. -/
def hits (input1 mask1 input2 mask2 : List Int) (levels1 levels2 : Int)
    (cells : List (Int × Option (Option Int))) (k : Int) : Nat :=
  cells.countP (fun q => decide (target input1 mask1 input2 mask2 levels1 levels2 q = some k))

/-- A cell all of whose reads stay inside the buffers. -/
def Safe (input1 mask1 input2 mask2 : List Int) (q : Int × Option (Option Int)) : Prop :=
  (0 ≤ q.1 ∧ q.1 < mask1.length ∧ q.1 < input1.length) ∧
  ∃ r, q.2 = some r ∧ ∀ n, r = some n → 0 ≤ n ∧ n < mask2.length ∧ n < input2.length

/-! ## Machine integers

The entry points above compute on unbounded integers.  The definitions of this part repeat
them with the arithmetic of the C type `int` (32 bits, two's complement): every sum and
product is reduced modulo 2^32 into `[-2^31, 2^31)`.  ISO C leaves signed overflow undefined;
the reduction is what the usual compilers produce.  The properties proved of the `_i32`
entry points carry hypotheses under which no index and no counter leaves the range of
`int`.  The loop counter of `forLoop` runs below its bound, an `int`, so `x++` never
overflows. -/

/-- Two's-complement value of an `int` expression whose mathematical value is `n`. -/
def wrap (n : Int) : Int := (n + 2147483648) % 4294967296 - 2147483648

/-- Value of the `int` expression `a * b + c`. -/
def madd (a b c : Int) : Int := wrap (wrap (a * b) + c)

/-- The integer `v` is a value of the C type `int`. -/
@[reducible] def IsInt (v : Int) : Prop := -2147483648 ≤ v ∧ v ≤ 2147483647

/-- The statement `output[k]++` on an `int` counter: `none` when `k` is not an index of the
buffer. -/
def incr32 (output : List Int) (k : Int) : Option (List Int) :=
  match rd output k with
  | none => none
  | some v => some (output.set k.toNat (wrap (v + 1)))

/-! ## Single-image entry points, machine integers -/

/-- Machine embedding of `makecomat1D` (makecomat.c, lines 12-37): `int` arithmetic
modulo 2^32 (`wrap`, `madd`, `incr32`). -/
def makecomat1D_i32 (input mask : List Int) (xi : Int) (coords : List Int)
    (levels : Int) (output : List Int) :
    Option (List Int) :=
  forLoop xi (fun x output => do
    let m ← rd mask x
    if m = 1 then
      let i ← rd input x
      let c0 ← rd coords 0
      let xval := wrap (x + c0)
      if 0 ≤ xval ∧ xval < xi then
        let m2 ← rd mask xval
        if m2 = 1 then
          let j ← rd input xval
          if 0 ≤ i ∧ i < levels ∧ 0 ≤ j ∧ j < levels then
            incr32 output (madd i levels j)
          else pure output
        else pure output
      else pure output
    else pure output) output

/-- Machine embedding of `makecomat2D` (makecomat.c, lines 39-71): `int` arithmetic
modulo 2^32 (`wrap`, `madd`, `incr32`). -/
def makecomat2D_i32 (input mask : List Int) (xi yi : Int) (coords : List Int)
    (levels : Int) (output : List Int) :
    Option (List Int) :=
  forLoop xi (fun x output =>
    forLoop yi (fun y output => do
      let m ← rd mask (madd x yi y)
      if m = 1 then
        let i ← rd input (madd x yi y)
        let c0 ← rd coords 0
        let xval := wrap (x + c0)
        let c1 ← rd coords 1
        let yval := wrap (y + c1)
        if 0 ≤ xval ∧ xval < xi ∧ 0 ≤ yval ∧ yval < yi then
          let m2 ← rd mask (madd xval yi yval)
          if m2 = 1 then
            let j ← rd input (madd xval yi yval)
            if 0 ≤ i ∧ i < levels ∧ 0 ≤ j ∧ j < levels then
              incr32 output (madd i levels j)
            else pure output
          else pure output
        else pure output
      else pure output) output) output

/-- Machine embedding of `makecomat3D` (makecomat.c, lines 73-117): `int` arithmetic
modulo 2^32 (`wrap`, `madd`, `incr32`). -/
def makecomat3D_i32 (input mask : List Int) (xi yi zi : Int) (coords : List Int)
    (levels : Int) (output : List Int) :
    Option (List Int) :=
  forLoop xi (fun x output =>
    forLoop yi (fun y output =>
      forLoop zi (fun z output => do
        let m ← rd mask (madd (madd x yi y) zi z)
        if m = 1 then
          let i ← rd input (madd (madd x yi y) zi z)
          let c0 ← rd coords 0
          let xval := wrap (x + c0)
          let c1 ← rd coords 1
          let yval := wrap (y + c1)
          let c2 ← rd coords 2
          let zval := wrap (z + c2)
          if 0 ≤ xval ∧ xval < xi ∧ 0 ≤ yval ∧ yval < yi ∧ 0 ≤ zval ∧ zval < zi then
            let m2 ← rd mask (madd (madd xval yi yval) zi zval)
            if m2 = 1 then
              let j ← rd input (madd (madd xval yi yval) zi zval)
              if 0 ≤ i ∧ i < levels ∧ 0 ≤ j ∧ j < levels then
                incr32 output (madd i levels j)
              else pure output
            else pure output
          else pure output
        else pure output) output) output) output

/-- Machine embedding of `makecomat4D` (makecomat.c, lines 119-160): `int` arithmetic
modulo 2^32 (`wrap`, `madd`, `incr32`). -/
def makecomat4D_i32 (input mask : List Int) (xi yi zi ti : Int) (coords : List Int)
    (levels : Int) (output : List Int) :
    Option (List Int) :=
  forLoop xi (fun x output =>
    forLoop yi (fun y output =>
      forLoop zi (fun z output =>
        forLoop ti (fun t output => do
          let m ← rd mask (madd (madd (madd x yi y) zi z) ti t)
          if m = 1 then
            let i ← rd input (madd (madd (madd x yi y) zi z) ti t)
            let c0 ← rd coords 0
            let xval := wrap (x + c0)
            let c1 ← rd coords 1
            let yval := wrap (y + c1)
            let c2 ← rd coords 2
            let zval := wrap (z + c2)
            let c3 ← rd coords 3
            let tval := wrap (t + c3)
            if 0 ≤ xval ∧ xval < xi ∧ 0 ≤ yval ∧ yval < yi ∧ 0 ≤ zval ∧ zval < zi ∧ 0 ≤ tval ∧ tval < ti then
              let m2 ← rd mask (madd (madd (madd xval yi yval) zi zval) ti tval)
              if m2 = 1 then
                let j ← rd input (madd (madd (madd xval yi yval) zi zval) ti tval)
                if 0 ≤ i ∧ i < levels ∧ 0 ≤ j ∧ j < levels then
                  incr32 output (madd i levels j)
                else pure output
              else pure output
            else pure output
          else pure output) output) output) output) output

/-! ## Two-image entry points, machine integers -/

/-- Machine embedding of `makecomat1D_2T` (makecomat.c, lines 164-192): `int` arithmetic
modulo 2^32 (`wrap`, `madd`, `incr32`). -/
def makecomat1D_2T_i32 (input1 mask1 : List Int) (xi1 : Int) (input2 mask2 : List Int)
    (xi2 : Int) (coords : List Int) (levels1 levels2 : Int) (output : List Int) :
    Option (List Int) :=
  let _ := xi2
  forLoop xi1 (fun x output => do
    let m ← rd mask1 x
    if m = 1 then
      let i ← rd input1 x
      let c0 ← rd coords 0
      let xval := wrap (x + c0)
      if 0 ≤ xval ∧ xval < xi1 then
        let m2 ← rd mask2 xval
        if m2 = 1 then
          let j ← rd input2 xval
          if 0 ≤ i ∧ i < levels1 ∧ 0 ≤ j ∧ j < levels2 then
            incr32 output (madd i levels2 j)
          else pure output
        else pure output
      else pure output
    else pure output) output

/-- Machine embedding of `makecomat2D_2T` (makecomat.c, lines 194-229): `int` arithmetic
modulo 2^32 (`wrap`, `madd`, `incr32`). -/
def makecomat2D_2T_i32 (input1 mask1 : List Int) (xi1 yi1 : Int) (input2 mask2 : List Int)
    (xi2 yi2 : Int) (coords : List Int) (levels1 levels2 : Int) (output : List Int) :
    Option (List Int) :=
  let _ := xi2
  forLoop xi1 (fun x output =>
    forLoop yi1 (fun y output => do
      let m ← rd mask1 (madd x yi1 y)
      if m = 1 then
        let i ← rd input1 (madd x yi1 y)
        let c0 ← rd coords 0
        let xval := wrap (x + c0)
        let c1 ← rd coords 1
        let yval := wrap (y + c1)
        if 0 ≤ xval ∧ xval < xi1 ∧ 0 ≤ yval ∧ yval < yi1 then
          let m2 ← rd mask2 (madd xval yi2 yval)
          if m2 = 1 then
            let j ← rd input2 (madd xval yi2 yval)
            if 0 ≤ i ∧ i < levels1 ∧ 0 ≤ j ∧ j < levels2 then
              incr32 output (madd i levels2 j)
            else pure output
          else pure output
        else pure output
      else pure output) output) output

/-- Machine embedding of `makecomat3D_2T` (makecomat.c, lines 231-278): `int` arithmetic
modulo 2^32 (`wrap`, `madd`, `incr32`). -/
def makecomat3D_2T_i32 (input1 mask1 : List Int) (xi1 yi1 zi1 : Int) (input2 mask2 : List Int)
    (xi2 yi2 zi2 : Int) (coords : List Int) (levels1 levels2 : Int) (output : List Int) :
    Option (List Int) :=
  let _ := xi2
  forLoop xi1 (fun x output =>
    forLoop yi1 (fun y output =>
      forLoop zi1 (fun z output => do
        let m ← rd mask1 (madd (madd x yi1 y) zi1 z)
        if m = 1 then
          let i ← rd input1 (madd (madd x yi1 y) zi1 z)
          let c0 ← rd coords 0
          let xval := wrap (x + c0)
          let c1 ← rd coords 1
          let yval := wrap (y + c1)
          let c2 ← rd coords 2
          let zval := wrap (z + c2)
          if 0 ≤ xval ∧ xval < xi1 ∧ 0 ≤ yval ∧ yval < yi1 ∧ 0 ≤ zval ∧ zval < zi1 then
            let m2 ← rd mask2 (madd (madd xval yi2 yval) zi2 zval)
            if m2 = 1 then
              let j ← rd input2 (madd (madd xval yi2 yval) zi2 zval)
              if 0 ≤ i ∧ i < levels1 ∧ 0 ≤ j ∧ j < levels2 then
                incr32 output (madd i levels2 j)
              else pure output
            else pure output
          else pure output
        else pure output) output) output) output

/-- Machine embedding of `makecomat4D_2T` (makecomat.c, lines 280-324): `int` arithmetic
modulo 2^32 (`wrap`, `madd`, `incr32`). -/
def makecomat4D_2T_i32 (input1 mask1 : List Int) (xi1 yi1 zi1 ti1 : Int) (input2 mask2 : List Int)
    (xi2 yi2 zi2 ti2 : Int) (coords : List Int) (levels1 levels2 : Int) (output : List Int) :
    Option (List Int) :=
  let _ := xi2
  forLoop xi1 (fun x output =>
    forLoop yi1 (fun y output =>
      forLoop zi1 (fun z output =>
        forLoop ti1 (fun t output => do
          let m ← rd mask1 (madd (madd (madd x yi1 y) zi1 z) ti1 t)
          if m = 1 then
            let i ← rd input1 (madd (madd (madd x yi1 y) zi1 z) ti1 t)
            let c0 ← rd coords 0
            let xval := wrap (x + c0)
            let c1 ← rd coords 1
            let yval := wrap (y + c1)
            let c2 ← rd coords 2
            let zval := wrap (z + c2)
            let c3 ← rd coords 3
            let tval := wrap (t + c3)
            if 0 ≤ xval ∧ xval < xi1 ∧ 0 ≤ yval ∧ yval < yi1 ∧ 0 ≤ zval ∧ zval < zi1 ∧ 0 ≤ tval ∧ tval < ti1 then
              let m2 ← rd mask2 (madd (madd (madd xval yi2 yval) zi2 zval) ti2 tval)
              if m2 = 1 then
                let j ← rd input2 (madd (madd (madd xval yi2 yval) zi2 zval) ti2 tval)
                if 0 ≤ i ∧ i < levels1 ∧ 0 ≤ j ∧ j < levels2 then
                  incr32 output (madd i levels2 j)
                else pure output
              else pure output
            else pure output
          else pure output) output) output) output) output

/-! ## The loop nest of `makecomat4D` with its visits recorded -/

/-- The machine embedding of `makecomat4D` with a ghost trace: the state is the output buffer
paired with the list of flat offsets of the centres visited so far; the offset of the centre
is appended at each execution of the loop body (makecomat.c, lines 128-159). -/
def makecomat4D_i32_traced (input mask : List Int) (xi yi zi ti : Int) (coords : List Int)
    (levels : Int) (state : List Int × List Int) :
    Option (List Int × List Int) :=
  forLoop xi (fun x state =>
    forLoop yi (fun y state =>
      forLoop zi (fun z state =>
        forLoop ti (fun t state => do
          let output := state.1
          let visited := state.2 ++ [madd (madd (madd x yi y) zi z) ti t]
          let o ← (do
            let m ← rd mask (madd (madd (madd x yi y) zi z) ti t)
            if m = 1 then
              let i ← rd input (madd (madd (madd x yi y) zi z) ti t)
              let c0 ← rd coords 0
              let xval := wrap (x + c0)
              let c1 ← rd coords 1
              let yval := wrap (y + c1)
              let c2 ← rd coords 2
              let zval := wrap (z + c2)
              let c3 ← rd coords 3
              let tval := wrap (t + c3)
              if 0 ≤ xval ∧ xval < xi ∧ 0 ≤ yval ∧ yval < yi ∧ 0 ≤ zval ∧ zval < zi ∧ 0 ≤ tval ∧ tval < ti then
                let m2 ← rd mask (madd (madd (madd xval yi yval) zi zval) ti tval)
                if m2 = 1 then
                  let j ← rd input (madd (madd (madd xval yi yval) zi zval) ti tval)
                  if 0 ≤ i ∧ i < levels ∧ 0 ≤ j ∧ j < levels then
                    incr32 output (madd i levels j)
                  else pure output
                else pure output
              else pure output
            else pure output)
          pure (o, visited)) state) state) state) state

/-! ## The common shape of the machine loop nests -/

/-- One visited centre, machine arithmetic: `visit` with the output index computed by `madd`
and the counter incremented by `incr32`. -/
def visit32 (input1 mask1 input2 mask2 : List Int) (levels1 levels2 : Int)
    (c : Int) (nb : Option (Option Int)) (output : List Int) : Option (List Int) := do
  let m ← rd mask1 c
  if m = 1 then
    let i ← rd input1 c
    let r ← nb
    match r with
    | none => pure output
    | some n =>
      let m2 ← rd mask2 n
      if m2 = 1 then
        let j ← rd input2 n
        if 0 ≤ i ∧ i < levels1 ∧ 0 ≤ j ∧ j < levels2 then
          incr32 output (madd i levels2 j)
        else pure output
      else pure output
  else pure output

/-- Fold of `visit32` over a list of cells. -/
def run32 (input1 mask1 input2 mask2 : List Int) (levels1 levels2 : Int)
    (cells : List (Int × Option (Option Int))) (output : List Int) : Option (List Int) :=
  cells.foldlM (fun out q => visit32 input1 mask1 input2 mask2 levels1 levels2 q.1 q.2 out)
    output

/-- Neighbour computation of the rank-1 machine bodies. -/
def nbr32_1 (coords : List Int) (xi x : Int) : Option (Option Int) := do
  let c0 ← rd coords 0
  pure (if 0 ≤ wrap (x + c0) ∧ wrap (x + c0) < xi then
    some ((wrap (x + c0))) else none)

/-- Neighbour computation of the rank-2 machine bodies. -/
def nbr32_2 (coords : List Int) (xi yi yi2 x y : Int) : Option (Option Int) := do
  let c0 ← rd coords 0
  let c1 ← rd coords 1
  pure (if 0 ≤ wrap (x + c0) ∧ wrap (x + c0) < xi ∧
      0 ≤ wrap (y + c1) ∧ wrap (y + c1) < yi then
    some (madd (wrap (x + c0)) yi2 (wrap (y + c1))) else none)

/-- Neighbour computation of the rank-3 machine bodies. -/
def nbr32_3 (coords : List Int) (xi yi zi yi2 zi2 x y z : Int) : Option (Option Int) := do
  let c0 ← rd coords 0
  let c1 ← rd coords 1
  let c2 ← rd coords 2
  pure (if 0 ≤ wrap (x + c0) ∧ wrap (x + c0) < xi ∧
      0 ≤ wrap (y + c1) ∧ wrap (y + c1) < yi ∧
      0 ≤ wrap (z + c2) ∧ wrap (z + c2) < zi then
    some (madd (madd (wrap (x + c0)) yi2 (wrap (y + c1))) zi2 (wrap (z + c2))) else none)

/-- Neighbour computation of the rank-4 machine bodies. -/
def nbr32_4 (coords : List Int) (xi yi zi ti yi2 zi2 ti2 x y z t : Int) : Option (Option Int) := do
  let c0 ← rd coords 0
  let c1 ← rd coords 1
  let c2 ← rd coords 2
  let c3 ← rd coords 3
  pure (if 0 ≤ wrap (x + c0) ∧ wrap (x + c0) < xi ∧
      0 ≤ wrap (y + c1) ∧ wrap (y + c1) < yi ∧
      0 ≤ wrap (z + c2) ∧ wrap (z + c2) < zi ∧
      0 ≤ wrap (t + c3) ∧ wrap (t + c3) < ti then
    some (madd (madd (madd (wrap (x + c0)) yi2 (wrap (y + c1))) zi2 (wrap (z + c2))) ti2 (wrap (t + c3))) else none)

/-- Cell of a rank-1 coordinate, machine arithmetic. -/
def cell32_1 (coords : List Int) (xi : Int) (x : Int) : Int × Option (Option Int) :=
  (x, nbr32_1 coords xi x)

/-- Cell of a rank-2 coordinate, machine arithmetic. -/
def cell32_2 (coords : List Int) (xi yi yi2 : Int) (p : Int × Int) :
    Int × Option (Option Int) :=
  (madd p.1 yi p.2, nbr32_2 coords xi yi yi2 p.1 p.2)

/-- Cell of a rank-3 coordinate, machine arithmetic. -/
def cell32_3 (coords : List Int) (xi yi zi yi2 zi2 : Int) (p : Int × Int × Int) :
    Int × Option (Option Int) :=
  (madd (madd p.1 yi p.2.1) zi p.2.2, nbr32_3 coords xi yi zi yi2 zi2 p.1 p.2.1 p.2.2)

/-- Cell of a rank-4 coordinate, machine arithmetic. -/
def cell32_4 (coords : List Int) (xi yi zi ti yi2 zi2 ti2 : Int) (p : Int × Int × Int × Int) :
    Int × Option (Option Int) :=
  (madd (madd (madd p.1 yi p.2.1) zi p.2.2.1) ti p.2.2.2, nbr32_4 coords xi yi zi ti yi2 zi2 ti2 p.1 p.2.1 p.2.2.1 p.2.2.2)

/-- Cells visited by the rank-1 loop nest, machine arithmetic. -/
def cells32_1 (coords : List Int) (xi : Int) :
    List (Int × Option (Option Int)) :=
  (grid1 xi).map (cell32_1 coords xi)

/-- Cells visited by the rank-2 loop nest, machine arithmetic. -/
def cells32_2 (coords : List Int) (xi yi yi2 : Int) :
    List (Int × Option (Option Int)) :=
  (pts2 xi yi).map (cell32_2 coords xi yi yi2)

/-- Cells visited by the rank-3 loop nest, machine arithmetic. -/
def cells32_3 (coords : List Int) (xi yi zi yi2 zi2 : Int) :
    List (Int × Option (Option Int)) :=
  (pts3 xi yi zi).map (cell32_3 coords xi yi zi yi2 zi2)

/-- Cells visited by the rank-4 loop nest, machine arithmetic. -/
def cells32_4 (coords : List Int) (xi yi zi ti yi2 zi2 ti2 : Int) :
    List (Int × Option (Option Int)) :=
  (pts4 xi yi zi ti).map (cell32_4 coords xi yi zi ti yi2 zi2 ti2)

/-! ## Structural lemmas -/

theorem forLoop_eq_grid1 {σ : Type} (n : Int) (body : Int → σ → Option σ) (s : σ) :
    forLoop n body s = (grid1 n).foldlM (fun s x => body x s) s := by
  unfold forLoop grid1
  rw [List.foldlM_map]

theorem foldlM_flatMap {α β σ : Type} (l : List α) (g : α → List β)
    (f : σ → β → Option σ) (s : σ) :
    (l.flatMap g).foldlM f s = l.foldlM (fun s a => (g a).foldlM f s) s := by
  induction l generalizing s with
  | nil => rfl
  | cons a l ih =>
    simp only [List.flatMap_cons, List.foldlM_append, List.foldlM_cons]
    cases (g a).foldlM f s with
    | none => rfl
    | some s1 => exact ih s1

theorem foldlM_product {α β σ : Type} (l1 : List α) (l2 : List β)
    (f : σ → α × β → Option σ) (s : σ) :
    (List.product l1 l2).foldlM f s =
      l1.foldlM (fun s a => l2.foldlM (fun s b => f s (a, b)) s) s := by
  unfold List.product
  rw [foldlM_flatMap]
  simp only [List.foldlM_map]

theorem makecomat1D_2T_run (input1 mask1 : List Int) (xi1 : Int) (input2 mask2 : List Int)
    (xi2 : Int) (coords : List Int) (levels1 levels2 : Int) (output : List Int) :
    makecomat1D_2T input1 mask1 xi1 input2 mask2 xi2 coords levels1 levels2 output =
      run input1 mask1 input2 mask2 levels1 levels2 (cells1 coords xi1) output := by
  unfold makecomat1D_2T run cells1 cell1
  simp only [forLoop_eq_grid1, List.foldlM_map]
  congr 1
  funext out x
  unfold visit nbr1
  cases rd mask1 x with
  | none => rfl
  | some m =>
    by_cases hm : m = 1
    swap
    · simp only [Option.some_bind, Option.bind_eq_bind, if_neg hm]
    subst hm
    cases rd input1 x with
    | none => rfl
    | some i =>
      cases rd coords 0 with
      | none => rfl
      | some c0 =>
        simp only [Option.some_bind, Option.bind_eq_bind, Option.pure_def, if_true]
        split_ifs <;> rfl

theorem makecomat2D_2T_run (input1 mask1 : List Int) (xi1 yi1 : Int)
    (input2 mask2 : List Int) (xi2 yi2 : Int) (coords : List Int)
    (levels1 levels2 : Int) (output : List Int) :
    makecomat2D_2T input1 mask1 xi1 yi1 input2 mask2 xi2 yi2 coords levels1 levels2 output =
      run input1 mask1 input2 mask2 levels1 levels2 (cells2 coords xi1 yi1 yi2) output := by
  unfold makecomat2D_2T run cells2 pts2 cell2
  simp only [forLoop_eq_grid1, List.foldlM_map, foldlM_product]
  congr 1
  funext out x
  congr 1
  funext out y
  unfold visit nbr2
  cases rd mask1 (x * yi1 + y) with
  | none => rfl
  | some m =>
    by_cases hm : m = 1
    swap
    · simp only [Option.some_bind, Option.bind_eq_bind, if_neg hm]
    subst hm
    cases rd input1 (x * yi1 + y) with
    | none => rfl
    | some i =>
      cases rd coords 0 with
      | none => rfl
      | some c0 =>
        cases rd coords 1 with
        | none => rfl
        | some c1 =>
          simp only [Option.some_bind, Option.bind_eq_bind, Option.pure_def, if_true]
          split_ifs <;> rfl

theorem makecomat3D_2T_run (input1 mask1 : List Int) (xi1 yi1 zi1 : Int)
    (input2 mask2 : List Int) (xi2 yi2 zi2 : Int) (coords : List Int)
    (levels1 levels2 : Int) (output : List Int) :
    makecomat3D_2T input1 mask1 xi1 yi1 zi1 input2 mask2 xi2 yi2 zi2 coords
        levels1 levels2 output =
      run input1 mask1 input2 mask2 levels1 levels2 (cells3 coords xi1 yi1 zi1 yi2 zi2)
        output := by
  unfold makecomat3D_2T run cells3 pts3 pts2 cell3
  simp only [forLoop_eq_grid1, List.foldlM_map, foldlM_product]
  congr 1
  funext out x
  congr 1
  funext out y
  congr 1
  funext out z
  unfold visit nbr3
  cases rd mask1 ((x * yi1 + y) * zi1 + z) with
  | none => rfl
  | some m =>
    by_cases hm : m = 1
    swap
    · simp only [Option.some_bind, Option.bind_eq_bind, if_neg hm]
    subst hm
    cases rd input1 ((x * yi1 + y) * zi1 + z) with
    | none => rfl
    | some i =>
      cases rd coords 0 with
      | none => rfl
      | some c0 =>
        cases rd coords 1 with
        | none => rfl
        | some c1 =>
          cases rd coords 2 with
          | none => rfl
          | some c2 =>
            simp only [Option.some_bind, Option.bind_eq_bind, Option.pure_def, if_true]
            split_ifs <;> rfl

theorem makecomat4D_2T_run (input1 mask1 : List Int) (xi1 yi1 zi1 ti1 : Int)
    (input2 mask2 : List Int) (xi2 yi2 zi2 ti2 : Int) (coords : List Int)
    (levels1 levels2 : Int) (output : List Int) :
    makecomat4D_2T input1 mask1 xi1 yi1 zi1 ti1 input2 mask2 xi2 yi2 zi2 ti2 coords
        levels1 levels2 output =
      run input1 mask1 input2 mask2 levels1 levels2
        (cells4 coords xi1 yi1 zi1 ti1 yi2 zi2 ti2) output := by
  unfold makecomat4D_2T run cells4 pts4 pts3 pts2 cell4
  simp only [forLoop_eq_grid1, List.foldlM_map, foldlM_product]
  congr 1
  funext out x
  congr 1
  funext out y
  congr 1
  funext out z
  congr 1
  funext out t
  unfold visit nbr4
  cases rd mask1 (((x * yi1 + y) * zi1 + z) * ti1 + t) with
  | none => rfl
  | some m =>
    by_cases hm : m = 1
    swap
    · simp only [Option.some_bind, Option.bind_eq_bind, if_neg hm]
    subst hm
    cases rd input1 (((x * yi1 + y) * zi1 + z) * ti1 + t) with
    | none => rfl
    | some i =>
      cases rd coords 0 with
      | none => rfl
      | some c0 =>
        cases rd coords 1 with
        | none => rfl
        | some c1 =>
          cases rd coords 2 with
          | none => rfl
          | some c2 =>
            cases rd coords 3 with
            | none => rfl
            | some c3 =>
              simp only [Option.some_bind, Option.bind_eq_bind, Option.pure_def, if_true]
              split_ifs <;> rfl

/-! The single-image entry points are the two-image ones applied to one image. -/

theorem makecomat1D_self (input mask : List Int) (xi : Int) (coords : List Int)
    (levels : Int) (output : List Int) :
    makecomat1D_2T input mask xi input mask xi coords levels levels output =
      makecomat1D input mask xi coords levels output := rfl

theorem makecomat2D_self (input mask : List Int) (xi yi : Int) (coords : List Int)
    (levels : Int) (output : List Int) :
    makecomat2D_2T input mask xi yi input mask xi yi coords levels levels output =
      makecomat2D input mask xi yi coords levels output := rfl

theorem makecomat3D_self (input mask : List Int) (xi yi zi : Int) (coords : List Int)
    (levels : Int) (output : List Int) :
    makecomat3D_2T input mask xi yi zi input mask xi yi zi coords levels levels output =
      makecomat3D input mask xi yi zi coords levels output := rfl

theorem makecomat4D_self (input mask : List Int) (xi yi zi ti : Int) (coords : List Int)
    (levels : Int) (output : List Int) :
    makecomat4D_2T input mask xi yi zi ti input mask xi yi zi ti coords levels levels output =
      makecomat4D input mask xi yi zi ti coords levels output := rfl

/-! ## From the monadic fold to the pure tally -/

theorem rd_of_lt (b : List Int) (k : Int) (h0 : 0 ≤ k) (h1 : k < b.length) :
    rd b k = some (gd b k) := by
  have h : k.toNat < b.length := by omega
  simp [gd, rd, h0, List.getElem?_eq_getElem h]

theorem rd_eq_some_iff (b : List Int) (k v : Int) (h0 : 0 ≤ k) (h1 : k < b.length) :
    rd b k = some v ↔ gd b k = v := by
  rw [rd_of_lt b k h0 h1]
  simp

theorem bump_length (out : List Int) (t : Option Int) : (bump out t).length = out.length := by
  cases t <;> simp [bump]

theorem incr_of_lt (out : List Int) (k : Int) (h0 : 0 ≤ k) (h1 : k < out.length) :
    incr out k = some (bump out (some k)) := by
  simp [incr, rd_of_lt out k h0 h1, bump]

theorem flat_bound (a b A B : Int) (ha : 0 ≤ a) (hA : a < A) (hb : 0 ≤ b) (hB : b < B) :
    0 ≤ a * B + b ∧ a * B + b < A * B := by
  constructor
  · have : 0 ≤ a * B := mul_nonneg ha (by omega)
    omega
  · have h : (a + 1) * B ≤ A * B := mul_le_mul_of_nonneg_right (by omega) (by omega)
    have h2 : (a + 1) * B = a * B + B := by ring
    omega

theorem visit_safe (input1 mask1 input2 mask2 : List Int) (levels1 levels2 : Int)
    (q : Int × Option (Option Int)) (out : List Int)
    (hq : Safe input1 mask1 input2 mask2 q) (hout : levels1 * levels2 ≤ out.length) :
    visit input1 mask1 input2 mask2 levels1 levels2 q.1 q.2 out =
      some (bump out (target input1 mask1 input2 mask2 levels1 levels2 q)) := by
  obtain ⟨c, nb⟩ := q
  obtain ⟨⟨hc0, hcm, hci⟩, r, hr, hn⟩ := hq
  simp only at hc0 hcm hci hr
  subst hr
  unfold visit target
  rw [rd_of_lt mask1 c hc0 hcm, rd_of_lt input1 c hc0 hci]
  cases r with
  | none => simp [bump]
  | some n =>
    obtain ⟨hn0, hnm, hni⟩ := hn n rfl
    simp only [Option.some_bind, Option.bind_eq_bind, Option.pure_def]
    rw [rd_of_lt mask2 n hn0 hnm, rd_of_lt input2 n hn0 hni]
    simp only [Option.some_bind]
    by_cases h1 : gd mask1 c = 1
    · by_cases h2 : gd mask2 n = 1
      · by_cases h3 : 0 ≤ gd input1 c ∧ gd input1 c < levels1 ∧
            0 ≤ gd input2 n ∧ gd input2 n < levels2
        · have hb := flat_bound (gd input1 c) (gd input2 n) levels1 levels2
            h3.1 h3.2.1 h3.2.2.1 h3.2.2.2
          rw [if_pos h1, if_pos h2, if_pos h3, if_pos ⟨h1, h2, h3⟩]
          exact incr_of_lt out _ hb.1 (by omega)
        · rw [if_pos h1, if_pos h2, if_neg h3, if_neg (fun h => h3 h.2.2)]
          rfl
      · rw [if_pos h1, if_neg h2, if_neg (fun h => h2 h.2.1)]
        rfl
    · rw [if_neg h1, if_neg (fun h => h1 h.1)]
      rfl

theorem run_eq_tally (input1 mask1 input2 mask2 : List Int) (levels1 levels2 : Int)
    (cells : List (Int × Option (Option Int))) (out : List Int)
    (hs : ∀ q ∈ cells, Safe input1 mask1 input2 mask2 q)
    (hout : levels1 * levels2 ≤ out.length) :
    run input1 mask1 input2 mask2 levels1 levels2 cells out =
      some (tally input1 mask1 input2 mask2 levels1 levels2 cells out) := by
  induction cells generalizing out with
  | nil => rfl
  | cons q cells ih =>
    have hq := hs q (List.mem_cons_self _ _)
    unfold run tally
    rw [List.foldlM_cons, visit_safe _ _ _ _ _ _ q out hq hout]
    simp only [List.foldl_cons, Option.some_bind, Option.bind_eq_bind]
    exact ih _ (fun p hp => hs p (List.mem_cons_of_mem _ hp)) (by rw [bump_length]; exact hout)

theorem gd_set (out : List Int) (a : Nat) (v : Int) (k : Int) (ha : a < out.length) :
    gd (out.set a v) k = if 0 ≤ k ∧ k.toNat = a then v else gd out k := by
  unfold gd rd
  by_cases h0 : 0 ≤ k
  · by_cases h1 : k.toNat = a
    · subst h1
      simp [h0, ha]
    · simp [h0, h1, List.getElem?_set_ne (Ne.symm h1)]
  · simp [h0]

theorem gd_bump (out : List Int) (t k : Int) (ht0 : 0 ≤ t) (ht : t < out.length) :
    gd (bump out (some t)) k = gd out k + if t = k then 1 else 0 := by
  have ha : t.toNat < out.length := by omega
  unfold bump
  simp only
  rw [gd_set out t.toNat _ k ha]
  by_cases h : t = k
  · subst h
    simp [ht0]
  · have : ¬ (0 ≤ k ∧ k.toNat = t.toNat) := by omega
    simp [h, this]

theorem target_bound (input1 mask1 input2 mask2 : List Int) (levels1 levels2 : Int)
    (q : Int × Option (Option Int)) (t : Int)
    (h : target input1 mask1 input2 mask2 levels1 levels2 q = some t) :
    0 ≤ t ∧ t < levels1 * levels2 := by
  unfold target at h
  split at h
  · split_ifs at h with hc
    obtain ⟨_, _, h1, h2, h3, h4⟩ := hc
    cases h
    exact flat_bound _ _ _ _ h1 h2 h3 h4
  · cases h

theorem tally_length (input1 mask1 input2 mask2 : List Int) (levels1 levels2 : Int)
    (cells : List (Int × Option (Option Int))) (out : List Int) :
    (tally input1 mask1 input2 mask2 levels1 levels2 cells out).length = out.length := by
  induction cells generalizing out with
  | nil => rfl
  | cons q cells ih =>
    unfold tally
    rw [List.foldl_cons]
    exact (ih _).trans (bump_length _ _)

theorem gd_tally (input1 mask1 input2 mask2 : List Int) (levels1 levels2 : Int)
    (cells : List (Int × Option (Option Int))) (out : List Int) (k : Int)
    (hout : levels1 * levels2 ≤ out.length) :
    gd (tally input1 mask1 input2 mask2 levels1 levels2 cells out) k =
      gd out k + hits input1 mask1 input2 mask2 levels1 levels2 cells k := by
  induction cells generalizing out with
  | nil => simp [tally, hits]
  | cons q cells ih =>
    unfold tally hits
    rw [List.foldl_cons, List.countP_cons]
    have := ih (bump out (target input1 mask1 input2 mask2 levels1 levels2 q))
      (by rw [bump_length]; exact hout)
    unfold tally hits at this
    rw [this]
    cases ht : target input1 mask1 input2 mask2 levels1 levels2 q with
    | none => simp [bump]
    | some t =>
      obtain ⟨h0, h1⟩ := target_bound _ _ _ _ _ _ _ _ ht
      rw [gd_bump out t k h0 (by omega)]
      by_cases h : t = k
      · simp [h]; ring
      · simp [h]

theorem rd_tally (input1 mask1 input2 mask2 : List Int) (levels1 levels2 : Int)
    (cells : List (Int × Option (Option Int))) (out : List Int) (k : Int)
    (hout : levels1 * levels2 ≤ out.length) (h0 : 0 ≤ k) (h1 : k < out.length) :
    rd (tally input1 mask1 input2 mask2 levels1 levels2 cells out) k =
      some (gd out k + hits input1 mask1 input2 mask2 levels1 levels2 cells k) := by
  rw [rd_of_lt _ k h0 (by rw [tally_length]; exact h1), gd_tally _ _ _ _ _ _ _ _ _ hout]

theorem mem_grid1 (n x : Int) : x ∈ grid1 n ↔ 0 ≤ x ∧ x < n := by
  unfold grid1
  simp only [List.mem_map, List.mem_range]
  constructor
  · rintro ⟨k, hk, rfl⟩
    omega
  · rintro ⟨h0, h1⟩
    exact ⟨x.toNat, by omega, by omega⟩

theorem nodup_grid1 (n : Int) : (grid1 n).Nodup :=
  (List.nodup_range _).map (fun a b h => by simpa using h)

theorem mem_pts2 (xi yi : Int) (p : Int × Int) :
    p ∈ pts2 xi yi ↔ (0 ≤ p.1 ∧ p.1 < xi) ∧ (0 ≤ p.2 ∧ p.2 < yi) := by
  obtain ⟨x, y⟩ := p
  simp only [pts2, List.pair_mem_product, mem_grid1]

theorem mem_pts3 (xi yi zi : Int) (p : Int × Int × Int) :
    p ∈ pts3 xi yi zi ↔
      (0 ≤ p.1 ∧ p.1 < xi) ∧ (0 ≤ p.2.1 ∧ p.2.1 < yi) ∧ (0 ≤ p.2.2 ∧ p.2.2 < zi) := by
  obtain ⟨x, y, z⟩ := p
  simp only [pts3, List.pair_mem_product, mem_grid1, mem_pts2]

theorem mem_pts4 (xi yi zi ti : Int) (p : Int × Int × Int × Int) :
    p ∈ pts4 xi yi zi ti ↔
      (0 ≤ p.1 ∧ p.1 < xi) ∧ (0 ≤ p.2.1 ∧ p.2.1 < yi) ∧ (0 ≤ p.2.2.1 ∧ p.2.2.1 < zi) ∧
        (0 ≤ p.2.2.2 ∧ p.2.2.2 < ti) := by
  obtain ⟨x, y, z, t⟩ := p
  simp only [pts4, List.pair_mem_product, mem_grid1, mem_pts3]

theorem nodup_pts2 (xi yi : Int) : (pts2 xi yi).Nodup :=
  List.Nodup.product (nodup_grid1 _) (nodup_grid1 _)

theorem nodup_pts3 (xi yi zi : Int) : (pts3 xi yi zi).Nodup :=
  List.Nodup.product (nodup_grid1 _) (nodup_pts2 _ _)

theorem nodup_pts4 (xi yi zi ti : Int) : (pts4 xi yi zi ti).Nodup :=
  List.Nodup.product (nodup_grid1 _) (nodup_pts3 _ _ _)

theorem countP_eq_card {α : Type} [DecidableEq α] (l : List α) (hl : l.Nodup) (s : Finset α)
    (hs : ∀ a, a ∈ s ↔ a ∈ l) (p : α → Prop) [DecidablePred p] :
    l.countP (fun a => decide (p a)) = (s.filter p).card := by
  rw [List.countP_eq_length_filter, ← List.toFinset_card_of_nodup (hl.filter _)]
  congr 1
  ext a
  simp [hs]
  

/-! ## Every access of a well-formed call stays inside its buffer -/

theorem nbr1_eq (coords : List Int) (xi x : Int) (hc : 1 ≤ coords.length) :
    nbr1 coords xi x =
      some (if 0 ≤ x + gd coords 0 ∧ x + gd coords 0 < xi then some (x + gd coords 0)
        else none) := by
  unfold nbr1
  rw [rd_of_lt coords 0 (le_refl _) (by omega)]
  rfl

theorem nbr2_eq (coords : List Int) (xi yi yi2 x y : Int) (hc : 2 ≤ coords.length) :
    nbr2 coords xi yi yi2 x y =
      some (if 0 ≤ x + gd coords 0 ∧ x + gd coords 0 < xi ∧
          0 ≤ y + gd coords 1 ∧ y + gd coords 1 < yi then
        some ((x + gd coords 0) * yi2 + (y + gd coords 1)) else none) := by
  unfold nbr2
  rw [rd_of_lt coords 0 (le_refl _) (by omega), rd_of_lt coords 1 (by omega) (by omega)]
  rfl

theorem nbr3_eq (coords : List Int) (xi yi zi yi2 zi2 x y z : Int) (hc : 3 ≤ coords.length) :
    nbr3 coords xi yi zi yi2 zi2 x y z =
      some (if 0 ≤ x + gd coords 0 ∧ x + gd coords 0 < xi ∧
          0 ≤ y + gd coords 1 ∧ y + gd coords 1 < yi ∧
          0 ≤ z + gd coords 2 ∧ z + gd coords 2 < zi then
        some (((x + gd coords 0) * yi2 + (y + gd coords 1)) * zi2 + (z + gd coords 2))
        else none) := by
  unfold nbr3
  rw [rd_of_lt coords 0 (le_refl _) (by omega), rd_of_lt coords 1 (by omega) (by omega),
    rd_of_lt coords 2 (by omega) (by omega)]
  rfl

theorem nbr4_eq (coords : List Int) (xi yi zi ti yi2 zi2 ti2 x y z t : Int)
    (hc : 4 ≤ coords.length) :
    nbr4 coords xi yi zi ti yi2 zi2 ti2 x y z t =
      some (if 0 ≤ x + gd coords 0 ∧ x + gd coords 0 < xi ∧
          0 ≤ y + gd coords 1 ∧ y + gd coords 1 < yi ∧
          0 ≤ z + gd coords 2 ∧ z + gd coords 2 < zi ∧
          0 ≤ t + gd coords 3 ∧ t + gd coords 3 < ti then
        some ((((x + gd coords 0) * yi2 + (y + gd coords 1)) * zi2 + (z + gd coords 2)) * ti2
          + (t + gd coords 3))
        else none) := by
  unfold nbr4
  rw [rd_of_lt coords 0 (le_refl _) (by omega), rd_of_lt coords 1 (by omega) (by omega),
    rd_of_lt coords 2 (by omega) (by omega), rd_of_lt coords 3 (by omega) (by omega)]
  rfl

theorem flat_bound_le (a b A B A2 B2 : Int) (ha : 0 ≤ a) (hA : a < A) (hb : 0 ≤ b) (hB : b < B)
    (hAA : A ≤ A2) (hBB : B ≤ B2) : 0 ≤ a * B2 + b ∧ a * B2 + b < A2 * B2 :=
  flat_bound a b A2 B2 ha (by omega) hb (by omega)

theorem safe_cells1 (input1 mask1 input2 mask2 coords : List Int) (xi1 xi2 : Int)
    (hm1 : xi1 ≤ mask1.length) (hi1 : xi1 ≤ input1.length) (hc : 1 ≤ coords.length)
    (hx : xi1 ≤ xi2) (hm2 : xi2 ≤ mask2.length) (hi2 : xi2 ≤ input2.length) :
    ∀ q ∈ cells1 coords xi1, Safe input1 mask1 input2 mask2 q := by
  intro q hq
  obtain ⟨x, hx1, rfl⟩ := List.mem_map.1 hq
  rw [mem_grid1] at hx1
  refine ⟨⟨hx1.1, by simp only [cell1]; omega, by simp only [cell1]; omega⟩, _,
    nbr1_eq coords xi1 x hc, ?_⟩
  intro n hn
  split_ifs at hn with h
  cases hn
  omega

theorem safe_cells2 (input1 mask1 input2 mask2 coords : List Int) (xi1 yi1 xi2 yi2 : Int)
    (hm1 : xi1 * yi1 ≤ mask1.length) (hi1 : xi1 * yi1 ≤ input1.length)
    (hc : 2 ≤ coords.length) (hx : xi1 ≤ xi2) (hy : yi1 ≤ yi2)
    (hm2 : xi2 * yi2 ≤ mask2.length) (hi2 : xi2 * yi2 ≤ input2.length) :
    ∀ q ∈ cells2 coords xi1 yi1 yi2, Safe input1 mask1 input2 mask2 q := by
  intro q hq
  obtain ⟨p, hp, rfl⟩ := List.mem_map.1 hq
  rw [mem_pts2] at hp
  obtain ⟨⟨hx0, hx1⟩, hy0, hy1⟩ := hp
  have hc1 := flat_bound p.1 p.2 xi1 yi1 hx0 hx1 hy0 hy1
  refine ⟨⟨hc1.1, by simp only [cell2]; omega, by simp only [cell2]; omega⟩, _,
    nbr2_eq coords xi1 yi1 yi2 p.1 p.2 hc, ?_⟩
  intro n hn
  split_ifs at hn with h
  cases hn
  have hb := flat_bound_le _ _ xi1 yi1 xi2 yi2 h.1 h.2.1 h.2.2.1 h.2.2.2 hx hy
  omega

theorem safe_cells3 (input1 mask1 input2 mask2 coords : List Int)
    (xi1 yi1 zi1 xi2 yi2 zi2 : Int)
    (hm1 : xi1 * yi1 * zi1 ≤ mask1.length) (hi1 : xi1 * yi1 * zi1 ≤ input1.length)
    (hc : 3 ≤ coords.length) (hx : xi1 ≤ xi2) (hy : yi1 ≤ yi2) (hz : zi1 ≤ zi2)
    (hm2 : xi2 * yi2 * zi2 ≤ mask2.length) (hi2 : xi2 * yi2 * zi2 ≤ input2.length) :
    ∀ q ∈ cells3 coords xi1 yi1 zi1 yi2 zi2, Safe input1 mask1 input2 mask2 q := by
  intro q hq
  obtain ⟨p, hp, rfl⟩ := List.mem_map.1 hq
  rw [mem_pts3] at hp
  obtain ⟨⟨hx0, hx1⟩, ⟨hy0, hy1⟩, hz0, hz1⟩ := hp
  have hc1 := flat_bound p.1 p.2.1 xi1 yi1 hx0 hx1 hy0 hy1
  have hc2 := flat_bound _ p.2.2 (xi1 * yi1) zi1 hc1.1 hc1.2 hz0 hz1
  refine ⟨⟨hc2.1, by simp only [cell3]; omega, by simp only [cell3]; omega⟩, _,
    nbr3_eq coords xi1 yi1 zi1 yi2 zi2 p.1 p.2.1 p.2.2 hc, ?_⟩
  intro n hn
  split_ifs at hn with h
  cases hn
  obtain ⟨a0, a1, b0, b1, c0, c1⟩ := h
  have hb := flat_bound_le _ _ xi1 yi1 xi2 yi2 a0 a1 b0 b1 hx hy
  have hb2 := flat_bound_le _ _ (xi2 * yi2) zi1 (xi2 * yi2) zi2 hb.1 hb.2 c0 c1 (le_refl _) hz
  omega

theorem safe_cells4 (input1 mask1 input2 mask2 coords : List Int)
    (xi1 yi1 zi1 ti1 xi2 yi2 zi2 ti2 : Int)
    (hm1 : xi1 * yi1 * zi1 * ti1 ≤ mask1.length) (hi1 : xi1 * yi1 * zi1 * ti1 ≤ input1.length)
    (hc : 4 ≤ coords.length) (hx : xi1 ≤ xi2) (hy : yi1 ≤ yi2) (hz : zi1 ≤ zi2)
    (ht : ti1 ≤ ti2)
    (hm2 : xi2 * yi2 * zi2 * ti2 ≤ mask2.length)
    (hi2 : xi2 * yi2 * zi2 * ti2 ≤ input2.length) :
    ∀ q ∈ cells4 coords xi1 yi1 zi1 ti1 yi2 zi2 ti2, Safe input1 mask1 input2 mask2 q := by
  intro q hq
  obtain ⟨p, hp, rfl⟩ := List.mem_map.1 hq
  rw [mem_pts4] at hp
  obtain ⟨⟨hx0, hx1⟩, ⟨hy0, hy1⟩, ⟨hz0, hz1⟩, ht0, ht1⟩ := hp
  have hc1 := flat_bound p.1 p.2.1 xi1 yi1 hx0 hx1 hy0 hy1
  have hc2 := flat_bound _ p.2.2.1 (xi1 * yi1) zi1 hc1.1 hc1.2 hz0 hz1
  have hc3 := flat_bound _ p.2.2.2 (xi1 * yi1 * zi1) ti1 hc2.1 hc2.2 ht0 ht1
  refine ⟨⟨hc3.1, by simp only [cell4]; omega, by simp only [cell4]; omega⟩, _,
    nbr4_eq coords xi1 yi1 zi1 ti1 yi2 zi2 ti2 p.1 p.2.1 p.2.2.1 p.2.2.2 hc, ?_⟩
  intro n hn
  split_ifs at hn with h
  cases hn
  obtain ⟨a0, a1, b0, b1, c0, c1, d0, d1⟩ := h
  have hb := flat_bound_le _ _ xi1 yi1 xi2 yi2 a0 a1 b0 b1 hx hy
  have hb2 := flat_bound_le _ _ (xi2 * yi2) zi1 (xi2 * yi2) zi2 hb.1 hb.2 c0 c1 (le_refl _) hz
  have hb3 := flat_bound_le _ _ (xi2 * yi2 * zi2) ti1 (xi2 * yi2 * zi2) ti2 hb2.1 hb2.2 d0 d1
    (le_refl _) ht
  omega

/-! ## Each entry point computes the tally of its cells -/

theorem makecomat1D_2T_tally (input1 mask1 : List Int) (xi1 : Int) (input2 mask2 : List Int)
    (xi2 : Int) (coords : List Int) (levels1 levels2 : Int) (output : List Int)
    (hm1 : xi1 ≤ mask1.length) (hi1 : xi1 ≤ input1.length) (hc : 1 ≤ coords.length)
    (hx : xi1 ≤ xi2) (hm2 : xi2 ≤ mask2.length) (hi2 : xi2 ≤ input2.length)
    (hout : levels1 * levels2 ≤ output.length) :
    makecomat1D_2T input1 mask1 xi1 input2 mask2 xi2 coords levels1 levels2 output =
      some (tally input1 mask1 input2 mask2 levels1 levels2 (cells1 coords xi1) output) := by
  rw [makecomat1D_2T_run]
  exact run_eq_tally _ _ _ _ _ _ _ _
    (safe_cells1 _ _ _ _ _ _ xi2 hm1 hi1 hc hx hm2 hi2) hout

theorem makecomat2D_2T_tally (input1 mask1 : List Int) (xi1 yi1 : Int)
    (input2 mask2 : List Int) (xi2 yi2 : Int) (coords : List Int)
    (levels1 levels2 : Int) (output : List Int)
    (hm1 : xi1 * yi1 ≤ mask1.length) (hi1 : xi1 * yi1 ≤ input1.length)
    (hc : 2 ≤ coords.length) (hx : xi1 ≤ xi2) (hy : yi1 ≤ yi2)
    (hm2 : xi2 * yi2 ≤ mask2.length) (hi2 : xi2 * yi2 ≤ input2.length)
    (hout : levels1 * levels2 ≤ output.length) :
    makecomat2D_2T input1 mask1 xi1 yi1 input2 mask2 xi2 yi2 coords levels1 levels2 output =
      some (tally input1 mask1 input2 mask2 levels1 levels2 (cells2 coords xi1 yi1 yi2)
        output) := by
  rw [makecomat2D_2T_run]
  exact run_eq_tally _ _ _ _ _ _ _ _
    (safe_cells2 _ _ _ _ _ _ _ xi2 _ hm1 hi1 hc hx hy hm2 hi2) hout

theorem makecomat3D_2T_tally (input1 mask1 : List Int) (xi1 yi1 zi1 : Int)
    (input2 mask2 : List Int) (xi2 yi2 zi2 : Int) (coords : List Int)
    (levels1 levels2 : Int) (output : List Int)
    (hm1 : xi1 * yi1 * zi1 ≤ mask1.length) (hi1 : xi1 * yi1 * zi1 ≤ input1.length)
    (hc : 3 ≤ coords.length) (hx : xi1 ≤ xi2) (hy : yi1 ≤ yi2) (hz : zi1 ≤ zi2)
    (hm2 : xi2 * yi2 * zi2 ≤ mask2.length) (hi2 : xi2 * yi2 * zi2 ≤ input2.length)
    (hout : levels1 * levels2 ≤ output.length) :
    makecomat3D_2T input1 mask1 xi1 yi1 zi1 input2 mask2 xi2 yi2 zi2 coords
        levels1 levels2 output =
      some (tally input1 mask1 input2 mask2 levels1 levels2
        (cells3 coords xi1 yi1 zi1 yi2 zi2) output) := by
  rw [makecomat3D_2T_run]
  exact run_eq_tally _ _ _ _ _ _ _ _
    (safe_cells3 _ _ _ _ _ _ _ _ xi2 _ _ hm1 hi1 hc hx hy hz hm2 hi2) hout

theorem makecomat4D_2T_tally (input1 mask1 : List Int) (xi1 yi1 zi1 ti1 : Int)
    (input2 mask2 : List Int) (xi2 yi2 zi2 ti2 : Int) (coords : List Int)
    (levels1 levels2 : Int) (output : List Int)
    (hm1 : xi1 * yi1 * zi1 * ti1 ≤ mask1.length) (hi1 : xi1 * yi1 * zi1 * ti1 ≤ input1.length)
    (hc : 4 ≤ coords.length) (hx : xi1 ≤ xi2) (hy : yi1 ≤ yi2) (hz : zi1 ≤ zi2)
    (ht : ti1 ≤ ti2)
    (hm2 : xi2 * yi2 * zi2 * ti2 ≤ mask2.length)
    (hi2 : xi2 * yi2 * zi2 * ti2 ≤ input2.length)
    (hout : levels1 * levels2 ≤ output.length) :
    makecomat4D_2T input1 mask1 xi1 yi1 zi1 ti1 input2 mask2 xi2 yi2 zi2 ti2 coords
        levels1 levels2 output =
      some (tally input1 mask1 input2 mask2 levels1 levels2
        (cells4 coords xi1 yi1 zi1 ti1 yi2 zi2 ti2) output) := by
  rw [makecomat4D_2T_run]
  exact run_eq_tally _ _ _ _ _ _ _ _
    (safe_cells4 _ _ _ _ _ _ _ _ _ xi2 _ _ _ hm1 hi1 hc hx hy hz ht hm2 hi2) hout

theorem makecomat1D_tally (input mask : List Int) (xi : Int) (coords : List Int)
    (levels : Int) (output : List Int)
    (hm : xi ≤ mask.length) (hi : xi ≤ input.length) (hc : 1 ≤ coords.length)
    (hout : levels * levels ≤ output.length) :
    makecomat1D input mask xi coords levels output =
      some (tally input mask input mask levels levels (cells1 coords xi) output) := by
  rw [← makecomat1D_self]
  exact makecomat1D_2T_tally _ _ _ _ _ _ _ _ _ _ hm hi hc (le_refl _) hm hi hout

theorem makecomat2D_tally (input mask : List Int) (xi yi : Int) (coords : List Int)
    (levels : Int) (output : List Int)
    (hm : xi * yi ≤ mask.length) (hi : xi * yi ≤ input.length) (hc : 2 ≤ coords.length)
    (hout : levels * levels ≤ output.length) :
    makecomat2D input mask xi yi coords levels output =
      some (tally input mask input mask levels levels (cells2 coords xi yi yi) output) := by
  rw [← makecomat2D_self]
  exact makecomat2D_2T_tally _ _ _ _ _ _ _ _ _ _ _ _
    hm hi hc (le_refl _) (le_refl _) hm hi hout

theorem makecomat3D_tally (input mask : List Int) (xi yi zi : Int) (coords : List Int)
    (levels : Int) (output : List Int)
    (hm : xi * yi * zi ≤ mask.length) (hi : xi * yi * zi ≤ input.length)
    (hc : 3 ≤ coords.length) (hout : levels * levels ≤ output.length) :
    makecomat3D input mask xi yi zi coords levels output =
      some (tally input mask input mask levels levels (cells3 coords xi yi zi yi zi)
        output) := by
  rw [← makecomat3D_self]
  exact makecomat3D_2T_tally _ _ _ _ _ _ _ _ _ _ _ _ _ _
    hm hi hc (le_refl _) (le_refl _) (le_refl _) hm hi hout

theorem makecomat4D_tally (input mask : List Int) (xi yi zi ti : Int) (coords : List Int)
    (levels : Int) (output : List Int)
    (hm : xi * yi * zi * ti ≤ mask.length) (hi : xi * yi * zi * ti ≤ input.length)
    (hc : 4 ≤ coords.length) (hout : levels * levels ≤ output.length) :
    makecomat4D input mask xi yi zi ti coords levels output =
      some (tally input mask input mask levels levels (cells4 coords xi yi zi ti yi zi ti)
        output) := by
  rw [← makecomat4D_self]
  exact makecomat4D_2T_tally _ _ _ _ _ _ _ _ _ _ _ _ _ _ _ _
    hm hi hc (le_refl _) (le_refl _) (le_refl _) (le_refl _) hm hi hout

/-! ## Reading the tally -/

theorem flat_inj (a b i j L : Int) (hb0 : 0 ≤ b) (hb : b < L) (hj0 : 0 ≤ j) (hj : j < L) :
    a * L + b = i * L + j ↔ a = i ∧ b = j := by
  constructor
  · intro h
    rcases lt_trichotomy a i with h1 | h1 | h1
    · have h2 : (a + 1) * L ≤ i * L := mul_le_mul_of_nonneg_right (by omega) (by omega)
      have h3 : (a + 1) * L = a * L + L := by ring
      omega
    · subst h1
      exact ⟨rfl, by omega⟩
    · have h2 : (i + 1) * L ≤ a * L := mul_le_mul_of_nonneg_right (by omega) (by omega)
      have h3 : (i + 1) * L = i * L + L := by ring
      omega
  · rintro ⟨rfl, rfl⟩
    rfl

theorem target_none (input1 mask1 input2 mask2 : List Int) (levels1 levels2 c : Int) :
    target input1 mask1 input2 mask2 levels1 levels2 (c, some none) = none := rfl

theorem target_some_iff (input1 mask1 input2 mask2 : List Int) (levels1 levels2 c n i j : Int)
    (hi0 : 0 ≤ i) (hi : i < levels1) (hj0 : 0 ≤ j) (hj : j < levels2) :
    target input1 mask1 input2 mask2 levels1 levels2 (c, some (some n)) =
        some (i * levels2 + j) ↔
      gd mask1 c = 1 ∧ gd mask2 n = 1 ∧ gd input1 c = i ∧ gd input2 n = j := by
  unfold target
  simp only
  constructor
  · intro h
    split_ifs at h with hc
    obtain ⟨h1, h2, _, _, h5, h6⟩ := hc
    have := (flat_inj _ _ i j levels2 h5 h6 hj0 hj).1 (Option.some.inj h)
    exact ⟨h1, h2, this.1, this.2⟩
  · rintro ⟨h1, h2, rfl, rfl⟩
    rw [if_pos ⟨h1, h2, hi0, hi, hj0, hj⟩]

theorem gd_replicate (n : Nat) (k : Int) : gd (List.replicate n 0) k = 0 := by
  unfold gd rd
  by_cases h0 : 0 ≤ k
  · by_cases h1 : k.toNat < n
    · simp [h0, h1]
    · simp [h0, List.getElem?_replicate, h1]
  · simp [h0]

theorem hits_map {α : Type} (input1 mask1 input2 mask2 : List Int) (levels1 levels2 : Int)
    (f : α → Int × Option (Option Int)) (l : List α) (k : Int) :
    hits input1 mask1 input2 mask2 levels1 levels2 (l.map f) k =
      l.countP (fun p =>
        decide (target input1 mask1 input2 mask2 levels1 levels2 (f p) = some k)) := by
  unfold hits
  rw [List.countP_map]
  rfl

theorem sq_le_replicate (L : Int) :
    L * L ≤ ((List.replicate (L * L).toNat (0 : Int)).length : Int) := by
  have := mul_self_nonneg L
  simp only [List.length_replicate]
  omega

theorem target_cell2_iff (input mask : List Int) (xi yi dx dy L i j : Int) (p : Int × Int)
    (hm : xi * yi ≤ mask.length) (hin : xi * yi ≤ input.length)
    (hp : p ∈ pts2 xi yi)
    (hi0 : 0 ≤ i) (hi : i < L) (hj0 : 0 ≤ j) (hj : j < L) :
    target input mask input mask L L (cell2 [dx, dy] xi yi yi p) = some (i * L + j) ↔
      (rd mask (p.1 * yi + p.2) = some 1 ∧
        (0 ≤ p.1 + dx ∧ p.1 + dx < xi ∧ 0 ≤ p.2 + dy ∧ p.2 + dy < yi) ∧
        rd mask ((p.1 + dx) * yi + (p.2 + dy)) = some 1 ∧
        rd input (p.1 * yi + p.2) = some i ∧
        rd input ((p.1 + dx) * yi + (p.2 + dy)) = some j) := by
  rw [mem_pts2] at hp
  have hc := flat_bound p.1 p.2 xi yi hp.1.1 hp.1.2 hp.2.1 hp.2.2
  have e0 : gd [dx, dy] 0 = dx := rfl
  have e1 : gd [dx, dy] 1 = dy := rfl
  unfold cell2
  rw [nbr2_eq _ _ _ _ _ _ (by simp), e0, e1]
  by_cases h : 0 ≤ p.1 + dx ∧ p.1 + dx < xi ∧ 0 ≤ p.2 + dy ∧ p.2 + dy < yi
  · have hn := flat_bound _ _ xi yi h.1 h.2.1 h.2.2.1 h.2.2.2
    rw [if_pos h, target_some_iff _ _ _ _ _ _ _ _ _ _ hi0 hi hj0 hj,
      rd_eq_some_iff mask _ _ hc.1 (by omega), rd_eq_some_iff mask _ _ hn.1 (by omega),
      rd_eq_some_iff input _ _ hc.1 (by omega), rd_eq_some_iff input _ _ hn.1 (by omega)]
    tauto
  · rw [if_neg h, target_none]
    constructor
    · intro h2
      cases h2
    · intro h2
      exact absurd h2.2.1 h

/-- Pair counts on unbounded integers.  On a zeroed buffer of `L * L` cells, the unbounded
embedding `makecomat2D` with offset `(dx, dy)` returns a
buffer whose cell `i * L + j` (for `i, j` in `[0, L)`) holds the number of coordinates `(x, y)`
of the grid with mask 1 at `(x, y)`, neighbour `(x + dx, y + dy)` inside the grid, mask 1 at the
neighbour, label `i` at `(x, y)` and label `j` at the neighbour. -/
theorem unbounded_counts_pairs_2D (input mask : List Int) (xi yi dx dy L : Int)
    (hm : xi * yi ≤ mask.length) (hin : xi * yi ≤ input.length) :
    ∃ out, makecomat2D input mask xi yi [dx, dy] L (List.replicate (L * L).toNat 0) = some out ∧
      out.length = (L * L).toNat ∧
      ∀ i j : Int, 0 ≤ i → i < L → 0 ≤ j → j < L →
        rd out (i * L + j) = some (((Finset.Ico 0 xi ×ˢ Finset.Ico 0 yi).filter
          (fun p : Int × Int =>
            rd mask (p.1 * yi + p.2) = some 1 ∧
            (0 ≤ p.1 + dx ∧ p.1 + dx < xi ∧ 0 ≤ p.2 + dy ∧ p.2 + dy < yi) ∧
            rd mask ((p.1 + dx) * yi + (p.2 + dy)) = some 1 ∧
            rd input (p.1 * yi + p.2) = some i ∧
            rd input ((p.1 + dx) * yi + (p.2 + dy)) = some j)).card : Int) := by
  have hout := sq_le_replicate L
  refine ⟨_, makecomat2D_tally input mask xi yi [dx, dy] L _ hm hin (by simp) hout, ?_, ?_⟩
  · rw [tally_length, List.length_replicate]
  · intro i j hi0 hi hj0 hj
    have hk := flat_bound i j L L hi0 hi hj0 hj
    rw [rd_tally _ _ _ _ _ _ _ _ _ hout hk.1 (by omega), gd_replicate, zero_add]
    unfold cells2
    rw [hits_map, countP_eq_card (pts2 xi yi) (nodup_pts2 xi yi)
      (Finset.Ico 0 xi ×ˢ Finset.Ico 0 yi)
      (by intro a; rw [mem_pts2, Finset.mem_product, Finset.mem_Ico, Finset.mem_Ico])]
    congr 3
    apply Finset.filter_congr
    intro p hp
    rw [Finset.mem_product, Finset.mem_Ico, Finset.mem_Ico, ← mem_pts2] at hp
    exact target_cell2_iff input mask xi yi dx dy L i j p hm hin hp hi0 hi hj0 hj

/-- C2: on the 3x3 grid `[0,1,2,1,2,0,2,0,1]` with an all-ones mask, offset `(0, 1)`, three
levels and a zeroed buffer of 9 cells, `makecomat2D` returns `[0,2,0,0,0,2,2,0,0]`: cells
`(0,1)`, `(1,2)` and `(2,0)` hold 2, every other cell holds 0, and the counts add up to 6. -/
theorem makecomat2D_scenario_3x3 :
    ∃ out, makecomat2D [0, 1, 2, 1, 2, 0, 2, 0, 1] [1, 1, 1, 1, 1, 1, 1, 1, 1] 3 3 [0, 1] 3
        (List.replicate 9 0) = some out ∧
      out = [0, 2, 0, 0, 0, 2, 2, 0, 0] ∧
      rd out (0 * 3 + 1) = some 2 ∧ rd out (1 * 3 + 2) = some 2 ∧ rd out (2 * 3 + 0) = some 2 ∧
      out.sum = 6 :=
  ⟨[0, 2, 0, 0, 0, 2, 2, 0, 0], by decide, rfl, by decide, by decide, by decide, by decide⟩

/-- C4 (the code departs from the specification): `makecomat1D_2T` with `xi1 = 2`, `xi2 = 3`,
offset `+1`, all masks 1 and every label 0 with one level leaves the single output cell at 1.
Only the centre `x = 0` is counted; the centre `x = 1`, whose neighbour `2` lies inside the
second grid, is rejected by the test `xval < xi1`.  With the centre `x = 0` masked out the
output cell stays 0. -/
theorem makecomat1D_2T_tests_primary_extent :
    makecomat1D_2T [0, 0] [1, 1] 2 [0, 0, 0] [1, 1, 1] 3 [1] 1 1 [0] = some [1] ∧
      makecomat1D_2T [0, 0] [0, 1] 2 [0, 0, 0] [1, 1, 1] 3 [1] 1 1 [0] = some [0] := by
  decide

/-! ## Zero offset -/

theorem zero_offset_tally {α : Type} [DecidableEq α] (input mask : List Int) (L : Int)
    (l : List α) (hl : l.Nodup) (s : Finset α) (hs : ∀ a, a ∈ s ↔ a ∈ l)
    (f : α → Int × Option (Option Int)) (flat : α → Int)
    (hf : ∀ p ∈ l, f p = (flat p, some (some (flat p))))
    (hb : ∀ p ∈ l, 0 ≤ flat p ∧ flat p < mask.length ∧ flat p < input.length) :
    (∀ i j : Int, 0 ≤ i → i < L → 0 ≤ j → j < L → i ≠ j →
      rd (tally input mask input mask L L (l.map f) (List.replicate (L * L).toNat 0))
        (i * L + j) = some 0) ∧
    (∀ i : Int, 0 ≤ i → i < L →
      rd (tally input mask input mask L L (l.map f) (List.replicate (L * L).toNat 0))
        (i * L + i) = some (((s.filter (fun p =>
          rd mask (flat p) = some 1 ∧ rd input (flat p) = some i)).card : Nat) : Int)) := by
  have hout := sq_le_replicate L
  constructor
  · intro i j hi0 hi hj0 hj hij
    have hk := flat_bound i j L L hi0 hi hj0 hj
    rw [rd_tally _ _ _ _ _ _ _ _ _ hout hk.1 (by omega), gd_replicate, zero_add, hits_map]
    have : l.countP (fun p => decide (target input mask input mask L L (f p) =
        some (i * L + j))) = 0 := by
      rw [List.countP_eq_zero]
      intro p hp
      rw [hf p hp]
      simp only [decide_eq_true_eq]
      rw [target_some_iff _ _ _ _ _ _ _ _ _ _ hi0 hi hj0 hj]
      rintro ⟨_, _, h3, h4⟩
      exact hij (h3.symm.trans h4)
    rw [this]
    rfl
  · intro i hi0 hi
    have hk := flat_bound i i L L hi0 hi hi0 hi
    rw [rd_tally _ _ _ _ _ _ _ _ _ hout hk.1 (by omega), gd_replicate, zero_add, hits_map,
      ← countP_eq_card l hl s hs]
    congr 2
    apply List.countP_congr
    intro p hp
    obtain ⟨h0, h1, h2⟩ := hb p hp
    rw [hf p hp]
    simp only [decide_eq_true_eq]
    rw [target_some_iff _ _ _ _ _ _ _ _ _ _ hi0 hi hi0 hi, rd_eq_some_iff mask _ _ h0 h1,
      rd_eq_some_iff input _ _ h0 h2]
    tauto

theorem cell1_zero (xi x : Int) (hx : x ∈ grid1 xi) : cell1 [0] xi x = (x, some (some x)) := by
  rw [mem_grid1] at hx
  have e0 : gd [0] 0 = 0 := rfl
  unfold cell1
  rw [nbr1_eq _ _ _ (by simp), e0]
  simp only [add_zero]
  rw [if_pos hx]

theorem cell2_zero (xi yi : Int) (p : Int × Int) (hp : p ∈ pts2 xi yi) :
    cell2 [0, 0] xi yi yi p = (p.1 * yi + p.2, some (some (p.1 * yi + p.2))) := by
  rw [mem_pts2] at hp
  have e0 : gd [0, 0] 0 = 0 := rfl
  have e1 : gd [0, 0] 1 = 0 := rfl
  unfold cell2
  rw [nbr2_eq _ _ _ _ _ _ (by simp), e0, e1]
  simp only [add_zero]
  rw [if_pos ⟨hp.1.1, hp.1.2, hp.2.1, hp.2.2⟩]

theorem cell3_zero (xi yi zi : Int) (p : Int × Int × Int) (hp : p ∈ pts3 xi yi zi) :
    cell3 [0, 0, 0] xi yi zi yi zi p =
      ((p.1 * yi + p.2.1) * zi + p.2.2, some (some ((p.1 * yi + p.2.1) * zi + p.2.2))) := by
  rw [mem_pts3] at hp
  have e0 : gd [0, 0, 0] 0 = 0 := rfl
  have e1 : gd [0, 0, 0] 1 = 0 := rfl
  have e2 : gd [0, 0, 0] 2 = 0 := rfl
  unfold cell3
  rw [nbr3_eq _ _ _ _ _ _ _ _ _ (by simp), e0, e1, e2]
  simp only [add_zero]
  rw [if_pos ⟨hp.1.1, hp.1.2, hp.2.1.1, hp.2.1.2, hp.2.2.1, hp.2.2.2⟩]

theorem cell4_zero (xi yi zi ti : Int) (p : Int × Int × Int × Int)
    (hp : p ∈ pts4 xi yi zi ti) :
    cell4 [0, 0, 0, 0] xi yi zi ti yi zi ti p =
      (((p.1 * yi + p.2.1) * zi + p.2.2.1) * ti + p.2.2.2,
        some (some (((p.1 * yi + p.2.1) * zi + p.2.2.1) * ti + p.2.2.2))) := by
  rw [mem_pts4] at hp
  have e0 : gd [0, 0, 0, 0] 0 = 0 := rfl
  have e1 : gd [0, 0, 0, 0] 1 = 0 := rfl
  have e2 : gd [0, 0, 0, 0] 2 = 0 := rfl
  have e3 : gd [0, 0, 0, 0] 3 = 0 := rfl
  unfold cell4
  rw [nbr4_eq _ _ _ _ _ _ _ _ _ _ _ _ (by simp), e0, e1, e2, e3]
  simp only [add_zero]
  rw [if_pos ⟨hp.1.1, hp.1.2, hp.2.1.1, hp.2.1.2, hp.2.2.1.1, hp.2.2.1.2, hp.2.2.2.1,
    hp.2.2.2.2⟩]

/-! Bounds of the flat index of a visited coordinate. -/

theorem flat2_bound (xi yi : Int) (p : Int × Int) (hp : p ∈ pts2 xi yi) :
    0 ≤ p.1 * yi + p.2 ∧ p.1 * yi + p.2 < xi * yi := by
  rw [mem_pts2] at hp
  exact flat_bound _ _ _ _ hp.1.1 hp.1.2 hp.2.1 hp.2.2

theorem flat3_bound (xi yi zi : Int) (p : Int × Int × Int) (hp : p ∈ pts3 xi yi zi) :
    0 ≤ (p.1 * yi + p.2.1) * zi + p.2.2 ∧ (p.1 * yi + p.2.1) * zi + p.2.2 < xi * yi * zi := by
  rw [mem_pts3] at hp
  have h1 := flat_bound _ _ _ _ hp.1.1 hp.1.2 hp.2.1.1 hp.2.1.2
  exact flat_bound _ _ _ _ h1.1 h1.2 hp.2.2.1 hp.2.2.2

theorem flat4_bound (xi yi zi ti : Int) (p : Int × Int × Int × Int)
    (hp : p ∈ pts4 xi yi zi ti) :
    0 ≤ ((p.1 * yi + p.2.1) * zi + p.2.2.1) * ti + p.2.2.2 ∧
      ((p.1 * yi + p.2.1) * zi + p.2.2.1) * ti + p.2.2.2 < xi * yi * zi * ti := by
  rw [mem_pts4] at hp
  have h1 := flat_bound _ _ _ _ hp.1.1 hp.1.2 hp.2.1.1 hp.2.1.2
  have h2 := flat_bound _ _ _ _ h1.1 h1.2 hp.2.2.1.1 hp.2.2.1.2
  exact flat_bound _ _ _ _ h2.1 h2.2 hp.2.2.2.1 hp.2.2.2.2

theorem mem_ico1 (xi : Int) (a : Int) : a ∈ Finset.Ico 0 xi ↔ a ∈ grid1 xi := by
  rw [mem_grid1, Finset.mem_Ico]

theorem mem_ico2 (xi yi : Int) (a : Int × Int) :
    a ∈ Finset.Ico 0 xi ×ˢ Finset.Ico 0 yi ↔ a ∈ pts2 xi yi := by
  rw [mem_pts2, Finset.mem_product, Finset.mem_Ico, Finset.mem_Ico]

theorem mem_ico3 (xi yi zi : Int) (a : Int × Int × Int) :
    a ∈ Finset.Ico 0 xi ×ˢ Finset.Ico 0 yi ×ˢ Finset.Ico 0 zi ↔ a ∈ pts3 xi yi zi := by
  rw [mem_pts3, Finset.mem_product, Finset.mem_product, Finset.mem_Ico, Finset.mem_Ico,
    Finset.mem_Ico]

theorem mem_ico4 (xi yi zi ti : Int) (a : Int × Int × Int × Int) :
    a ∈ Finset.Ico 0 xi ×ˢ Finset.Ico 0 yi ×ˢ Finset.Ico 0 zi ×ˢ Finset.Ico 0 ti ↔
      a ∈ pts4 xi yi zi ti := by
  rw [mem_pts4, Finset.mem_product, Finset.mem_product, Finset.mem_product, Finset.mem_Ico,
    Finset.mem_Ico, Finset.mem_Ico, Finset.mem_Ico]

/-- Zero offset on unbounded integers.  For each single-image entry point of the unbounded
embedding, on buffers covering the grid, an all-zero offset
and a zeroed buffer of `L * L` cells, the call returns a buffer whose off-diagonal cells
`i * L + j` (`i ≠ j`) are 0 and whose diagonal cell `i * L + i` is the number of coordinates
with mask value 1 and label `i`. -/
theorem unbounded_zero_offset_diagonal :
    (∀ (input mask : List Int) (xi L : Int), xi ≤ mask.length → xi ≤ input.length →
      ∃ out, makecomat1D input mask xi [0] L (List.replicate (L * L).toNat 0) = some out ∧
        (∀ i j : Int, 0 ≤ i → i < L → 0 ≤ j → j < L → i ≠ j → rd out (i * L + j) = some 0) ∧
        (∀ i : Int, 0 ≤ i → i < L →
          rd out (i * L + i) = some (((Finset.Ico 0 xi).filter (fun x : Int =>
            rd mask x = some 1 ∧ rd input x = some i)).card : Int))) ∧
    (∀ (input mask : List Int) (xi yi L : Int),
      xi * yi ≤ mask.length → xi * yi ≤ input.length →
      ∃ out, makecomat2D input mask xi yi [0, 0] L (List.replicate (L * L).toNat 0) =
          some out ∧
        (∀ i j : Int, 0 ≤ i → i < L → 0 ≤ j → j < L → i ≠ j → rd out (i * L + j) = some 0) ∧
        (∀ i : Int, 0 ≤ i → i < L →
          rd out (i * L + i) = some (((Finset.Ico 0 xi ×ˢ Finset.Ico 0 yi).filter
            (fun p : Int × Int =>
              rd mask (p.1 * yi + p.2) = some 1 ∧
              rd input (p.1 * yi + p.2) = some i)).card : Int))) ∧
    (∀ (input mask : List Int) (xi yi zi L : Int),
      xi * yi * zi ≤ mask.length → xi * yi * zi ≤ input.length →
      ∃ out, makecomat3D input mask xi yi zi [0, 0, 0] L (List.replicate (L * L).toNat 0) =
          some out ∧
        (∀ i j : Int, 0 ≤ i → i < L → 0 ≤ j → j < L → i ≠ j → rd out (i * L + j) = some 0) ∧
        (∀ i : Int, 0 ≤ i → i < L →
          rd out (i * L + i) =
            some (((Finset.Ico 0 xi ×ˢ Finset.Ico 0 yi ×ˢ Finset.Ico 0 zi).filter
              (fun p : Int × Int × Int =>
                rd mask ((p.1 * yi + p.2.1) * zi + p.2.2) = some 1 ∧
                rd input ((p.1 * yi + p.2.1) * zi + p.2.2) = some i)).card : Int))) ∧
    (∀ (input mask : List Int) (xi yi zi ti L : Int),
      xi * yi * zi * ti ≤ mask.length → xi * yi * zi * ti ≤ input.length →
      ∃ out, makecomat4D input mask xi yi zi ti [0, 0, 0, 0] L
          (List.replicate (L * L).toNat 0) = some out ∧
        (∀ i j : Int, 0 ≤ i → i < L → 0 ≤ j → j < L → i ≠ j → rd out (i * L + j) = some 0) ∧
        (∀ i : Int, 0 ≤ i → i < L →
          rd out (i * L + i) =
            some (((Finset.Ico 0 xi ×ˢ Finset.Ico 0 yi ×ˢ Finset.Ico 0 zi ×ˢ
                Finset.Ico 0 ti).filter
              (fun p : Int × Int × Int × Int =>
                rd mask (((p.1 * yi + p.2.1) * zi + p.2.2.1) * ti + p.2.2.2) = some 1 ∧
                rd input (((p.1 * yi + p.2.1) * zi + p.2.2.1) * ti + p.2.2.2) =
                  some i)).card : Int))) := by
  refine ⟨?_, ?_, ?_, ?_⟩
  · intro input mask xi L hm hi
    refine ⟨_, makecomat1D_tally input mask xi [0] L _ hm hi (by simp) (sq_le_replicate L), ?_⟩
    exact zero_offset_tally input mask L (grid1 xi) (nodup_grid1 xi) _ (mem_ico1 xi)
      (cell1 [0] xi) (fun x => x) (cell1_zero xi)
      (fun x hx => by rw [mem_grid1] at hx; simp only; omega)
  · intro input mask xi yi L hm hi
    refine ⟨_, makecomat2D_tally input mask xi yi [0, 0] L _ hm hi (by simp)
      (sq_le_replicate L), ?_⟩
    exact zero_offset_tally input mask L (pts2 xi yi) (nodup_pts2 xi yi) _ (mem_ico2 xi yi)
      (cell2 [0, 0] xi yi yi) (fun p => p.1 * yi + p.2) (cell2_zero xi yi)
      (fun p hp => by have := flat2_bound xi yi p hp; simp only; omega)
  · intro input mask xi yi zi L hm hi
    refine ⟨_, makecomat3D_tally input mask xi yi zi [0, 0, 0] L _ hm hi (by simp)
      (sq_le_replicate L), ?_⟩
    exact zero_offset_tally input mask L (pts3 xi yi zi) (nodup_pts3 xi yi zi) _
      (mem_ico3 xi yi zi) (cell3 [0, 0, 0] xi yi zi yi zi)
      (fun p => (p.1 * yi + p.2.1) * zi + p.2.2) (cell3_zero xi yi zi)
      (fun p hp => by have := flat3_bound xi yi zi p hp; simp only; omega)
  · intro input mask xi yi zi ti L hm hi
    refine ⟨_, makecomat4D_tally input mask xi yi zi ti [0, 0, 0, 0] L _ hm hi (by simp)
      (sq_le_replicate L), ?_⟩
    exact zero_offset_tally input mask L (pts4 xi yi zi ti) (nodup_pts4 xi yi zi ti) _
      (mem_ico4 xi yi zi ti) (cell4 [0, 0, 0, 0] xi yi zi ti yi zi ti)
      (fun p => ((p.1 * yi + p.2.1) * zi + p.2.2.1) * ti + p.2.2.2) (cell4_zero xi yi zi ti)
      (fun p hp => by have := flat4_bound xi yi zi ti p hp; simp only; omega)

/-! ## Mask exclusion -/

theorem tally_zero_nonneg (input1 mask1 input2 mask2 : List Int) (levels1 levels2 : Int)
    (cells : List (Int × Option (Option Int))) (n : Nat) (hout : levels1 * levels2 ≤ n) :
    ∀ v ∈ tally input1 mask1 input2 mask2 levels1 levels2 cells (List.replicate n 0),
      0 ≤ v := by
  intro v hv
  obtain ⟨k, hk, rfl⟩ := List.getElem_of_mem hv
  have h1 := gd_tally input1 mask1 input2 mask2 levels1 levels2 cells (List.replicate n 0) k
    (by rw [List.length_replicate]; exact hout)
  rw [gd_replicate, zero_add] at h1
  have h2 : gd (tally input1 mask1 input2 mask2 levels1 levels2 cells (List.replicate n 0)) k
      = (tally input1 mask1 input2 mask2 levels1 levels2 cells (List.replicate n 0))[k] := by
    unfold gd rd
    simp [List.getElem?_eq_getElem hk]
  rw [← h2, h1]
  exact Int.natCast_nonneg _

theorem makecomat1D_run (input mask : List Int) (xi : Int) (coords : List Int)
    (levels : Int) (output : List Int) :
    makecomat1D input mask xi coords levels output =
      run input mask input mask levels levels (cells1 coords xi) output := by
  rw [← makecomat1D_self, makecomat1D_2T_run]

theorem makecomat2D_run (input mask : List Int) (xi yi : Int) (coords : List Int)
    (levels : Int) (output : List Int) :
    makecomat2D input mask xi yi coords levels output =
      run input mask input mask levels levels (cells2 coords xi yi yi) output := by
  rw [← makecomat2D_self, makecomat2D_2T_run]

theorem makecomat3D_run (input mask : List Int) (xi yi zi : Int) (coords : List Int)
    (levels : Int) (output : List Int) :
    makecomat3D input mask xi yi zi coords levels output =
      run input mask input mask levels levels (cells3 coords xi yi zi yi zi) output := by
  rw [← makecomat3D_self, makecomat3D_2T_run]

theorem makecomat4D_run (input mask : List Int) (xi yi zi ti : Int) (coords : List Int)
    (levels : Int) (output : List Int) :
    makecomat4D input mask xi yi zi ti coords levels output =
      run input mask input mask levels levels (cells4 coords xi yi zi ti yi zi ti) output := by
  rw [← makecomat4D_self, makecomat4D_2T_run]

/-! ## Mask semantics -/

theorem grid1_nil (n : Int) (h : n ≤ 0) : grid1 n = [] := by
  unfold grid1
  have : n.toNat = 0 := by omega
  rw [this]
  rfl

theorem product_nil_right {α β : Type} (l : List α) : List.product l ([] : List β) = [] := by
  induction l with
  | nil => rfl
  | cons a l ih =>
    unfold List.product at ih ⊢
    simp only [List.flatMap_cons, List.map_nil, List.nil_append]
    exact ih

theorem pts2_nil (xi yi : Int) (h : xi ≤ 0 ∨ yi ≤ 0) : pts2 xi yi = [] := by
  unfold pts2
  rcases h with h | h
  · rw [grid1_nil xi h]
    rfl
  · rw [grid1_nil yi h]
    exact product_nil_right _

theorem pts3_nil (xi yi zi : Int) (h : xi ≤ 0 ∨ yi ≤ 0 ∨ zi ≤ 0) : pts3 xi yi zi = [] := by
  unfold pts3
  rcases h with h | h
  · rw [grid1_nil xi h]
    rfl
  · rw [pts2_nil yi zi h]
    exact product_nil_right _

theorem pts4_nil (xi yi zi ti : Int) (h : xi ≤ 0 ∨ yi ≤ 0 ∨ zi ≤ 0 ∨ ti ≤ 0) :
    pts4 xi yi zi ti = [] := by
  unfold pts4
  rcases h with h | h
  · rw [grid1_nil xi h]
    rfl
  · rw [pts3_nil yi zi ti h]
    exact product_nil_right _

theorem cells1_nil (coords : List Int) (xi : Int) (h : xi ≤ 0) : cells1 coords xi = [] := by
  unfold cells1
  rw [grid1_nil xi h]
  rfl

theorem cells2_nil (coords : List Int) (xi yi yi2 : Int) (h : xi ≤ 0 ∨ yi ≤ 0) :
    cells2 coords xi yi yi2 = [] := by
  unfold cells2
  rw [pts2_nil xi yi h]
  rfl

theorem cells3_nil (coords : List Int) (xi yi zi yi2 zi2 : Int)
    (h : xi ≤ 0 ∨ yi ≤ 0 ∨ zi ≤ 0) : cells3 coords xi yi zi yi2 zi2 = [] := by
  unfold cells3
  rw [pts3_nil xi yi zi h]
  rfl

theorem cells4_nil (coords : List Int) (xi yi zi ti yi2 zi2 ti2 : Int)
    (h : xi ≤ 0 ∨ yi ≤ 0 ∨ zi ≤ 0 ∨ ti ≤ 0) :
    cells4 coords xi yi zi ti yi2 zi2 ti2 = [] := by
  unfold cells4
  rw [pts4_nil xi yi zi ti h]
  rfl

theorem run_nil (input1 mask1 input2 mask2 : List Int) (levels1 levels2 : Int)
    (out : List Int) : run input1 mask1 input2 mask2 levels1 levels2 [] out = some out := rfl

/-- C11 (as the code behaves): no entry point validates its extents or signals a failure (all
eight are `void` and start with the loop nest).  When a primary extent is 0 the call returns
normally and hands back the output buffer exactly as it received it, for every grid, mask,
offset, level count and output buffer. -/
theorem zero_extent_returns_unchanged :
    (∀ (input mask : List Int) (xi : Int) (coords : List Int) (L : Int)
        (output : List Int), xi = 0 →
      makecomat1D input mask xi coords L output = some output) ∧
    (∀ (input mask : List Int) (xi yi : Int) (coords : List Int) (L : Int)
        (output : List Int), xi = 0 ∨ yi = 0 →
      makecomat2D input mask xi yi coords L output = some output) ∧
    (∀ (input mask : List Int) (xi yi zi : Int) (coords : List Int) (L : Int)
        (output : List Int), xi = 0 ∨ yi = 0 ∨ zi = 0 →
      makecomat3D input mask xi yi zi coords L output = some output) ∧
    (∀ (input mask : List Int) (xi yi zi ti : Int) (coords : List Int) (L : Int)
        (output : List Int), xi = 0 ∨ yi = 0 ∨ zi = 0 ∨ ti = 0 →
      makecomat4D input mask xi yi zi ti coords L output = some output) ∧
    (∀ (input1 mask1 : List Int) (xi1 : Int) (input2 mask2 : List Int)
        (xi2 : Int) (coords : List Int) (levels1 levels2 : Int)
        (output : List Int), xi1 = 0 →
      makecomat1D_2T input1 mask1 xi1 input2 mask2 xi2 coords
          levels1 levels2 output = some output) ∧
    (∀ (input1 mask1 : List Int) (xi1 yi1 : Int) (input2 mask2 : List Int)
        (xi2 yi2 : Int) (coords : List Int) (levels1 levels2 : Int)
        (output : List Int), xi1 = 0 ∨ yi1 = 0 →
      makecomat2D_2T input1 mask1 xi1 yi1 input2 mask2 xi2 yi2 coords
          levels1 levels2 output = some output) ∧
    (∀ (input1 mask1 : List Int) (xi1 yi1 zi1 : Int) (input2 mask2 : List Int)
        (xi2 yi2 zi2 : Int) (coords : List Int) (levels1 levels2 : Int)
        (output : List Int), xi1 = 0 ∨ yi1 = 0 ∨ zi1 = 0 →
      makecomat3D_2T input1 mask1 xi1 yi1 zi1 input2 mask2 xi2 yi2 zi2 coords
          levels1 levels2 output = some output) ∧
    (∀ (input1 mask1 : List Int) (xi1 yi1 zi1 ti1 : Int) (input2 mask2 : List Int)
        (xi2 yi2 zi2 ti2 : Int) (coords : List Int) (levels1 levels2 : Int)
        (output : List Int), xi1 = 0 ∨ yi1 = 0 ∨ zi1 = 0 ∨ ti1 = 0 →
      makecomat4D_2T input1 mask1 xi1 yi1 zi1 ti1 input2 mask2 xi2 yi2 zi2 ti2 coords
          levels1 levels2 output = some output) := by
  refine ⟨?_, ?_, ?_, ?_, ?_, ?_, ?_, ?_⟩
  · intro input mask xi coords L output h
    rw [makecomat1D_run, cells1_nil _ _ (by omega)]
    rfl
  · intro input mask xi yi coords L output h
    rw [makecomat2D_run, cells2_nil _ _ _ _ (by omega)]
    rfl
  · intro input mask xi yi zi coords L output h
    rw [makecomat3D_run, cells3_nil _ _ _ _ _ _ (by omega)]
    rfl
  · intro input mask xi yi zi ti coords L output h
    rw [makecomat4D_run, cells4_nil _ _ _ _ _ _ _ _ (by omega)]
    rfl
  · intro input1 mask1 xi1 input2 mask2 xi2 coords levels1 levels2 output h
    rw [makecomat1D_2T_run, cells1_nil _ _ (by omega)]
    rfl
  · intro input1 mask1 xi1 yi1 input2 mask2 xi2 yi2 coords levels1 levels2 output h
    rw [makecomat2D_2T_run, cells2_nil _ _ _ _ (by omega)]
    rfl
  · intro input1 mask1 xi1 yi1 zi1 input2 mask2 xi2 yi2 zi2 coords levels1 levels2 output h
    rw [makecomat3D_2T_run, cells3_nil _ _ _ _ _ _ (by omega)]
    rfl
  · intro input1 mask1 xi1 yi1 zi1 ti1 input2 mask2 xi2 yi2 zi2 ti2 coords levels1 levels2 output h
    rw [makecomat4D_2T_run, cells4_nil _ _ _ _ _ _ _ _ (by omega)]
    rfl

theorem zero_extent_returns_unchanged_witness :
    makecomat2D [] [] 0 3 [0, 1] 2 [0, 0, 0, 0] = some [0, 0, 0, 0] :=
  zero_extent_returns_unchanged.2.1 [] [] 0 3 [0, 1] 2 [0, 0, 0, 0] (by decide)

/-- C11 (counterexample): `makecomat2D` called with extents `(0, 3)` does not fail; it returns
normally with the zeroed output buffer it was given. -/
theorem zero_extent_not_rejected :
    makecomat2D [] [] 0 3 [0, 1] 2 [0, 0, 0, 0] = some [0, 0, 0, 0] ∧
      makecomat2D [] [] 0 3 [0, 1] 2 [0, 0, 0, 0] ≠ none := by
  decide

/-- Return of the single-image entry points on unbounded integers.  With `input` and `mask`
of length
the product of the extents, `coords` of length the rank and `output` of length
`levels * levels`, each of `makecomat1D` .. `makecomat4D` returns a buffer of the length of
`output`, for every offset and every label content: in the embedding an access outside a
buffer (a read of `input`, `mask` or `coords`, or the increment of an `output` cell) makes the
call return `none`, so no index used by the call leaves its buffer; `output` is the only
buffer the call returns changed. -/
theorem unbounded_single_image_returns :
    (∀ (input mask : List Int) (xi : Int) (coords : List Int) (L : Int)
        (output : List Int),
      (input.length : Int) = xi → (mask.length : Int) = xi →
      coords.length = 1 → (output.length : Int) = L * L →
      ∃ out, makecomat1D input mask xi coords L output = some out ∧
        out.length = output.length) ∧
    (∀ (input mask : List Int) (xi yi : Int) (coords : List Int) (L : Int)
        (output : List Int),
      (input.length : Int) = xi * yi → (mask.length : Int) = xi * yi →
      coords.length = 2 → (output.length : Int) = L * L →
      ∃ out, makecomat2D input mask xi yi coords L output = some out ∧
        out.length = output.length) ∧
    (∀ (input mask : List Int) (xi yi zi : Int) (coords : List Int) (L : Int)
        (output : List Int),
      (input.length : Int) = xi * yi * zi → (mask.length : Int) = xi * yi * zi →
      coords.length = 3 → (output.length : Int) = L * L →
      ∃ out, makecomat3D input mask xi yi zi coords L output = some out ∧
        out.length = output.length) ∧
    (∀ (input mask : List Int) (xi yi zi ti : Int) (coords : List Int) (L : Int)
        (output : List Int),
      (input.length : Int) = xi * yi * zi * ti → (mask.length : Int) = xi * yi * zi * ti →
      coords.length = 4 → (output.length : Int) = L * L →
      ∃ out, makecomat4D input mask xi yi zi ti coords L output = some out ∧
        out.length = output.length) := by
  refine ⟨?_, ?_, ?_, ?_⟩
  · intro input mask xi coords L output hi hm hc ho
    refine ⟨_, makecomat1D_tally _ _ _ _ _ _ (le_of_eq hm.symm) (le_of_eq hi.symm)
      (le_of_eq hc.symm) (le_of_eq ho.symm), ?_⟩
    exact tally_length _ _ _ _ _ _ _ _
  · intro input mask xi yi coords L output hi hm hc ho
    refine ⟨_, makecomat2D_tally _ _ _ _ _ _ _ (le_of_eq hm.symm) (le_of_eq hi.symm)
      (le_of_eq hc.symm) (le_of_eq ho.symm), ?_⟩
    exact tally_length _ _ _ _ _ _ _ _
  · intro input mask xi yi zi coords L output hi hm hc ho
    refine ⟨_, makecomat3D_tally _ _ _ _ _ _ _ _ (le_of_eq hm.symm) (le_of_eq hi.symm)
      (le_of_eq hc.symm) (le_of_eq ho.symm), ?_⟩
    exact tally_length _ _ _ _ _ _ _ _
  · intro input mask xi yi zi ti coords L output hi hm hc ho
    refine ⟨_, makecomat4D_tally _ _ _ _ _ _ _ _ _ (le_of_eq hm.symm) (le_of_eq hi.symm)
      (le_of_eq hc.symm) (le_of_eq ho.symm), ?_⟩
    exact tally_length _ _ _ _ _ _ _ _

/-- C13 (the code departs from the specification): with a second image smaller than the first
the two-image entry points read outside `mask2`.  `makecomat1D_2T` with `xi1 = 3`, `xi2 = 2`,
zero offset and buffers of exactly the declared sizes reads `mask2[2]` at the centre `x = 2`,
and `makecomat3D_2T` with primary extents `(2, 1, 1)` and secondary extents `(1, 1, 1)` reads
`mask2[1]`: both calls leave the buffer (`none`). -/
theorem dual_image_reads_outside_second_image :
    makecomat1D_2T [0, 0, 0] [1, 1, 1] 3 [0, 0] [1, 1] 2 [0] 1 1 [0] = none ∧
      rd [1, 1] 2 = none ∧
      makecomat3D_2T [0, 0] [1, 1] 2 1 1 [0] [1] 1 1 1 [0, 0, 0] 1 1 [0] = none ∧
      rd [1] 1 = none := by
  decide

/-! ## Out-of-reach offsets -/

theorem le_toNat_self (a : Int) : a ≤ ((List.replicate a.toNat (0 : Int)).length : Int) := by
  rw [List.length_replicate]
  omega

theorem target_pair_iff (input mask : List Int) (L c n i j : Int) (b : Prop) [Decidable b]
    (hi0 : 0 ≤ i) (hi : i < L) (hj0 : 0 ≤ j) (hj : j < L) :
    target input mask input mask L L (c, some (if b then some n else none)) =
        some (i * L + j) ↔
      b ∧ gd mask c = 1 ∧ gd mask n = 1 ∧ gd input c = i ∧ gd input n = j := by
  by_cases hb : b
  · rw [if_pos hb, target_some_iff _ _ _ _ _ _ _ _ _ _ hi0 hi hj0 hj]
    tauto
  · rw [if_neg hb, target_none]
    constructor
    · intro h
      cases h
    · intro h
      exact absurd h.1 hb

theorem transpose_hits {α : Type} [AddGroup α] [DecidableEq α] (input mask : List Int)
    (L : Int) (l : List α) (hl : l.Nodup) (s : Finset α) (hs : ∀ a, a ∈ s ↔ a ∈ l)
    (flat : α → Int) (d e : α) (hde : d + e = 0)
    (f g : α → Int × Option (Option Int))
    (hf : ∀ p ∈ l, f p = (flat p, some (if p + d ∈ s then some (flat (p + d)) else none)))
    (hg : ∀ p ∈ l, g p = (flat p, some (if p + e ∈ s then some (flat (p + e)) else none)))
    (i j : Int) (hi0 : 0 ≤ i) (hi : i < L) (hj0 : 0 ≤ j) (hj : j < L) :
    hits input mask input mask L L (l.map f) (i * L + j) =
      hits input mask input mask L L (l.map g) (j * L + i) := by
  have hed : e + d = 0 := by
    have h1 : e = -d := (neg_eq_of_add_eq_zero_right hde).symm
    rw [h1, neg_add_cancel]
  have hpde : ∀ p : α, p + d + e = p := fun p => by rw [add_assoc, hde, add_zero]
  have hped : ∀ p : α, p + e + d = p := fun p => by rw [add_assoc, hed, add_zero]
  rw [hits_map, hits_map, countP_eq_card l hl s hs, countP_eq_card l hl s hs]
  apply Finset.card_bij (fun p _ => p + d)
  · intro p hp
    rw [Finset.mem_filter] at hp ⊢
    obtain ⟨hps, ht⟩ := hp
    rw [hf p ((hs p).1 hps), target_pair_iff _ _ _ _ _ _ _ _ hi0 hi hj0 hj] at ht
    obtain ⟨h1, h2, h3, h4, h5⟩ := ht
    refine ⟨h1, ?_⟩
    rw [hg (p + d) ((hs _).1 h1), target_pair_iff _ _ _ _ _ _ _ _ hj0 hj hi0 hi, hpde p]
    exact ⟨hps, h3, h2, h5, h4⟩
  · intro p _ q _ h
    exact add_right_cancel h
  · intro q hq
    rw [Finset.mem_filter] at hq
    obtain ⟨hqs, ht⟩ := hq
    rw [hg q ((hs q).1 hqs), target_pair_iff _ _ _ _ _ _ _ _ hj0 hj hi0 hi] at ht
    obtain ⟨h1, h2, h3, h4, h5⟩ := ht
    refine ⟨q + e, ?_, hped q⟩
    rw [Finset.mem_filter]
    refine ⟨h1, ?_⟩
    rw [hf (q + e) ((hs _).1 h1), target_pair_iff _ _ _ _ _ _ _ _ hi0 hi hj0 hj, hped q]
    exact ⟨hqs, h3, h2, h5, h4⟩

theorem transpose_tally {α : Type} [AddGroup α] [DecidableEq α] (input mask : List Int)
    (L : Int) (l : List α) (hl : l.Nodup) (s : Finset α) (hs : ∀ a, a ∈ s ↔ a ∈ l)
    (flat : α → Int) (d e : α) (hde : d + e = 0)
    (f g : α → Int × Option (Option Int))
    (hf : ∀ p ∈ l, f p = (flat p, some (if p + d ∈ s then some (flat (p + d)) else none)))
    (hg : ∀ p ∈ l, g p = (flat p, some (if p + e ∈ s then some (flat (p + e)) else none)))
    (i j : Int) (hi0 : 0 ≤ i) (hi : i < L) (hj0 : 0 ≤ j) (hj : j < L) :
    ∃ v : Int,
      rd (tally input mask input mask L L (l.map f) (List.replicate (L * L).toNat 0))
        (i * L + j) = some v ∧
      rd (tally input mask input mask L L (l.map g) (List.replicate (L * L).toNat 0))
        (j * L + i) = some v := by
  have ho := le_toNat_self (L * L)
  have h1 := flat_bound i j L L hi0 hi hj0 hj
  have h2 := flat_bound j i L L hj0 hj hi0 hi
  refine ⟨_, rd_tally _ _ _ _ _ _ _ _ _ ho h1.1 (by omega), ?_⟩
  rw [rd_tally _ _ _ _ _ _ _ _ _ ho h2.1 (by omega),
    transpose_hits input mask L l hl s hs flat d e hde f g hf hg i j hi0 hi hj0 hj,
    gd_replicate, gd_replicate]

theorem cell1_shift (xi dx x : Int) :
    cell1 [dx] xi x =
      ((fun p : Int => p) x, some (if x + dx ∈ Finset.Ico 0 xi then
        some ((fun p : Int => p) (x + dx)) else none)) := by
  have e0 : gd [dx] 0 = dx := rfl
  unfold cell1
  rw [nbr1_eq _ _ _ (by simp), e0]
  simp only [Finset.mem_Ico]

theorem cell2_shift (xi yi dx dy : Int) (p : Int × Int) :
    cell2 [dx, dy] xi yi yi p =
      ((fun p : Int × Int => p.1 * yi + p.2) p,
        some (if p + (dx, dy) ∈ Finset.Ico 0 xi ×ˢ Finset.Ico 0 yi then
          some ((fun p : Int × Int => p.1 * yi + p.2) (p + (dx, dy))) else none)) := by
  have e0 : gd [dx, dy] 0 = dx := rfl
  have e1 : gd [dx, dy] 1 = dy := rfl
  unfold cell2
  rw [nbr2_eq _ _ _ _ _ _ (by simp), e0, e1]
  simp only [Finset.mem_product, Finset.mem_Ico, Prod.fst_add, Prod.snd_add]
  by_cases h : 0 ≤ p.1 + dx ∧ p.1 + dx < xi ∧ 0 ≤ p.2 + dy ∧ p.2 + dy < yi
  · rw [if_pos h, if_pos ⟨⟨h.1, h.2.1⟩, h.2.2.1, h.2.2.2⟩]
  · rw [if_neg h, if_neg (fun h2 => h ⟨h2.1.1, h2.1.2, h2.2.1, h2.2.2⟩)]

theorem cell3_shift (xi yi zi dx dy dz : Int) (p : Int × Int × Int) :
    cell3 [dx, dy, dz] xi yi zi yi zi p =
      ((fun p : Int × Int × Int => (p.1 * yi + p.2.1) * zi + p.2.2) p,
        some (if p + (dx, dy, dz) ∈ Finset.Ico 0 xi ×ˢ Finset.Ico 0 yi ×ˢ Finset.Ico 0 zi then
          some ((fun p : Int × Int × Int => (p.1 * yi + p.2.1) * zi + p.2.2)
            (p + (dx, dy, dz))) else none)) := by
  have e0 : gd [dx, dy, dz] 0 = dx := rfl
  have e1 : gd [dx, dy, dz] 1 = dy := rfl
  have e2 : gd [dx, dy, dz] 2 = dz := rfl
  unfold cell3
  rw [nbr3_eq _ _ _ _ _ _ _ _ _ (by simp), e0, e1, e2]
  simp only [Finset.mem_product, Finset.mem_Ico, Prod.fst_add, Prod.snd_add]
  by_cases h : 0 ≤ p.1 + dx ∧ p.1 + dx < xi ∧ 0 ≤ p.2.1 + dy ∧ p.2.1 + dy < yi ∧
      0 ≤ p.2.2 + dz ∧ p.2.2 + dz < zi
  · rw [if_pos h, if_pos ⟨⟨h.1, h.2.1⟩, ⟨h.2.2.1, h.2.2.2.1⟩, h.2.2.2.2.1, h.2.2.2.2.2⟩]
  · rw [if_neg h, if_neg (fun h2 => h ⟨h2.1.1, h2.1.2, h2.2.1.1, h2.2.1.2, h2.2.2.1,
      h2.2.2.2⟩)]

theorem cell4_shift (xi yi zi ti dx dy dz dt : Int) (p : Int × Int × Int × Int) :
    cell4 [dx, dy, dz, dt] xi yi zi ti yi zi ti p =
      ((fun p : Int × Int × Int × Int => ((p.1 * yi + p.2.1) * zi + p.2.2.1) * ti + p.2.2.2) p,
        some (if p + (dx, dy, dz, dt) ∈
            Finset.Ico 0 xi ×ˢ Finset.Ico 0 yi ×ˢ Finset.Ico 0 zi ×ˢ Finset.Ico 0 ti then
          some ((fun p : Int × Int × Int × Int =>
            ((p.1 * yi + p.2.1) * zi + p.2.2.1) * ti + p.2.2.2) (p + (dx, dy, dz, dt)))
          else none)) := by
  have e0 : gd [dx, dy, dz, dt] 0 = dx := rfl
  have e1 : gd [dx, dy, dz, dt] 1 = dy := rfl
  have e2 : gd [dx, dy, dz, dt] 2 = dz := rfl
  have e3 : gd [dx, dy, dz, dt] 3 = dt := rfl
  unfold cell4
  rw [nbr4_eq _ _ _ _ _ _ _ _ _ _ _ _ (by simp), e0, e1, e2, e3]
  simp only [Finset.mem_product, Finset.mem_Ico, Prod.fst_add, Prod.snd_add]
  by_cases h : 0 ≤ p.1 + dx ∧ p.1 + dx < xi ∧ 0 ≤ p.2.1 + dy ∧ p.2.1 + dy < yi ∧
      0 ≤ p.2.2.1 + dz ∧ p.2.2.1 + dz < zi ∧ 0 ≤ p.2.2.2 + dt ∧ p.2.2.2 + dt < ti
  · rw [if_pos h, if_pos ⟨⟨h.1, h.2.1⟩, ⟨h.2.2.1, h.2.2.2.1⟩, ⟨h.2.2.2.2.1, h.2.2.2.2.2.1⟩,
      h.2.2.2.2.2.2.1, h.2.2.2.2.2.2.2⟩]
  · rw [if_neg h, if_neg (fun h2 => h ⟨h2.1.1, h2.1.2, h2.2.1.1, h2.2.1.2, h2.2.2.1.1,
      h2.2.2.1.2, h2.2.2.2.1, h2.2.2.2.2⟩)]

/-- Transposition on unbounded integers: negating the offset transposes the histogram.  For
each single-image entry point of the unbounded embedding, on
buffers covering the grid and zeroed outputs of `L * L` cells, the buffer `H` returned for the
offset `d` and the buffer `Hn` returned for `-d` satisfy `Hn[j * L + i] = H[i * L + j]` for all
`i, j` in `[0, L)`. -/
theorem unbounded_transpose :
    (∀ (input mask : List Int) (xi : Int) (dx : Int) (L : Int),
      xi ≤ mask.length → xi ≤ input.length →
      ∃ H Hn : List Int,
        makecomat1D input mask xi [dx] L (List.replicate (L * L).toNat 0) =
          some H ∧
        makecomat1D input mask xi [-dx] L (List.replicate (L * L).toNat 0) =
          some Hn ∧
        ∀ i j : Int, 0 ≤ i → i < L → 0 ≤ j → j < L →
          ∃ v : Int, rd H (i * L + j) = some v ∧ rd Hn (j * L + i) = some v) ∧
    (∀ (input mask : List Int) (xi yi : Int) (dx dy : Int) (L : Int),
      xi * yi ≤ mask.length → xi * yi ≤ input.length →
      ∃ H Hn : List Int,
        makecomat2D input mask xi yi [dx, dy] L (List.replicate (L * L).toNat 0) =
          some H ∧
        makecomat2D input mask xi yi [-dx, -dy] L (List.replicate (L * L).toNat 0) =
          some Hn ∧
        ∀ i j : Int, 0 ≤ i → i < L → 0 ≤ j → j < L →
          ∃ v : Int, rd H (i * L + j) = some v ∧ rd Hn (j * L + i) = some v) ∧
    (∀ (input mask : List Int) (xi yi zi : Int) (dx dy dz : Int) (L : Int),
      xi * yi * zi ≤ mask.length → xi * yi * zi ≤ input.length →
      ∃ H Hn : List Int,
        makecomat3D input mask xi yi zi [dx, dy, dz] L (List.replicate (L * L).toNat 0) =
          some H ∧
        makecomat3D input mask xi yi zi [-dx, -dy, -dz] L (List.replicate (L * L).toNat 0) =
          some Hn ∧
        ∀ i j : Int, 0 ≤ i → i < L → 0 ≤ j → j < L →
          ∃ v : Int, rd H (i * L + j) = some v ∧ rd Hn (j * L + i) = some v) ∧
    (∀ (input mask : List Int) (xi yi zi ti : Int) (dx dy dz dt : Int) (L : Int),
      xi * yi * zi * ti ≤ mask.length → xi * yi * zi * ti ≤ input.length →
      ∃ H Hn : List Int,
        makecomat4D input mask xi yi zi ti [dx, dy, dz, dt] L (List.replicate (L * L).toNat 0) =
          some H ∧
        makecomat4D input mask xi yi zi ti [-dx, -dy, -dz, -dt] L (List.replicate (L * L).toNat 0) =
          some Hn ∧
        ∀ i j : Int, 0 ≤ i → i < L → 0 ≤ j → j < L →
          ∃ v : Int, rd H (i * L + j) = some v ∧ rd Hn (j * L + i) = some v) := by
  refine ⟨?_, ?_, ?_, ?_⟩
  · intro input mask xi dx L hm hi
    refine ⟨_, _, makecomat1D_tally input mask xi [dx] L _ hm hi (by simp) (le_toNat_self _),
      makecomat1D_tally input mask xi [-dx] L _ hm hi (by simp) (le_toNat_self _), ?_⟩
    intro i j hi0 hi1 hj0 hj1
    exact transpose_tally input mask L (grid1 xi) (nodup_grid1 _) _
      (mem_ico1 _) _ dx (-dx) (add_neg_cancel _) _ _
      (fun p _ => cell1_shift xi dx p)
      (fun p _ => cell1_shift xi (-dx) p) i j hi0 hi1 hj0 hj1
  · intro input mask xi yi dx dy L hm hi
    refine ⟨_, _, makecomat2D_tally input mask xi yi [dx, dy] L _ hm hi (by simp) (le_toNat_self _),
      makecomat2D_tally input mask xi yi [-dx, -dy] L _ hm hi (by simp) (le_toNat_self _), ?_⟩
    intro i j hi0 hi1 hj0 hj1
    exact transpose_tally input mask L (pts2 xi yi) (nodup_pts2 _ _) _
      (mem_ico2 _ _) _ (dx, dy) (-dx, -dy) (by simp) _ _
      (fun p _ => cell2_shift xi yi dx dy p)
      (fun p _ => cell2_shift xi yi (-dx) (-dy) p) i j hi0 hi1 hj0 hj1
  · intro input mask xi yi zi dx dy dz L hm hi
    refine ⟨_, _, makecomat3D_tally input mask xi yi zi [dx, dy, dz] L _ hm hi (by simp) (le_toNat_self _),
      makecomat3D_tally input mask xi yi zi [-dx, -dy, -dz] L _ hm hi (by simp) (le_toNat_self _), ?_⟩
    intro i j hi0 hi1 hj0 hj1
    exact transpose_tally input mask L (pts3 xi yi zi) (nodup_pts3 _ _ _) _
      (mem_ico3 _ _ _) _ (dx, dy, dz) (-dx, -dy, -dz) (by simp) _ _
      (fun p _ => cell3_shift xi yi zi dx dy dz p)
      (fun p _ => cell3_shift xi yi zi (-dx) (-dy) (-dz) p) i j hi0 hi1 hj0 hj1
  · intro input mask xi yi zi ti dx dy dz dt L hm hi
    refine ⟨_, _, makecomat4D_tally input mask xi yi zi ti [dx, dy, dz, dt] L _ hm hi (by simp) (le_toNat_self _),
      makecomat4D_tally input mask xi yi zi ti [-dx, -dy, -dz, -dt] L _ hm hi (by simp) (le_toNat_self _), ?_⟩
    intro i j hi0 hi1 hj0 hj1
    exact transpose_tally input mask L (pts4 xi yi zi ti) (nodup_pts4 _ _ _ _) _
      (mem_ico4 _ _ _ _) _ (dx, dy, dz, dt) (-dx, -dy, -dz, -dt) (by simp) _ _
      (fun p _ => cell4_shift xi yi zi ti dx dy dz dt p)
      (fun p _ => cell4_shift xi yi zi ti (-dx) (-dy) (-dz) (-dt) p) i j hi0 hi1 hj0 hj1

/-! ## The grid indexer -/

theorem grid1_add (a b : Int) (ha : 0 ≤ a) (hb : 0 ≤ b) :
    grid1 (a + b) = grid1 a ++ (grid1 b).map (fun k => a + k) := by
  unfold grid1
  have h : (a + b).toNat = a.toNat + b.toNat := by omega
  rw [h, List.range_add, List.map_append, List.map_map, List.map_map]
  congr 1
  apply List.map_congr_left
  intro k _
  simp only [Function.comp_apply, Nat.cast_add]
  omega

theorem product_append_left {α β : Type} (l1 l2 : List α) (l : List β) :
    List.product (l1 ++ l2) l = List.product l1 l ++ List.product l2 l := by
  unfold List.product
  rw [List.flatMap_append]

theorem product_singleton_left {α β : Type} (a : α) (l : List β) :
    List.product [a] l = l.map (Prod.mk a) := by
  unfold List.product
  simp

theorem grid1_succ (n : Nat) : grid1 ((n : Int) + 1) = grid1 n ++ [(n : Int)] := by
  rw [grid1_add n 1 (by omega) (by omega)]
  rfl

theorem flat_product_nat {β : Type} (n : Nat) (B : Int) (hB : 0 ≤ B) (l : List β)
    (g : β → Int) (hg : l.map g = grid1 B) :
    (List.product (grid1 n) l).map (fun p => p.1 * B + g p.2) = grid1 (n * B) := by
  induction n with
  | zero =>
    rw [Nat.cast_zero, zero_mul, grid1_nil 0 (le_refl _)]
    rfl
  | succ n ih =>
    have e : ((n + 1 : Nat) : Int) * B = n * B + B := by push_cast; ring
    rw [e, grid1_add _ _ (mul_nonneg (by omega) hB) hB, Nat.cast_add, Nat.cast_one,
      grid1_succ, product_append_left, List.map_append, ih, product_singleton_left,
      List.map_map, ← hg, List.map_map]
    rfl

theorem flat_product {β : Type} (A B : Int) (hA : 0 ≤ A) (hB : 0 ≤ B) (l : List β)
    (g : β → Int) (hg : l.map g = grid1 B) :
    (List.product (grid1 A) l).map (fun p => p.1 * B + g p.2) = grid1 (A * B) := by
  obtain ⟨n, rfl⟩ := Int.eq_ofNat_of_zero_le hA
  exact flat_product_nat n B hB l g hg

theorem order2 (zi ti : Int) (hz : 0 ≤ zi) (ht : 0 ≤ ti) :
    (pts2 zi ti).map (fun p => p.1 * ti + p.2) = grid1 (zi * ti) := by
  unfold pts2
  exact flat_product zi ti hz ht (grid1 ti) (fun t => t) (List.map_id _)

theorem order3 (yi zi ti : Int) (hy : 0 ≤ yi) (hz : 0 ≤ zi) (ht : 0 ≤ ti) :
    (pts3 yi zi ti).map (fun p => (p.1 * zi + p.2.1) * ti + p.2.2) =
      grid1 (yi * zi * ti) := by
  have h := flat_product yi (zi * ti) hy (mul_nonneg hz ht) (pts2 zi ti)
    (fun p => p.1 * ti + p.2) (order2 zi ti hz ht)
  rw [mul_assoc, ← h]
  unfold pts3
  apply List.map_congr_left
  intro p _
  ring

theorem order4 (xi yi zi ti : Int) (hx : 0 ≤ xi) (hy : 0 ≤ yi) (hz : 0 ≤ zi) (ht : 0 ≤ ti) :
    (pts4 xi yi zi ti).map (fun p => ((p.1 * yi + p.2.1) * zi + p.2.2.1) * ti + p.2.2.2) =
      grid1 (xi * yi * zi * ti) := by
  have h := flat_product xi (yi * zi * ti) hx (mul_nonneg (mul_nonneg hy hz) ht)
    (pts3 yi zi ti) (fun p => (p.1 * zi + p.2.1) * ti + p.2.2) (order3 yi zi ti hy hz ht)
  have e : xi * yi * zi * ti = xi * (yi * zi * ti) := by ring
  rw [e, ← h]
  unfold pts4
  apply List.map_congr_left
  intro p _
  ring

/-- The row-major formula on unbounded integers.  The fold form of `makecomat4D` runs over
`pts4` and addresses the centre `(x, y, z, t)` at `((x * yi + y) * zi + z) * ti + t`.  For
non-negative (in particular positive) extents this flat offset lies in
`[0, xi * yi * zi * ti)`, distinct coordinates of the grid get distinct offsets, every offset of
that range is reached, incrementing `t` by 1 increments the offset by 1, and the offsets of
the coordinates of `pts4`, in order, are `0, 1, 2, ..`. -/
theorem unbounded_grid_indexer (xi yi zi ti : Int) (hx : 0 ≤ xi) (hy : 0 ≤ yi) (hz : 0 ≤ zi)
    (ht : 0 ≤ ti) :
    (∀ (input mask coords : List Int) (L : Int) (output : List Int),
      makecomat4D input mask xi yi zi ti coords L output =
        run input mask input mask L L
          ((pts4 xi yi zi ti).map (cell4 coords xi yi zi ti yi zi ti)) output) ∧
    (∀ (coords : List Int) (x y z t : Int),
      (cell4 coords xi yi zi ti yi zi ti (x, y, z, t)).1 = ((x * yi + y) * zi + z) * ti + t) ∧
    (∀ x y z t : Int, 0 ≤ x → x < xi → 0 ≤ y → y < yi → 0 ≤ z → z < zi → 0 ≤ t → t < ti →
      0 ≤ ((x * yi + y) * zi + z) * ti + t ∧
        ((x * yi + y) * zi + z) * ti + t < xi * yi * zi * ti) ∧
    (∀ x y z t x2 y2 z2 t2 : Int,
      0 ≤ x → x < xi → 0 ≤ y → y < yi → 0 ≤ z → z < zi → 0 ≤ t → t < ti →
      0 ≤ x2 → x2 < xi → 0 ≤ y2 → y2 < yi → 0 ≤ z2 → z2 < zi → 0 ≤ t2 → t2 < ti →
      ((x * yi + y) * zi + z) * ti + t = ((x2 * yi + y2) * zi + z2) * ti + t2 →
      x = x2 ∧ y = y2 ∧ z = z2 ∧ t = t2) ∧
    (∀ k : Int, 0 ≤ k → k < xi * yi * zi * ti →
      ∃ x y z t : Int, (0 ≤ x ∧ x < xi) ∧ (0 ≤ y ∧ y < yi) ∧ (0 ≤ z ∧ z < zi) ∧
        (0 ≤ t ∧ t < ti) ∧ ((x * yi + y) * zi + z) * ti + t = k) ∧
    (∀ x y z t : Int,
      ((x * yi + y) * zi + z) * ti + (t + 1) = (((x * yi + y) * zi + z) * ti + t) + 1) ∧
    ((pts4 xi yi zi ti).map (fun p => ((p.1 * yi + p.2.1) * zi + p.2.2.1) * ti + p.2.2.2) =
      (List.range (xi * yi * zi * ti).toNat).map (fun (k : Nat) => (k : Int))) := by
  have ho := order4 xi yi zi ti hx hy hz ht
  refine ⟨?_, ?_, ?_, ?_, ?_, ?_, ?_⟩
  · intro input mask coords L output
    exact makecomat4D_run input mask xi yi zi ti coords L output
  · intro coords x y z t
    rfl
  · intro x y z t x0 x1 y0 y1 z0 z1 t0 t1
    exact flat4_bound xi yi zi ti (x, y, z, t)
      ((mem_pts4 xi yi zi ti (x, y, z, t)).2 ⟨⟨x0, x1⟩, ⟨y0, y1⟩, ⟨z0, z1⟩, t0, t1⟩)
  · intro x y z t x2 y2 z2 t2 x0 x1 y0 y1 z0 z1 t0 t1 a0 a1 b0 b1 c0 c1 d0 d1 h
    have hn : ((pts4 xi yi zi ti).map
        (fun p => ((p.1 * yi + p.2.1) * zi + p.2.2.1) * ti + p.2.2.2)).Nodup := by
      rw [ho]
      exact nodup_grid1 _
    have := List.inj_on_of_nodup_map hn
      ((mem_pts4 xi yi zi ti (x, y, z, t)).2 ⟨⟨x0, x1⟩, ⟨y0, y1⟩, ⟨z0, z1⟩, t0, t1⟩)
      ((mem_pts4 xi yi zi ti (x2, y2, z2, t2)).2 ⟨⟨a0, a1⟩, ⟨b0, b1⟩, ⟨c0, c1⟩, d0, d1⟩) h
    simp only [Prod.mk.injEq] at this
    exact this
  · intro k k0 k1
    have hk : k ∈ (pts4 xi yi zi ti).map
        (fun p => ((p.1 * yi + p.2.1) * zi + p.2.2.1) * ti + p.2.2.2) := by
      rw [ho, mem_grid1]
      exact ⟨k0, k1⟩
    obtain ⟨p, hp, hpk⟩ := List.mem_map.1 hk
    rw [mem_pts4] at hp
    exact ⟨p.1, p.2.1, p.2.2.1, p.2.2.2, hp.1, hp.2.1, hp.2.2.1, hp.2.2.2, hpk⟩
  · intro x y z t
    ring
  · exact ho

/-! ## Machine arithmetic -/

theorem wrap_of_isInt (v : Int) (h : IsInt v) : wrap v = v := by
  unfold IsInt at h
  unfold wrap
  omega

theorem wrap_isInt (v : Int) : IsInt (wrap v) := by
  unfold IsInt wrap
  omega

theorem wrap_succ (v : Int) : wrap (wrap v + 1) = wrap (v + 1) := by
  unfold wrap
  omega

theorem madd_eq (a b A B : Int) (ha : 0 ≤ a) (hA : a < A) (hb : 0 ≤ b) (hB : b < B)
    (h : A * B ≤ 2147483647) : madd a B b = a * B + b := by
  have hf := flat_bound a b A B ha hA hb hB
  have h0 : 0 ≤ a * B := mul_nonneg ha (by omega)
  unfold madd
  rw [wrap_of_isInt (a * B) ⟨by omega, by omega⟩, wrap_of_isInt _ ⟨by omega, by omega⟩]

theorem wrap_test (x c n : Int) (hx0 : 0 ≤ x) (hxn : x < n) (hn : n ≤ 2147483647)
    (hc : IsInt c) : (0 ≤ wrap (x + c) ∧ wrap (x + c) < n) ↔ (0 ≤ x + c ∧ x + c < n) := by
  unfold IsInt at hc
  unfold wrap
  omega

theorem wrap_pass (x c n : Int) (hn : n ≤ 2147483647) (h0 : 0 ≤ x + c) (h1 : x + c < n) :
    wrap (x + c) = x + c :=
  wrap_of_isInt _ ⟨by omega, by omega⟩

theorem rd_mem (b : List Int) (k v : Int) (h : rd b k = some v) : v ∈ b := by
  unfold rd at h
  split_ifs at h
  exact List.mem_iff_getElem?.2 ⟨_, h⟩

theorem rd_map_wrap (b : List Int) (k : Int) : rd (b.map wrap) k = (rd b k).map wrap := by
  unfold rd
  split_ifs
  · rw [List.getElem?_map]
  · rfl

theorem map_wrap_of_isInt (b : List Int) (h : ∀ v ∈ b, IsInt v) : b.map wrap = b := by
  conv_rhs => rw [← List.map_id b]
  exact List.map_congr_left (fun v hv => wrap_of_isInt v (h v hv))

theorem incr32_wrap (out : List Int) (k : Int) :
    incr32 (out.map wrap) k = (incr out k).map (List.map wrap) := by
  unfold incr32 incr
  rw [rd_map_wrap]
  cases rd out k with
  | none => rfl
  | some v =>
    simp only [Option.map_some', List.map_set, wrap_succ]

/-! ## The machine loop nests as folds -/

theorem makecomat1D_2T_i32_run (input1 mask1 : List Int) (xi1 : Int)
    (input2 mask2 : List Int) (xi2 : Int) (coords : List Int)
    (levels1 levels2 : Int) (output : List Int) :
    makecomat1D_2T_i32 input1 mask1 xi1 input2 mask2 xi2 coords
        levels1 levels2 output =
      run32 input1 mask1 input2 mask2 levels1 levels2
        (cells32_1 coords xi1) output := by
  unfold makecomat1D_2T_i32 run32 cells32_1 cell32_1
  simp only [forLoop_eq_grid1, List.foldlM_map]
  congr 1
  funext out x
  unfold visit32 nbr32_1
  cases rd mask1 x with
  | none => rfl
  | some m =>
    by_cases hm : m = 1
    swap
    · simp only [Option.some_bind, Option.bind_eq_bind, if_neg hm]
    subst hm
    cases rd input1 x with
    | none => rfl
    | some i =>
      cases rd coords 0 with
      | none => rfl
      | some c0 =>
        simp only [Option.some_bind, Option.bind_eq_bind, Option.pure_def, if_true]
        split_ifs <;> rfl

theorem makecomat2D_2T_i32_run (input1 mask1 : List Int) (xi1 yi1 : Int)
    (input2 mask2 : List Int) (xi2 yi2 : Int) (coords : List Int)
    (levels1 levels2 : Int) (output : List Int) :
    makecomat2D_2T_i32 input1 mask1 xi1 yi1 input2 mask2 xi2 yi2 coords
        levels1 levels2 output =
      run32 input1 mask1 input2 mask2 levels1 levels2
        (cells32_2 coords xi1 yi1 yi2) output := by
  unfold makecomat2D_2T_i32 run32 cells32_2 pts2 cell32_2
  simp only [forLoop_eq_grid1, List.foldlM_map, foldlM_product]
  congr 1
  funext out x
  congr 1
  funext out y
  unfold visit32 nbr32_2
  cases rd mask1 (madd x yi1 y) with
  | none => rfl
  | some m =>
    by_cases hm : m = 1
    swap
    · simp only [Option.some_bind, Option.bind_eq_bind, if_neg hm]
    subst hm
    cases rd input1 (madd x yi1 y) with
    | none => rfl
    | some i =>
      cases rd coords 0 with
      | none => rfl
      | some c0 =>
        cases rd coords 1 with
        | none => rfl
        | some c1 =>
          simp only [Option.some_bind, Option.bind_eq_bind, Option.pure_def, if_true]
          split_ifs <;> rfl

theorem makecomat3D_2T_i32_run (input1 mask1 : List Int) (xi1 yi1 zi1 : Int)
    (input2 mask2 : List Int) (xi2 yi2 zi2 : Int) (coords : List Int)
    (levels1 levels2 : Int) (output : List Int) :
    makecomat3D_2T_i32 input1 mask1 xi1 yi1 zi1 input2 mask2 xi2 yi2 zi2 coords
        levels1 levels2 output =
      run32 input1 mask1 input2 mask2 levels1 levels2
        (cells32_3 coords xi1 yi1 zi1 yi2 zi2) output := by
  unfold makecomat3D_2T_i32 run32 cells32_3 pts3 pts2 cell32_3
  simp only [forLoop_eq_grid1, List.foldlM_map, foldlM_product]
  congr 1
  funext out x
  congr 1
  funext out y
  congr 1
  funext out z
  unfold visit32 nbr32_3
  cases rd mask1 (madd (madd x yi1 y) zi1 z) with
  | none => rfl
  | some m =>
    by_cases hm : m = 1
    swap
    · simp only [Option.some_bind, Option.bind_eq_bind, if_neg hm]
    subst hm
    cases rd input1 (madd (madd x yi1 y) zi1 z) with
    | none => rfl
    | some i =>
      cases rd coords 0 with
      | none => rfl
      | some c0 =>
        cases rd coords 1 with
        | none => rfl
        | some c1 =>
          cases rd coords 2 with
          | none => rfl
          | some c2 =>
            simp only [Option.some_bind, Option.bind_eq_bind, Option.pure_def, if_true]
            split_ifs <;> rfl

theorem makecomat4D_2T_i32_run (input1 mask1 : List Int) (xi1 yi1 zi1 ti1 : Int)
    (input2 mask2 : List Int) (xi2 yi2 zi2 ti2 : Int) (coords : List Int)
    (levels1 levels2 : Int) (output : List Int) :
    makecomat4D_2T_i32 input1 mask1 xi1 yi1 zi1 ti1 input2 mask2 xi2 yi2 zi2 ti2 coords
        levels1 levels2 output =
      run32 input1 mask1 input2 mask2 levels1 levels2
        (cells32_4 coords xi1 yi1 zi1 ti1 yi2 zi2 ti2) output := by
  unfold makecomat4D_2T_i32 run32 cells32_4 pts4 pts3 pts2 cell32_4
  simp only [forLoop_eq_grid1, List.foldlM_map, foldlM_product]
  congr 1
  funext out x
  congr 1
  funext out y
  congr 1
  funext out z
  congr 1
  funext out t
  unfold visit32 nbr32_4
  cases rd mask1 (madd (madd (madd x yi1 y) zi1 z) ti1 t) with
  | none => rfl
  | some m =>
    by_cases hm : m = 1
    swap
    · simp only [Option.some_bind, Option.bind_eq_bind, if_neg hm]
    subst hm
    cases rd input1 (madd (madd (madd x yi1 y) zi1 z) ti1 t) with
    | none => rfl
    | some i =>
      cases rd coords 0 with
      | none => rfl
      | some c0 =>
        cases rd coords 1 with
        | none => rfl
        | some c1 =>
          cases rd coords 2 with
          | none => rfl
          | some c2 =>
            cases rd coords 3 with
            | none => rfl
            | some c3 =>
              simp only [Option.some_bind, Option.bind_eq_bind, Option.pure_def, if_true]
              split_ifs <;> rfl

theorem makecomat1D_i32_self (input mask : List Int) (xi : Int) (coords : List Int)
    (levels : Int) (output : List Int) :
    makecomat1D_2T_i32 input mask xi input mask xi coords levels levels output =
      makecomat1D_i32 input mask xi coords levels output := rfl

theorem makecomat2D_i32_self (input mask : List Int) (xi yi : Int) (coords : List Int)
    (levels : Int) (output : List Int) :
    makecomat2D_2T_i32 input mask xi yi input mask xi yi coords levels levels output =
      makecomat2D_i32 input mask xi yi coords levels output := rfl

theorem makecomat3D_i32_self (input mask : List Int) (xi yi zi : Int) (coords : List Int)
    (levels : Int) (output : List Int) :
    makecomat3D_2T_i32 input mask xi yi zi input mask xi yi zi coords levels levels output =
      makecomat3D_i32 input mask xi yi zi coords levels output := rfl

theorem makecomat4D_i32_self (input mask : List Int) (xi yi zi ti : Int) (coords : List Int)
    (levels : Int) (output : List Int) :
    makecomat4D_2T_i32 input mask xi yi zi ti input mask xi yi zi ti coords levels levels output =
      makecomat4D_i32 input mask xi yi zi ti coords levels output := rfl

/-! ## The machine fold computes the unbounded fold modulo 2^32 -/

theorem visit32_wrap (input1 mask1 input2 mask2 : List Int) (levels1 levels2 : Int)
    (hL : levels1 * levels2 ≤ 2147483647) (c : Int) (nb : Option (Option Int))
    (out : List Int) :
    visit32 input1 mask1 input2 mask2 levels1 levels2 c nb (out.map wrap) =
      (visit input1 mask1 input2 mask2 levels1 levels2 c nb out).map (List.map wrap) := by
  unfold visit32 visit
  cases rd mask1 c with
  | none => rfl
  | some m =>
    by_cases hm : m = 1
    swap
    · simp only [Option.some_bind, Option.bind_eq_bind, if_neg hm]
      rfl
    subst hm
    cases rd input1 c with
    | none => rfl
    | some i =>
      cases nb with
      | none => rfl
      | some r =>
        cases r with
        | none => rfl
        | some n =>
          simp only [Option.some_bind, Option.bind_eq_bind, if_true]
          cases rd mask2 n with
          | none => rfl
          | some m2 =>
            by_cases hm2 : m2 = 1
            swap
            · simp only [Option.some_bind, if_neg hm2]
              rfl
            subst hm2
            simp only [Option.some_bind, if_true]
            cases rd input2 n with
            | none => rfl
            | some j =>
              by_cases hl : 0 ≤ i ∧ i < levels1 ∧ 0 ≤ j ∧ j < levels2
              · simp only [Option.some_bind, if_pos hl]
                rw [madd_eq i j levels1 levels2 hl.1 hl.2.1 hl.2.2.1 hl.2.2.2 hL]
                exact incr32_wrap out _
              · simp only [Option.some_bind, if_neg hl]
                rfl

theorem run32_wrap (input1 mask1 input2 mask2 : List Int) (levels1 levels2 : Int)
    (hL : levels1 * levels2 ≤ 2147483647) (cells : List (Int × Option (Option Int)))
    (out : List Int) :
    run32 input1 mask1 input2 mask2 levels1 levels2 cells (out.map wrap) =
      (run input1 mask1 input2 mask2 levels1 levels2 cells out).map (List.map wrap) := by
  induction cells generalizing out with
  | nil => rfl
  | cons q cells ih =>
    unfold run32 run
    rw [List.foldlM_cons, List.foldlM_cons, visit32_wrap _ _ _ _ _ _ hL]
    cases visit input1 mask1 input2 mask2 levels1 levels2 q.1 q.2 out with
    | none => rfl
    | some o => exact ih o

/-! ## Inside the range of `int` the machine cells are the unbounded cells -/

theorem range2 (xi yi xi2 yi2 : Int) (p0 : 0 < xi) (p1 : 0 < yi) (h0 : xi ≤ xi2) (h1 : yi ≤ yi2)
    (hM : xi2 * yi2 ≤ 2147483647) :
    xi ≤ 2147483647 ∧ yi ≤ 2147483647 ∧ xi * yi ≤ 2147483647 ∧ xi * yi2 ≤ 2147483647 := by
  have pA2 : 0 < xi * yi := mul_pos p0 p1
  have pS2 : 0 < xi * yi2 := mul_pos p0 (by omega)
  have pT2 : 0 < xi2 * yi2 := mul_pos (by omega : 0 < xi2) (by omega)
  have lAS2 : xi * yi ≤ xi * yi2 := mul_le_mul (le_refl _) h1 (by omega) (by omega)
  have lST2 : xi * yi2 ≤ xi2 * yi2 := mul_le_mul h0 (le_refl _) (by omega) (by omega)
  have tA2 : xi ≤ xi * yi := le_mul_of_one_le_right (by omega) (by omega)
  have tS2 : xi ≤ xi * yi2 := le_mul_of_one_le_right (by omega) (by omega)
  have tT2 : xi2 ≤ xi2 * yi2 := le_mul_of_one_le_right (by omega) (by omega)
  have iA2 : yi ≤ xi * yi := le_mul_of_one_le_left (by omega) (by omega)
  refine ⟨by omega, by omega, by omega, by omega⟩

theorem range3 (xi yi zi xi2 yi2 zi2 : Int) (p0 : 0 < xi) (p1 : 0 < yi) (p2 : 0 < zi) (h0 : xi ≤ xi2) (h1 : yi ≤ yi2) (h2 : zi ≤ zi2)
    (hM : xi2 * yi2 * zi2 ≤ 2147483647) :
    xi ≤ 2147483647 ∧ yi ≤ 2147483647 ∧ zi ≤ 2147483647 ∧ xi * yi ≤ 2147483647 ∧ xi * yi * zi ≤ 2147483647 ∧ xi * yi2 ≤ 2147483647 ∧ xi * yi2 * zi2 ≤ 2147483647 := by
  have pA2 : 0 < xi * yi := mul_pos p0 p1
  have pS2 : 0 < xi * yi2 := mul_pos p0 (by omega)
  have pT2 : 0 < xi2 * yi2 := mul_pos (by omega : 0 < xi2) (by omega)
  have lAS2 : xi * yi ≤ xi * yi2 := mul_le_mul (le_refl _) h1 (by omega) (by omega)
  have lST2 : xi * yi2 ≤ xi2 * yi2 := mul_le_mul h0 (le_refl _) (by omega) (by omega)
  have tA2 : xi ≤ xi * yi := le_mul_of_one_le_right (by omega) (by omega)
  have tS2 : xi ≤ xi * yi2 := le_mul_of_one_le_right (by omega) (by omega)
  have tT2 : xi2 ≤ xi2 * yi2 := le_mul_of_one_le_right (by omega) (by omega)
  have iA2 : yi ≤ xi * yi := le_mul_of_one_le_left (by omega) (by omega)
  have pA3 : 0 < xi * yi * zi := mul_pos pA2 p2
  have pS3 : 0 < xi * yi2 * zi2 := mul_pos pS2 (by omega)
  have pT3 : 0 < xi2 * yi2 * zi2 := mul_pos pT2 (by omega)
  have lAS3 : xi * yi * zi ≤ xi * yi2 * zi2 := mul_le_mul lAS2 h2 (by omega) (by omega)
  have lST3 : xi * yi2 * zi2 ≤ xi2 * yi2 * zi2 := mul_le_mul lST2 (le_refl _) (by omega) (by omega)
  have tA3 : xi * yi ≤ xi * yi * zi := le_mul_of_one_le_right (by omega) (by omega)
  have tS3 : xi * yi2 ≤ xi * yi2 * zi2 := le_mul_of_one_le_right (by omega) (by omega)
  have tT3 : xi2 * yi2 ≤ xi2 * yi2 * zi2 := le_mul_of_one_le_right (by omega) (by omega)
  have iA3 : zi ≤ xi * yi * zi := le_mul_of_one_le_left (by omega) (by omega)
  refine ⟨by omega, by omega, by omega, by omega, by omega, by omega, by omega⟩

theorem range4 (xi yi zi ti xi2 yi2 zi2 ti2 : Int) (p0 : 0 < xi) (p1 : 0 < yi) (p2 : 0 < zi) (p3 : 0 < ti) (h0 : xi ≤ xi2) (h1 : yi ≤ yi2) (h2 : zi ≤ zi2) (h3 : ti ≤ ti2)
    (hM : xi2 * yi2 * zi2 * ti2 ≤ 2147483647) :
    xi ≤ 2147483647 ∧ yi ≤ 2147483647 ∧ zi ≤ 2147483647 ∧ ti ≤ 2147483647 ∧ xi * yi ≤ 2147483647 ∧ xi * yi * zi ≤ 2147483647 ∧ xi * yi * zi * ti ≤ 2147483647 ∧ xi * yi2 ≤ 2147483647 ∧ xi * yi2 * zi2 ≤ 2147483647 ∧ xi * yi2 * zi2 * ti2 ≤ 2147483647 := by
  have pA2 : 0 < xi * yi := mul_pos p0 p1
  have pS2 : 0 < xi * yi2 := mul_pos p0 (by omega)
  have pT2 : 0 < xi2 * yi2 := mul_pos (by omega : 0 < xi2) (by omega)
  have lAS2 : xi * yi ≤ xi * yi2 := mul_le_mul (le_refl _) h1 (by omega) (by omega)
  have lST2 : xi * yi2 ≤ xi2 * yi2 := mul_le_mul h0 (le_refl _) (by omega) (by omega)
  have tA2 : xi ≤ xi * yi := le_mul_of_one_le_right (by omega) (by omega)
  have tS2 : xi ≤ xi * yi2 := le_mul_of_one_le_right (by omega) (by omega)
  have tT2 : xi2 ≤ xi2 * yi2 := le_mul_of_one_le_right (by omega) (by omega)
  have iA2 : yi ≤ xi * yi := le_mul_of_one_le_left (by omega) (by omega)
  have pA3 : 0 < xi * yi * zi := mul_pos pA2 p2
  have pS3 : 0 < xi * yi2 * zi2 := mul_pos pS2 (by omega)
  have pT3 : 0 < xi2 * yi2 * zi2 := mul_pos pT2 (by omega)
  have lAS3 : xi * yi * zi ≤ xi * yi2 * zi2 := mul_le_mul lAS2 h2 (by omega) (by omega)
  have lST3 : xi * yi2 * zi2 ≤ xi2 * yi2 * zi2 := mul_le_mul lST2 (le_refl _) (by omega) (by omega)
  have tA3 : xi * yi ≤ xi * yi * zi := le_mul_of_one_le_right (by omega) (by omega)
  have tS3 : xi * yi2 ≤ xi * yi2 * zi2 := le_mul_of_one_le_right (by omega) (by omega)
  have tT3 : xi2 * yi2 ≤ xi2 * yi2 * zi2 := le_mul_of_one_le_right (by omega) (by omega)
  have iA3 : zi ≤ xi * yi * zi := le_mul_of_one_le_left (by omega) (by omega)
  have pA4 : 0 < xi * yi * zi * ti := mul_pos pA3 p3
  have pS4 : 0 < xi * yi2 * zi2 * ti2 := mul_pos pS3 (by omega)
  have pT4 : 0 < xi2 * yi2 * zi2 * ti2 := mul_pos pT3 (by omega)
  have lAS4 : xi * yi * zi * ti ≤ xi * yi2 * zi2 * ti2 := mul_le_mul lAS3 h3 (by omega) (by omega)
  have lST4 : xi * yi2 * zi2 * ti2 ≤ xi2 * yi2 * zi2 * ti2 := mul_le_mul lST3 (le_refl _) (by omega) (by omega)
  have tA4 : xi * yi * zi ≤ xi * yi * zi * ti := le_mul_of_one_le_right (by omega) (by omega)
  have tS4 : xi * yi2 * zi2 ≤ xi * yi2 * zi2 * ti2 := le_mul_of_one_le_right (by omega) (by omega)
  have tT4 : xi2 * yi2 * zi2 ≤ xi2 * yi2 * zi2 * ti2 := le_mul_of_one_le_right (by omega) (by omega)
  have iA4 : ti ≤ xi * yi * zi * ti := le_mul_of_one_le_left (by omega) (by omega)
  refine ⟨by omega, by omega, by omega, by omega, by omega, by omega, by omega, by omega, by omega, by omega⟩

theorem cell32_1_eq (coords : List Int) (xi xi2 : Int) (x : Int)
    (hc : ∀ c ∈ coords, IsInt c) (h0 : xi ≤ xi2)
    (hM : xi2 ≤ 2147483647) (hp : x ∈ grid1 xi) :
    cell32_1 coords xi x = cell1 coords xi x := by
  rw [mem_grid1] at hp
  obtain ⟨a0, a1⟩ := hp
  have m0 : xi ≤ 2147483647 := by omega
  have en : nbr32_1 coords xi x = nbr1 coords xi x := by
    unfold nbr32_1 nbr1
    cases r0 : rd coords 0 with
    | none => rfl
    | some c0 =>
      simp only [Option.some_bind, Option.bind_eq_bind, Option.pure_def]
      have i0 := hc c0 (rd_mem _ _ _ r0)
      by_cases h : 0 ≤ x + c0 ∧ x + c0 < xi
      · obtain ⟨u0, v0⟩ := h
        rw [wrap_pass _ _ xi m0 u0 v0, if_pos ⟨u0, v0⟩]
      · rw [if_neg h, if_neg]
        rintro ⟨u0, v0⟩
        have w0 := (wrap_test _ _ _ a0 a1 m0 i0).1 ⟨u0, v0⟩
        exact h ⟨w0.1, w0.2⟩
  unfold cell32_1 cell1
  rw [en]

theorem cells32_1_eq (coords : List Int) (xi xi2 : Int)
    (hc : ∀ c ∈ coords, IsInt c) (h0 : xi ≤ xi2)
    (hM : xi2 ≤ 2147483647) :
    cells32_1 coords xi = cells1 coords xi := by
  unfold cells32_1 cells1
  exact List.map_congr_left (fun p hp =>
    cell32_1_eq coords xi xi2 p hc h0 hM hp)

theorem cell32_2_eq (coords : List Int) (xi yi xi2 yi2 : Int) (p : Int × Int)
    (hc : ∀ c ∈ coords, IsInt c) (h0 : xi ≤ xi2) (h1 : yi ≤ yi2)
    (hM : xi2 * yi2 ≤ 2147483647) (hp : p ∈ pts2 xi yi) :
    cell32_2 coords xi yi yi2 p = cell2 coords xi yi yi2 p := by
  rw [mem_pts2] at hp
  obtain ⟨⟨a0, a1⟩, b0, b1⟩ := hp
  obtain ⟨m0, m1, q2, s2⟩ := range2 xi yi xi2 yi2 (by omega) (by omega) h0 h1 hM
  have f2 := flat_bound p.1 p.2 xi yi a0 a1 b0 b1
  have ec : madd p.1 yi p.2 = p.1 * yi + p.2 := by
    rw [madd_eq _ _ xi yi a0 a1 b0 b1 q2]
  have en : nbr32_2 coords xi yi yi2 p.1 p.2 = nbr2 coords xi yi yi2 p.1 p.2 := by
    unfold nbr32_2 nbr2
    cases r0 : rd coords 0 with
    | none => rfl
    | some c0 =>
      cases r1 : rd coords 1 with
      | none => rfl
      | some c1 =>
        simp only [Option.some_bind, Option.bind_eq_bind, Option.pure_def]
        have i0 := hc c0 (rd_mem _ _ _ r0)
        have i1 := hc c1 (rd_mem _ _ _ r1)
        by_cases h : 0 ≤ p.1 + c0 ∧ p.1 + c0 < xi ∧ 0 ≤ p.2 + c1 ∧ p.2 + c1 < yi
        · obtain ⟨u0, v0, u1, v1⟩ := h
          have g2 := flat_bound (p.1 + c0) (p.2 + c1) xi yi2 u0 v0 u1 (by omega)
          rw [wrap_pass _ _ xi m0 u0 v0, wrap_pass _ _ yi m1 u1 v1, if_pos ⟨u0, v0, u1, v1⟩, if_pos ⟨u0, v0, u1, v1⟩, madd_eq _ _ xi yi2 u0 v0 u1 (by omega) s2]
        · rw [if_neg h, if_neg]
          rintro ⟨u0, v0, u1, v1⟩
          have w0 := (wrap_test _ _ _ a0 a1 m0 i0).1 ⟨u0, v0⟩
          have w1 := (wrap_test _ _ _ b0 b1 m1 i1).1 ⟨u1, v1⟩
          exact h ⟨w0.1, w0.2, w1.1, w1.2⟩
  unfold cell32_2 cell2
  rw [ec, en]

theorem cells32_2_eq (coords : List Int) (xi yi xi2 yi2 : Int)
    (hc : ∀ c ∈ coords, IsInt c) (h0 : xi ≤ xi2) (h1 : yi ≤ yi2)
    (hM : xi2 * yi2 ≤ 2147483647) :
    cells32_2 coords xi yi yi2 = cells2 coords xi yi yi2 := by
  unfold cells32_2 cells2
  exact List.map_congr_left (fun p hp =>
    cell32_2_eq coords xi yi xi2 yi2 p hc h0 h1 hM hp)

theorem cell32_3_eq (coords : List Int) (xi yi zi xi2 yi2 zi2 : Int) (p : Int × Int × Int)
    (hc : ∀ c ∈ coords, IsInt c) (h0 : xi ≤ xi2) (h1 : yi ≤ yi2) (h2 : zi ≤ zi2)
    (hM : xi2 * yi2 * zi2 ≤ 2147483647) (hp : p ∈ pts3 xi yi zi) :
    cell32_3 coords xi yi zi yi2 zi2 p = cell3 coords xi yi zi yi2 zi2 p := by
  rw [mem_pts3] at hp
  obtain ⟨⟨a0, a1⟩, ⟨b0, b1⟩, d0, d1⟩ := hp
  obtain ⟨m0, m1, m2, q2, q3, s2, s3⟩ := range3 xi yi zi xi2 yi2 zi2 (by omega) (by omega) (by omega) h0 h1 h2 hM
  have f2 := flat_bound p.1 p.2.1 xi yi a0 a1 b0 b1
  have f3 := flat_bound _ p.2.2 (xi * yi) zi f2.1 f2.2 d0 d1
  have ec : madd (madd p.1 yi p.2.1) zi p.2.2 = (p.1 * yi + p.2.1) * zi + p.2.2 := by
    rw [madd_eq _ _ xi yi a0 a1 b0 b1 q2, madd_eq _ _ (xi * yi) zi f2.1 f2.2 d0 d1 q3]
  have en : nbr32_3 coords xi yi zi yi2 zi2 p.1 p.2.1 p.2.2 = nbr3 coords xi yi zi yi2 zi2 p.1 p.2.1 p.2.2 := by
    unfold nbr32_3 nbr3
    cases r0 : rd coords 0 with
    | none => rfl
    | some c0 =>
      cases r1 : rd coords 1 with
      | none => rfl
      | some c1 =>
        cases r2 : rd coords 2 with
        | none => rfl
        | some c2 =>
          simp only [Option.some_bind, Option.bind_eq_bind, Option.pure_def]
          have i0 := hc c0 (rd_mem _ _ _ r0)
          have i1 := hc c1 (rd_mem _ _ _ r1)
          have i2 := hc c2 (rd_mem _ _ _ r2)
          by_cases h : 0 ≤ p.1 + c0 ∧ p.1 + c0 < xi ∧ 0 ≤ p.2.1 + c1 ∧ p.2.1 + c1 < yi ∧ 0 ≤ p.2.2 + c2 ∧ p.2.2 + c2 < zi
          · obtain ⟨u0, v0, u1, v1, u2, v2⟩ := h
            have g2 := flat_bound (p.1 + c0) (p.2.1 + c1) xi yi2 u0 v0 u1 (by omega)
            have g3 := flat_bound _ (p.2.2 + c2) (xi * yi2) zi2 g2.1 g2.2 u2 (by omega)
            rw [wrap_pass _ _ xi m0 u0 v0, wrap_pass _ _ yi m1 u1 v1, wrap_pass _ _ zi m2 u2 v2, if_pos ⟨u0, v0, u1, v1, u2, v2⟩, if_pos ⟨u0, v0, u1, v1, u2, v2⟩, madd_eq _ _ xi yi2 u0 v0 u1 (by omega) s2, madd_eq _ _ (xi * yi2) zi2 g2.1 g2.2 u2 (by omega) s3]
          · rw [if_neg h, if_neg]
            rintro ⟨u0, v0, u1, v1, u2, v2⟩
            have w0 := (wrap_test _ _ _ a0 a1 m0 i0).1 ⟨u0, v0⟩
            have w1 := (wrap_test _ _ _ b0 b1 m1 i1).1 ⟨u1, v1⟩
            have w2 := (wrap_test _ _ _ d0 d1 m2 i2).1 ⟨u2, v2⟩
            exact h ⟨w0.1, w0.2, w1.1, w1.2, w2.1, w2.2⟩
  unfold cell32_3 cell3
  rw [ec, en]

theorem cells32_3_eq (coords : List Int) (xi yi zi xi2 yi2 zi2 : Int)
    (hc : ∀ c ∈ coords, IsInt c) (h0 : xi ≤ xi2) (h1 : yi ≤ yi2) (h2 : zi ≤ zi2)
    (hM : xi2 * yi2 * zi2 ≤ 2147483647) :
    cells32_3 coords xi yi zi yi2 zi2 = cells3 coords xi yi zi yi2 zi2 := by
  unfold cells32_3 cells3
  exact List.map_congr_left (fun p hp =>
    cell32_3_eq coords xi yi zi xi2 yi2 zi2 p hc h0 h1 h2 hM hp)

theorem cell32_4_eq (coords : List Int) (xi yi zi ti xi2 yi2 zi2 ti2 : Int) (p : Int × Int × Int × Int)
    (hc : ∀ c ∈ coords, IsInt c) (h0 : xi ≤ xi2) (h1 : yi ≤ yi2) (h2 : zi ≤ zi2) (h3 : ti ≤ ti2)
    (hM : xi2 * yi2 * zi2 * ti2 ≤ 2147483647) (hp : p ∈ pts4 xi yi zi ti) :
    cell32_4 coords xi yi zi ti yi2 zi2 ti2 p = cell4 coords xi yi zi ti yi2 zi2 ti2 p := by
  rw [mem_pts4] at hp
  obtain ⟨⟨a0, a1⟩, ⟨b0, b1⟩, ⟨d0, d1⟩, e0, e1⟩ := hp
  obtain ⟨m0, m1, m2, m3, q2, q3, q4, s2, s3, s4⟩ := range4 xi yi zi ti xi2 yi2 zi2 ti2 (by omega) (by omega) (by omega) (by omega) h0 h1 h2 h3 hM
  have f2 := flat_bound p.1 p.2.1 xi yi a0 a1 b0 b1
  have f3 := flat_bound _ p.2.2.1 (xi * yi) zi f2.1 f2.2 d0 d1
  have f4 := flat_bound _ p.2.2.2 (xi * yi * zi) ti f3.1 f3.2 e0 e1
  have ec : madd (madd (madd p.1 yi p.2.1) zi p.2.2.1) ti p.2.2.2 = ((p.1 * yi + p.2.1) * zi + p.2.2.1) * ti + p.2.2.2 := by
    rw [madd_eq _ _ xi yi a0 a1 b0 b1 q2, madd_eq _ _ (xi * yi) zi f2.1 f2.2 d0 d1 q3, madd_eq _ _ (xi * yi * zi) ti f3.1 f3.2 e0 e1 q4]
  have en : nbr32_4 coords xi yi zi ti yi2 zi2 ti2 p.1 p.2.1 p.2.2.1 p.2.2.2 = nbr4 coords xi yi zi ti yi2 zi2 ti2 p.1 p.2.1 p.2.2.1 p.2.2.2 := by
    unfold nbr32_4 nbr4
    cases r0 : rd coords 0 with
    | none => rfl
    | some c0 =>
      cases r1 : rd coords 1 with
      | none => rfl
      | some c1 =>
        cases r2 : rd coords 2 with
        | none => rfl
        | some c2 =>
          cases r3 : rd coords 3 with
          | none => rfl
          | some c3 =>
            simp only [Option.some_bind, Option.bind_eq_bind, Option.pure_def]
            have i0 := hc c0 (rd_mem _ _ _ r0)
            have i1 := hc c1 (rd_mem _ _ _ r1)
            have i2 := hc c2 (rd_mem _ _ _ r2)
            have i3 := hc c3 (rd_mem _ _ _ r3)
            by_cases h : 0 ≤ p.1 + c0 ∧ p.1 + c0 < xi ∧ 0 ≤ p.2.1 + c1 ∧ p.2.1 + c1 < yi ∧ 0 ≤ p.2.2.1 + c2 ∧ p.2.2.1 + c2 < zi ∧ 0 ≤ p.2.2.2 + c3 ∧ p.2.2.2 + c3 < ti
            · obtain ⟨u0, v0, u1, v1, u2, v2, u3, v3⟩ := h
              have g2 := flat_bound (p.1 + c0) (p.2.1 + c1) xi yi2 u0 v0 u1 (by omega)
              have g3 := flat_bound _ (p.2.2.1 + c2) (xi * yi2) zi2 g2.1 g2.2 u2 (by omega)
              have g4 := flat_bound _ (p.2.2.2 + c3) (xi * yi2 * zi2) ti2 g3.1 g3.2 u3 (by omega)
              rw [wrap_pass _ _ xi m0 u0 v0, wrap_pass _ _ yi m1 u1 v1, wrap_pass _ _ zi m2 u2 v2, wrap_pass _ _ ti m3 u3 v3, if_pos ⟨u0, v0, u1, v1, u2, v2, u3, v3⟩, if_pos ⟨u0, v0, u1, v1, u2, v2, u3, v3⟩, madd_eq _ _ xi yi2 u0 v0 u1 (by omega) s2, madd_eq _ _ (xi * yi2) zi2 g2.1 g2.2 u2 (by omega) s3, madd_eq _ _ (xi * yi2 * zi2) ti2 g3.1 g3.2 u3 (by omega) s4]
            · rw [if_neg h, if_neg]
              rintro ⟨u0, v0, u1, v1, u2, v2, u3, v3⟩
              have w0 := (wrap_test _ _ _ a0 a1 m0 i0).1 ⟨u0, v0⟩
              have w1 := (wrap_test _ _ _ b0 b1 m1 i1).1 ⟨u1, v1⟩
              have w2 := (wrap_test _ _ _ d0 d1 m2 i2).1 ⟨u2, v2⟩
              have w3 := (wrap_test _ _ _ e0 e1 m3 i3).1 ⟨u3, v3⟩
              exact h ⟨w0.1, w0.2, w1.1, w1.2, w2.1, w2.2, w3.1, w3.2⟩
  unfold cell32_4 cell4
  rw [ec, en]

theorem cells32_4_eq (coords : List Int) (xi yi zi ti xi2 yi2 zi2 ti2 : Int)
    (hc : ∀ c ∈ coords, IsInt c) (h0 : xi ≤ xi2) (h1 : yi ≤ yi2) (h2 : zi ≤ zi2) (h3 : ti ≤ ti2)
    (hM : xi2 * yi2 * zi2 * ti2 ≤ 2147483647) :
    cells32_4 coords xi yi zi ti yi2 zi2 ti2 = cells4 coords xi yi zi ti yi2 zi2 ti2 := by
  unfold cells32_4 cells4
  exact List.map_congr_left (fun p hp =>
    cell32_4_eq coords xi yi zi ti xi2 yi2 zi2 ti2 p hc h0 h1 h2 h3 hM hp)

/-! ## Refinement: each machine entry point computes the unbounded one modulo 2^32 -/

theorem makecomat1D_2T_i32_eq (input1 mask1 : List Int) (xi1 : Int)
    (input2 mask2 : List Int) (xi2 : Int) (coords : List Int)
    (levels1 levels2 : Int) (output : List Int)
    (hc : ∀ c ∈ coords, IsInt c) (h0 : xi1 ≤ xi2)
    (hM : xi2 ≤ 2147483647) (hL : levels1 * levels2 ≤ 2147483647) :
    makecomat1D_2T_i32 input1 mask1 xi1 input2 mask2 xi2 coords
        levels1 levels2 (output.map wrap) =
      (makecomat1D_2T input1 mask1 xi1 input2 mask2 xi2 coords
        levels1 levels2 output).map (List.map wrap) := by
  rw [makecomat1D_2T_i32_run, makecomat1D_2T_run,
    cells32_1_eq coords xi1 xi2 hc h0 hM]
  exact run32_wrap _ _ _ _ _ _ hL _ _

theorem makecomat2D_2T_i32_eq (input1 mask1 : List Int) (xi1 yi1 : Int)
    (input2 mask2 : List Int) (xi2 yi2 : Int) (coords : List Int)
    (levels1 levels2 : Int) (output : List Int)
    (hc : ∀ c ∈ coords, IsInt c) (h0 : xi1 ≤ xi2) (h1 : yi1 ≤ yi2)
    (hM : xi2 * yi2 ≤ 2147483647) (hL : levels1 * levels2 ≤ 2147483647) :
    makecomat2D_2T_i32 input1 mask1 xi1 yi1 input2 mask2 xi2 yi2 coords
        levels1 levels2 (output.map wrap) =
      (makecomat2D_2T input1 mask1 xi1 yi1 input2 mask2 xi2 yi2 coords
        levels1 levels2 output).map (List.map wrap) := by
  rw [makecomat2D_2T_i32_run, makecomat2D_2T_run,
    cells32_2_eq coords xi1 yi1 xi2 yi2 hc h0 h1 hM]
  exact run32_wrap _ _ _ _ _ _ hL _ _

theorem makecomat3D_2T_i32_eq (input1 mask1 : List Int) (xi1 yi1 zi1 : Int)
    (input2 mask2 : List Int) (xi2 yi2 zi2 : Int) (coords : List Int)
    (levels1 levels2 : Int) (output : List Int)
    (hc : ∀ c ∈ coords, IsInt c) (h0 : xi1 ≤ xi2) (h1 : yi1 ≤ yi2) (h2 : zi1 ≤ zi2)
    (hM : xi2 * yi2 * zi2 ≤ 2147483647) (hL : levels1 * levels2 ≤ 2147483647) :
    makecomat3D_2T_i32 input1 mask1 xi1 yi1 zi1 input2 mask2 xi2 yi2 zi2 coords
        levels1 levels2 (output.map wrap) =
      (makecomat3D_2T input1 mask1 xi1 yi1 zi1 input2 mask2 xi2 yi2 zi2 coords
        levels1 levels2 output).map (List.map wrap) := by
  rw [makecomat3D_2T_i32_run, makecomat3D_2T_run,
    cells32_3_eq coords xi1 yi1 zi1 xi2 yi2 zi2 hc h0 h1 h2 hM]
  exact run32_wrap _ _ _ _ _ _ hL _ _

theorem makecomat4D_2T_i32_eq (input1 mask1 : List Int) (xi1 yi1 zi1 ti1 : Int)
    (input2 mask2 : List Int) (xi2 yi2 zi2 ti2 : Int) (coords : List Int)
    (levels1 levels2 : Int) (output : List Int)
    (hc : ∀ c ∈ coords, IsInt c) (h0 : xi1 ≤ xi2) (h1 : yi1 ≤ yi2) (h2 : zi1 ≤ zi2) (h3 : ti1 ≤ ti2)
    (hM : xi2 * yi2 * zi2 * ti2 ≤ 2147483647) (hL : levels1 * levels2 ≤ 2147483647) :
    makecomat4D_2T_i32 input1 mask1 xi1 yi1 zi1 ti1 input2 mask2 xi2 yi2 zi2 ti2 coords
        levels1 levels2 (output.map wrap) =
      (makecomat4D_2T input1 mask1 xi1 yi1 zi1 ti1 input2 mask2 xi2 yi2 zi2 ti2 coords
        levels1 levels2 output).map (List.map wrap) := by
  rw [makecomat4D_2T_i32_run, makecomat4D_2T_run,
    cells32_4_eq coords xi1 yi1 zi1 ti1 xi2 yi2 zi2 ti2 hc h0 h1 h2 h3 hM]
  exact run32_wrap _ _ _ _ _ _ hL _ _

theorem makecomat1D_i32_eq (input mask : List Int) (xi : Int) (coords : List Int)
    (levels : Int) (output : List Int)
    (hc : ∀ c ∈ coords, IsInt c) (hM : xi ≤ 2147483647)
    (hL : levels * levels ≤ 2147483647) :
    makecomat1D_i32 input mask xi coords levels (output.map wrap) =
      (makecomat1D input mask xi coords levels output).map (List.map wrap) := by
  rw [← makecomat1D_i32_self, ← makecomat1D_self]
  exact makecomat1D_2T_i32_eq _ _ _ _ _ _ _ _ _ _ hc
    (le_refl _) hM hL

theorem makecomat2D_i32_eq (input mask : List Int) (xi yi : Int) (coords : List Int)
    (levels : Int) (output : List Int)
    (hc : ∀ c ∈ coords, IsInt c) (hM : xi * yi ≤ 2147483647)
    (hL : levels * levels ≤ 2147483647) :
    makecomat2D_i32 input mask xi yi coords levels (output.map wrap) =
      (makecomat2D input mask xi yi coords levels output).map (List.map wrap) := by
  rw [← makecomat2D_i32_self, ← makecomat2D_self]
  exact makecomat2D_2T_i32_eq _ _ _ _ _ _ _ _ _ _ _ _ hc
    (le_refl _) (le_refl _) hM hL

theorem makecomat3D_i32_eq (input mask : List Int) (xi yi zi : Int) (coords : List Int)
    (levels : Int) (output : List Int)
    (hc : ∀ c ∈ coords, IsInt c) (hM : xi * yi * zi ≤ 2147483647)
    (hL : levels * levels ≤ 2147483647) :
    makecomat3D_i32 input mask xi yi zi coords levels (output.map wrap) =
      (makecomat3D input mask xi yi zi coords levels output).map (List.map wrap) := by
  rw [← makecomat3D_i32_self, ← makecomat3D_self]
  exact makecomat3D_2T_i32_eq _ _ _ _ _ _ _ _ _ _ _ _ _ _ hc
    (le_refl _) (le_refl _) (le_refl _) hM hL

theorem makecomat4D_i32_eq (input mask : List Int) (xi yi zi ti : Int) (coords : List Int)
    (levels : Int) (output : List Int)
    (hc : ∀ c ∈ coords, IsInt c) (hM : xi * yi * zi * ti ≤ 2147483647)
    (hL : levels * levels ≤ 2147483647) :
    makecomat4D_i32 input mask xi yi zi ti coords levels (output.map wrap) =
      (makecomat4D input mask xi yi zi ti coords levels output).map (List.map wrap) := by
  rw [← makecomat4D_i32_self, ← makecomat4D_self]
  exact makecomat4D_2T_i32_eq _ _ _ _ _ _ _ _ _ _ _ _ _ _ _ _ hc
    (le_refl _) (le_refl _) (le_refl _) (le_refl _) hM hL

/-! ## A run that meets a negative centre offset leaves the buffers -/

theorem visit32_neg (input1 mask1 input2 mask2 : List Int) (levels1 levels2 : Int)
    (c : Int) (nb : Option (Option Int)) (out : List Int) (h : c < 0) :
    visit32 input1 mask1 input2 mask2 levels1 levels2 c nb out = none := by
  have e : rd mask1 c = none := by
    unfold rd
    rw [if_neg (by omega)]
  unfold visit32
  rw [e]
  rfl

theorem run32_none_of_neg (input1 mask1 input2 mask2 : List Int) (levels1 levels2 : Int)
    (cells : List (Int × Option (Option Int))) (out : List Int)
    (q : Int × Option (Option Int)) (hq : q ∈ cells) (h : q.1 < 0) :
    run32 input1 mask1 input2 mask2 levels1 levels2 cells out = none := by
  induction cells generalizing out with
  | nil => cases hq
  | cons a cells ih =>
    unfold run32
    rw [List.foldlM_cons]
    rcases List.mem_cons.1 hq with e | e
    · rw [← e, visit32_neg _ _ _ _ _ _ _ _ _ h]
      rfl
    · cases visit32 input1 mask1 input2 mask2 levels1 levels2 a.1 a.2 out with
      | none => rfl
      | some o => exact ih o e

/-! ## The recorded visits of `makecomat4D` -/

theorem traced_fold {α : Type} (l : List α) (B : α → List Int → Option (List Int))
    (c : α → Int) (out tr : List Int) :
    l.foldlM (fun (st : List Int × List Int) p =>
        (B p st.1).bind (fun o => some (o, st.2 ++ [c p]))) (out, tr) =
      (l.foldlM (fun o p => B p o) out).map (fun o => (o, tr ++ l.map c)) := by
  induction l generalizing out tr with
  | nil => simp
  | cons a l ih =>
    rw [List.foldlM_cons, List.foldlM_cons]
    cases B a out with
    | none => rfl
    | some o =>
      simp only [Option.some_bind, Option.bind_eq_bind]
      rw [ih o (tr ++ [a |> c])]
      simp

theorem makecomat4D_i32_traced_run (input mask : List Int) (xi yi zi ti : Int)
    (coords : List Int) (levels : Int) (st : List Int × List Int) :
    makecomat4D_i32_traced input mask xi yi zi ti coords levels st =
      (cells32_4 coords xi yi zi ti yi zi ti).foldlM
        (fun (st : List Int × List Int) q =>
          (visit32 input mask input mask levels levels q.1 q.2 st.1).bind
            (fun o => some (o, st.2 ++ [q.1]))) st := by
  unfold makecomat4D_i32_traced cells32_4 pts4 pts3 pts2 cell32_4
  simp only [forLoop_eq_grid1, List.foldlM_map, foldlM_product]
  congr 1
  funext st x
  congr 1
  funext st y
  congr 1
  funext st z
  congr 1
  funext st t
  unfold visit32 nbr32_4
  cases rd mask (madd (madd (madd x yi y) zi z) ti t) with
  | none => rfl
  | some m =>
    by_cases hm : m = 1
    swap
    · simp only [Option.some_bind, Option.bind_eq_bind, if_neg hm]
      rfl
    subst hm
    cases rd input (madd (madd (madd x yi y) zi z) ti t) with
    | none => rfl
    | some i =>
      cases rd coords 0 with
      | none => rfl
      | some c0 =>
        cases rd coords 1 with
        | none => rfl
        | some c1 =>
          cases rd coords 2 with
          | none => rfl
          | some c2 =>
            cases rd coords 3 with
            | none => rfl
            | some c3 =>
              simp only [Option.some_bind, Option.bind_eq_bind, Option.pure_def, if_true]
              split_ifs <;> rfl

theorem makecomat4D_i32_traced_eq (input mask : List Int) (xi yi zi ti : Int)
    (coords : List Int) (levels : Int) (output tr : List Int) :
    makecomat4D_i32_traced input mask xi yi zi ti coords levels (output, tr) =
      (makecomat4D_i32 input mask xi yi zi ti coords levels output).map
        (fun o => (o, tr ++ (pts4 xi yi zi ti).map
          (fun p => madd (madd (madd p.1 yi p.2.1) zi p.2.2.1) ti p.2.2.2))) := by
  rw [makecomat4D_i32_traced_run,
    traced_fold (cells32_4 coords xi yi zi ti yi zi ti)
      (fun q o => visit32 input mask input mask levels levels q.1 q.2 o) (fun q => q.1),
    ← makecomat4D_i32_self, makecomat4D_2T_i32_run]
  unfold run32 cells32_4
  rw [List.map_map]
  rfl

/-! ## Counters started at zero stay in the range of `int` -/

theorem map_wrap_replicate (n : Nat) :
    (List.replicate n (0 : Int)).map wrap = List.replicate n 0 := by
  rw [List.map_replicate]
  rfl

theorem tally_zero_le (input1 mask1 input2 mask2 : List Int) (levels1 levels2 : Int)
    (cells : List (Int × Option (Option Int))) (n : Nat) (hout : levels1 * levels2 ≤ n) :
    ∀ v ∈ tally input1 mask1 input2 mask2 levels1 levels2 cells (List.replicate n 0),
      v ≤ cells.length := by
  intro v hv
  obtain ⟨k, hk, rfl⟩ := List.getElem_of_mem hv
  have h1 := gd_tally input1 mask1 input2 mask2 levels1 levels2 cells (List.replicate n 0) k
    (by rw [List.length_replicate]; exact hout)
  rw [gd_replicate, zero_add] at h1
  have h2 : gd (tally input1 mask1 input2 mask2 levels1 levels2 cells (List.replicate n 0)) k
      = (tally input1 mask1 input2 mask2 levels1 levels2 cells (List.replicate n 0))[k] := by
    unfold gd rd
    simp [List.getElem?_eq_getElem hk]
  rw [← h2, h1]
  unfold hits
  exact Int.ofNat_le.2 (List.countP_le_length _)

theorem tally_zero_isInt (input1 mask1 input2 mask2 : List Int) (levels1 levels2 : Int)
    (cells : List (Int × Option (Option Int))) (n : Nat) (hout : levels1 * levels2 ≤ n)
    (hlen : (cells.length : Int) ≤ 2147483647) :
    (tally input1 mask1 input2 mask2 levels1 levels2 cells (List.replicate n 0)).map wrap =
      tally input1 mask1 input2 mask2 levels1 levels2 cells (List.replicate n 0) := by
  apply map_wrap_of_isInt
  intro v hv
  have h0 := tally_zero_nonneg input1 mask1 input2 mask2 levels1 levels2 cells n hout v hv
  have h1 := tally_zero_le input1 mask1 input2 mask2 levels1 levels2 cells n hout v hv
  exact ⟨by omega, by omega⟩

theorem grid1_length_le (xi : Int) (hM : xi ≤ 2147483647) :
    ((grid1 xi).length : Int) ≤ 2147483647 := by
  unfold grid1
  rw [List.length_map, List.length_range]
  omega

theorem pts2_length_le (xi yi : Int) (hM : xi * yi ≤ 2147483647) :
    ((pts2 xi yi).length : Int) ≤ 2147483647 := by
  by_cases h : xi ≤ 0 ∨ yi ≤ 0
  · rw [pts2_nil xi yi h]
    simp
  · have e := congrArg List.length (order2 xi yi (by omega) (by omega))
    rw [List.length_map] at e
    rw [e]
    unfold grid1
    rw [List.length_map, List.length_range]
    omega

theorem pts3_length_le (xi yi zi : Int) (hM : xi * yi * zi ≤ 2147483647) :
    ((pts3 xi yi zi).length : Int) ≤ 2147483647 := by
  by_cases h : xi ≤ 0 ∨ yi ≤ 0 ∨ zi ≤ 0
  · rw [pts3_nil xi yi zi h]
    simp
  · have e := congrArg List.length (order3 xi yi zi (by omega) (by omega) (by omega))
    rw [List.length_map] at e
    rw [e]
    unfold grid1
    rw [List.length_map, List.length_range]
    omega

theorem pts4_length_le (xi yi zi ti : Int) (hM : xi * yi * zi * ti ≤ 2147483647) :
    ((pts4 xi yi zi ti).length : Int) ≤ 2147483647 := by
  by_cases h : xi ≤ 0 ∨ yi ≤ 0 ∨ zi ≤ 0 ∨ ti ≤ 0
  · rw [pts4_nil xi yi zi ti h]
    simp
  · have e := congrArg List.length (order4 xi yi zi ti (by omega) (by omega) (by omega) (by omega))
    rw [List.length_map] at e
    rw [e]
    unfold grid1
    rw [List.length_map, List.length_range]
    omega

theorem makecomat1D_i32_zero (input mask : List Int) (xi : Int) (coords : List Int)
    (levels : Int) (n : Nat)
    (hc : ∀ c ∈ coords, IsInt c) (hM : xi ≤ 2147483647)
    (hL : levels * levels ≤ 2147483647)
    (hm : xi ≤ mask.length) (hi : xi ≤ input.length)
    (hcl : 1 ≤ coords.length) (hout : levels * levels ≤ n) :
    makecomat1D_i32 input mask xi coords levels (List.replicate n 0) =
      makecomat1D input mask xi coords levels (List.replicate n 0) := by
  have r := makecomat1D_i32_eq input mask xi coords levels (List.replicate n 0) hc hM hL
  rw [map_wrap_replicate] at r
  have ho : levels * levels ≤ ((List.replicate n (0 : Int)).length : Int) := by
    rw [List.length_replicate]
    exact hout
  rw [r, makecomat1D_tally input mask xi coords levels _ hm hi hcl ho, Option.map_some']
  congr 1
  apply tally_zero_isInt _ _ _ _ _ _ _ _ hout
  unfold cells1
  rw [List.length_map]
  exact grid1_length_le xi hM

theorem makecomat2D_i32_zero (input mask : List Int) (xi yi : Int) (coords : List Int)
    (levels : Int) (n : Nat)
    (hc : ∀ c ∈ coords, IsInt c) (hM : xi * yi ≤ 2147483647)
    (hL : levels * levels ≤ 2147483647)
    (hm : xi * yi ≤ mask.length) (hi : xi * yi ≤ input.length)
    (hcl : 2 ≤ coords.length) (hout : levels * levels ≤ n) :
    makecomat2D_i32 input mask xi yi coords levels (List.replicate n 0) =
      makecomat2D input mask xi yi coords levels (List.replicate n 0) := by
  have r := makecomat2D_i32_eq input mask xi yi coords levels (List.replicate n 0) hc hM hL
  rw [map_wrap_replicate] at r
  have ho : levels * levels ≤ ((List.replicate n (0 : Int)).length : Int) := by
    rw [List.length_replicate]
    exact hout
  rw [r, makecomat2D_tally input mask xi yi coords levels _ hm hi hcl ho, Option.map_some']
  congr 1
  apply tally_zero_isInt _ _ _ _ _ _ _ _ hout
  unfold cells2
  rw [List.length_map]
  exact pts2_length_le xi yi hM

theorem makecomat3D_i32_zero (input mask : List Int) (xi yi zi : Int) (coords : List Int)
    (levels : Int) (n : Nat)
    (hc : ∀ c ∈ coords, IsInt c) (hM : xi * yi * zi ≤ 2147483647)
    (hL : levels * levels ≤ 2147483647)
    (hm : xi * yi * zi ≤ mask.length) (hi : xi * yi * zi ≤ input.length)
    (hcl : 3 ≤ coords.length) (hout : levels * levels ≤ n) :
    makecomat3D_i32 input mask xi yi zi coords levels (List.replicate n 0) =
      makecomat3D input mask xi yi zi coords levels (List.replicate n 0) := by
  have r := makecomat3D_i32_eq input mask xi yi zi coords levels (List.replicate n 0) hc hM hL
  rw [map_wrap_replicate] at r
  have ho : levels * levels ≤ ((List.replicate n (0 : Int)).length : Int) := by
    rw [List.length_replicate]
    exact hout
  rw [r, makecomat3D_tally input mask xi yi zi coords levels _ hm hi hcl ho, Option.map_some']
  congr 1
  apply tally_zero_isInt _ _ _ _ _ _ _ _ hout
  unfold cells3
  rw [List.length_map]
  exact pts3_length_le xi yi zi hM

theorem makecomat4D_i32_zero (input mask : List Int) (xi yi zi ti : Int) (coords : List Int)
    (levels : Int) (n : Nat)
    (hc : ∀ c ∈ coords, IsInt c) (hM : xi * yi * zi * ti ≤ 2147483647)
    (hL : levels * levels ≤ 2147483647)
    (hm : xi * yi * zi * ti ≤ mask.length) (hi : xi * yi * zi * ti ≤ input.length)
    (hcl : 4 ≤ coords.length) (hout : levels * levels ≤ n) :
    makecomat4D_i32 input mask xi yi zi ti coords levels (List.replicate n 0) =
      makecomat4D input mask xi yi zi ti coords levels (List.replicate n 0) := by
  have r := makecomat4D_i32_eq input mask xi yi zi ti coords levels (List.replicate n 0) hc hM hL
  rw [map_wrap_replicate] at r
  have ho : levels * levels ≤ ((List.replicate n (0 : Int)).length : Int) := by
    rw [List.length_replicate]
    exact hout
  rw [r, makecomat4D_tally input mask xi yi zi ti coords levels _ hm hi hcl ho, Option.map_some']
  congr 1
  apply tally_zero_isInt _ _ _ _ _ _ _ _ hout
  unfold cells4
  rw [List.length_map]
  exact pts4_length_le xi yi zi ti hM

theorem makecomat1D_i32_none_of_neg (input mask : List Int) (xi : Int) (coords : List Int)
    (levels : Int) (output : List Int) (x : Int) (hp : x ∈ grid1 xi)
    (hneg : (cell32_1 coords xi x).1 < 0) :
    makecomat1D_i32 input mask xi coords levels output = none := by
  rw [← makecomat1D_i32_self, makecomat1D_2T_i32_run]
  exact run32_none_of_neg _ _ _ _ _ _ _ _ _ (List.mem_map_of_mem _ hp) hneg

theorem makecomat2D_i32_none_of_neg (input mask : List Int) (xi yi : Int) (coords : List Int)
    (levels : Int) (output : List Int) (p : Int × Int) (hp : p ∈ pts2 xi yi)
    (hneg : (cell32_2 coords xi yi yi p).1 < 0) :
    makecomat2D_i32 input mask xi yi coords levels output = none := by
  rw [← makecomat2D_i32_self, makecomat2D_2T_i32_run]
  exact run32_none_of_neg _ _ _ _ _ _ _ _ _ (List.mem_map_of_mem _ hp) hneg

theorem makecomat3D_i32_none_of_neg (input mask : List Int) (xi yi zi : Int)
    (coords : List Int) (levels : Int) (output : List Int) (p : Int × Int × Int)
    (hp : p ∈ pts3 xi yi zi) (hneg : (cell32_3 coords xi yi zi yi zi p).1 < 0) :
    makecomat3D_i32 input mask xi yi zi coords levels output = none := by
  rw [← makecomat3D_i32_self, makecomat3D_2T_i32_run]
  exact run32_none_of_neg _ _ _ _ _ _ _ _ _ (List.mem_map_of_mem _ hp) hneg

theorem makecomat4D_i32_none_of_neg (input mask : List Int) (xi yi zi ti : Int)
    (coords : List Int) (levels : Int) (output : List Int) (p : Int × Int × Int × Int)
    (hp : p ∈ pts4 xi yi zi ti) (hneg : (cell32_4 coords xi yi zi ti yi zi ti p).1 < 0) :
    makecomat4D_i32 input mask xi yi zi ti coords levels output = none := by
  rw [← makecomat4D_i32_self, makecomat4D_2T_i32_run]
  exact run32_none_of_neg _ _ _ _ _ _ _ _ _ (List.mem_map_of_mem _ hp) hneg

/-! ## Pair counts of `makecomat2D` -/

theorem isInt_pair (a b : Int) (ha : IsInt a) (hb : IsInt b) : ∀ c ∈ [a, b], IsInt c := by
  intro c hc
  simp only [List.mem_cons, List.mem_singleton, List.not_mem_nil, or_false] at hc
  rcases hc with rfl | rfl
  · exact ha
  · exact hb

/-- C1 (amended): as long as the arithmetic stays in the range of `int`, `makecomat2D` counts
pairs.  For offset components that are `int` values, a grid of at most 2147483647 cells
(`xi * yi`) covered by `input` and `mask`, `L * L` at most 2147483647 and a zeroed buffer of
`L * L` cells, the machine embedding returns a buffer whose cell `i * L + j` (for `i, j` in
`[0, L)`) holds the number of coordinates `(x, y)` of the grid with mask 1 at `(x, y)`,
neighbour `(x + dx, y + dy)` inside the grid, mask 1 at the neighbour, label `i` at `(x, y)` and
label `j` at the neighbour. -/
theorem makecomat2D_i32_counts_pairs (input mask : List Int) (xi yi dx dy L : Int)
    (hm : xi * yi ≤ mask.length) (hin : xi * yi ≤ input.length)
    (hdx : IsInt dx) (hdy : IsInt dy)
    (hM : xi * yi ≤ 2147483647) (hL : L * L ≤ 2147483647) :
    ∃ out, makecomat2D_i32 input mask xi yi [dx, dy] L (List.replicate (L * L).toNat 0) =
        some out ∧
      out.length = (L * L).toNat ∧
      ∀ i j : Int, 0 ≤ i → i < L → 0 ≤ j → j < L →
        rd out (i * L + j) = some (((Finset.Ico 0 xi ×ˢ Finset.Ico 0 yi).filter
          (fun p : Int × Int =>
            rd mask (p.1 * yi + p.2) = some 1 ∧
            (0 ≤ p.1 + dx ∧ p.1 + dx < xi ∧ 0 ≤ p.2 + dy ∧ p.2 + dy < yi) ∧
            rd mask ((p.1 + dx) * yi + (p.2 + dy)) = some 1 ∧
            rd input (p.1 * yi + p.2) = some i ∧
            rd input ((p.1 + dx) * yi + (p.2 + dy)) = some j)).card : Int) := by
  have hout : L * L ≤ ((L * L).toNat : Int) := by
    have := mul_self_nonneg L
    omega
  rw [makecomat2D_i32_zero input mask xi yi [dx, dy] L _ (isInt_pair dx dy hdx hdy) hM hL hm hin
    (by simp) hout]
  exact unbounded_counts_pairs_2D input mask xi yi dx dy L hm hin

theorem makecomat2D_i32_counts_pairs_witness :
    ∃ out, makecomat2D_i32 [0, 1, 1, 0] [1, 1, 1, 1] 2 2 [0, 1] 2
        (List.replicate ((2 : Int) * 2).toNat 0) = some out ∧
      out.length = ((2 : Int) * 2).toNat ∧
      ∀ i j : Int, 0 ≤ i → i < 2 → 0 ≤ j → j < 2 →
        rd out (i * 2 + j) = some (((Finset.Ico 0 2 ×ˢ Finset.Ico 0 2).filter
          (fun p : Int × Int =>
            rd [1, 1, 1, 1] (p.1 * 2 + p.2) = some 1 ∧
            (0 ≤ p.1 + 0 ∧ p.1 + 0 < 2 ∧ 0 ≤ p.2 + 1 ∧ p.2 + 1 < 2) ∧
            rd [1, 1, 1, 1] ((p.1 + 0) * 2 + (p.2 + 1)) = some 1 ∧
            rd [0, 1, 1, 0] (p.1 * 2 + p.2) = some i ∧
            rd [0, 1, 1, 0] ((p.1 + 0) * 2 + (p.2 + 1)) = some j)).card : Int) :=
  makecomat2D_i32_counts_pairs [0, 1, 1, 0] [1, 1, 1, 1] 2 2 0 1 2 (by decide) (by decide)
    (by decide) (by decide) (by decide) (by decide)

/-- C1 (counterexample): outside the range of `int` the pair is not counted.  A 1 x 1 grid with
label 32768, mask 1, offset `(0, 0)` and `L = 65536` has one pair for the cell
`(32768, 32768)`, but the index `32768 * 65536 + 32768` computed in `int` is -2147450880 and
the increment leaves the zeroed buffer of `L * L = 4294967296` cells.  Likewise on a
65536 x 65536 grid the centre offset `32768 * 65536` computed in `int` is negative and the
read of `mask` leaves the buffer. -/
theorem makecomat2D_i32_index_leaves_buffer :
    madd 32768 65536 32768 = -2147450880 ∧
      makecomat2D_i32 [32768] [1] 1 1 [0, 0] 65536 (List.replicate 4294967296 0) = none ∧
      madd 32768 65536 0 = -2147483648 ∧
      makecomat2D_i32 (List.replicate 4294967296 0) (List.replicate 4294967296 1) 65536 65536
        [0, 0] 1 [0] = none :=
  ⟨by decide, by decide, by decide,
    makecomat2D_i32_none_of_neg _ _ 65536 65536 [0, 0] 1 [0] (32768, 0)
      ((mem_pts2 65536 65536 (32768, 0)).2 (by decide)) (by decide)⟩

/-! ## The zero-offset diagonal -/

theorem isInt_zeros (n : Nat) : ∀ c ∈ List.replicate n (0 : Int), IsInt c := by
  intro c hc
  rw [List.eq_of_mem_replicate hc]
  exact ⟨by decide, by decide⟩

theorem le_sq_toNat (L : Int) : L * L ≤ ((L * L).toNat : Int) := by
  have := mul_self_nonneg L
  omega

/-- C5 (as the code behaves): the zero-offset diagonal property holds as long as the arithmetic
stays in the range of `int`.  For each single-image entry point, on buffers covering a grid of
at most 2147483647 cells, `L * L` at most 2147483647, an all-zero offset and a zeroed buffer
of `L * L` cells, the machine embedding returns a buffer whose off-diagonal cells `i * L + j`
(`i ≠ j`) are 0 and whose diagonal cell `i * L + i` is the number of coordinates with mask
value 1 and label `i`. -/
theorem zero_offset_diagonal_i32 :
    (∀ (input mask : List Int) (xi L : Int),
      xi ≤ mask.length → xi ≤ input.length →
      xi ≤ 2147483647 → L * L ≤ 2147483647 →
      ∃ out, makecomat1D_i32 input mask xi [0] L
          (List.replicate (L * L).toNat 0) = some out ∧
        (∀ i j : Int, 0 ≤ i → i < L → 0 ≤ j → j < L → i ≠ j →
          rd out (i * L + j) = some 0) ∧
        (∀ i : Int, 0 ≤ i → i < L →
          rd out (i * L + i) =
            some (((Finset.Ico 0 xi).filter
              (fun x : Int =>
                rd mask (x) = some 1 ∧
                rd input (x) = some i)).card : Int))) ∧
    (∀ (input mask : List Int) (xi yi L : Int),
      xi * yi ≤ mask.length → xi * yi ≤ input.length →
      xi * yi ≤ 2147483647 → L * L ≤ 2147483647 →
      ∃ out, makecomat2D_i32 input mask xi yi [0, 0] L
          (List.replicate (L * L).toNat 0) = some out ∧
        (∀ i j : Int, 0 ≤ i → i < L → 0 ≤ j → j < L → i ≠ j →
          rd out (i * L + j) = some 0) ∧
        (∀ i : Int, 0 ≤ i → i < L →
          rd out (i * L + i) =
            some (((Finset.Ico 0 xi ×ˢ Finset.Ico 0 yi).filter
              (fun p : Int × Int =>
                rd mask (p.1 * yi + p.2) = some 1 ∧
                rd input (p.1 * yi + p.2) = some i)).card : Int))) ∧
    (∀ (input mask : List Int) (xi yi zi L : Int),
      xi * yi * zi ≤ mask.length → xi * yi * zi ≤ input.length →
      xi * yi * zi ≤ 2147483647 → L * L ≤ 2147483647 →
      ∃ out, makecomat3D_i32 input mask xi yi zi [0, 0, 0] L
          (List.replicate (L * L).toNat 0) = some out ∧
        (∀ i j : Int, 0 ≤ i → i < L → 0 ≤ j → j < L → i ≠ j →
          rd out (i * L + j) = some 0) ∧
        (∀ i : Int, 0 ≤ i → i < L →
          rd out (i * L + i) =
            some (((Finset.Ico 0 xi ×ˢ Finset.Ico 0 yi ×ˢ Finset.Ico 0 zi).filter
              (fun p : Int × Int × Int =>
                rd mask ((p.1 * yi + p.2.1) * zi + p.2.2) = some 1 ∧
                rd input ((p.1 * yi + p.2.1) * zi + p.2.2) = some i)).card : Int))) ∧
    (∀ (input mask : List Int) (xi yi zi ti L : Int),
      xi * yi * zi * ti ≤ mask.length → xi * yi * zi * ti ≤ input.length →
      xi * yi * zi * ti ≤ 2147483647 → L * L ≤ 2147483647 →
      ∃ out, makecomat4D_i32 input mask xi yi zi ti [0, 0, 0, 0] L
          (List.replicate (L * L).toNat 0) = some out ∧
        (∀ i j : Int, 0 ≤ i → i < L → 0 ≤ j → j < L → i ≠ j →
          rd out (i * L + j) = some 0) ∧
        (∀ i : Int, 0 ≤ i → i < L →
          rd out (i * L + i) =
            some (((Finset.Ico 0 xi ×ˢ Finset.Ico 0 yi ×ˢ Finset.Ico 0 zi ×ˢ Finset.Ico 0 ti).filter
              (fun p : Int × Int × Int × Int =>
                rd mask (((p.1 * yi + p.2.1) * zi + p.2.2.1) * ti + p.2.2.2) = some 1 ∧
                rd input (((p.1 * yi + p.2.1) * zi + p.2.2.1) * ti + p.2.2.2) = some i)).card : Int))) := by
  refine ⟨?_, ?_, ?_, ?_⟩
  · intro input mask xi L hm hi hM hL
    rw [makecomat1D_i32_zero input mask xi [0] L _ (isInt_zeros 1) hM hL hm hi
      (by simp) (le_sq_toNat L)]
    exact unbounded_zero_offset_diagonal.1 input mask xi L hm hi
  · intro input mask xi yi L hm hi hM hL
    rw [makecomat2D_i32_zero input mask xi yi [0, 0] L _ (isInt_zeros 2) hM hL hm hi
      (by simp) (le_sq_toNat L)]
    exact unbounded_zero_offset_diagonal.2.1 input mask xi yi L hm hi
  · intro input mask xi yi zi L hm hi hM hL
    rw [makecomat3D_i32_zero input mask xi yi zi [0, 0, 0] L _ (isInt_zeros 3) hM hL hm hi
      (by simp) (le_sq_toNat L)]
    exact unbounded_zero_offset_diagonal.2.2.1 input mask xi yi zi L hm hi
  · intro input mask xi yi zi ti L hm hi hM hL
    rw [makecomat4D_i32_zero input mask xi yi zi ti [0, 0, 0, 0] L _ (isInt_zeros 4) hM hL hm hi
      (by simp) (le_sq_toNat L)]
    exact unbounded_zero_offset_diagonal.2.2.2 input mask xi yi zi ti L hm hi

theorem zero_offset_diagonal_i32_witness :
    ∃ out, makecomat2D_i32 [0, 1, 1, 0] [1, 1, 0, 1] 2 2 [0, 0] 2
        (List.replicate ((2 : Int) * 2).toNat 0) = some out ∧
      (∀ i j : Int, 0 ≤ i → i < 2 → 0 ≤ j → j < 2 → i ≠ j →
        rd out (i * 2 + j) = some 0) ∧
      (∀ i : Int, 0 ≤ i → i < 2 →
        rd out (i * 2 + i) =
          some (((Finset.Ico 0 2 ×ˢ Finset.Ico 0 2).filter
            (fun p : Int × Int =>
              rd [1, 1, 0, 1] (p.1 * 2 + p.2) = some 1 ∧
              rd [0, 1, 1, 0] (p.1 * 2 + p.2) = some i)).card : Int)) :=
  zero_offset_diagonal_i32.2.1 [0, 1, 1, 0] [1, 1, 0, 1] 2 2 2 (by decide) (by decide)
    (by decide) (by decide)

/-- C5 (counterexample): with one cell of label 32768, mask 1, a zero offset and `L = 65536`
the diagonal index `32768 * 65536 + 32768` computed in `int` is -2147450880: the increment
leaves the zeroed buffer of `L * L = 4294967296` cells and the diagonal cell is not set.
Likewise on a 4096 x 1024 x 1024 grid the centre offset of `(2048, 0, 0)` computed in `int` is
negative and the read of `mask` leaves the buffer. -/
theorem zero_offset_index_wraps :
    makecomat1D_i32 [32768] [1] 1 [0] 65536 (List.replicate 4294967296 0) = none ∧
      madd (madd 2048 1024 0) 1024 0 = -2147483648 ∧
      makecomat3D_i32 (List.replicate 4294967296 0) (List.replicate 4294967296 1)
        4096 1024 1024 [0, 0, 0] 1 [0] = none :=
  ⟨by decide, by decide,
    makecomat3D_i32_none_of_neg _ _ 4096 1024 1024 [0, 0, 0] 1 [0] (2048, 0, 0)
      ((mem_pts3 4096 1024 1024 (2048, 0, 0)).2 (by decide)) (by decide)⟩

/-! ## The machine fold adds modulo 2^32 to the initial buffer -/

/-- C12 (as the code behaves): the single-image entry points stay inside their buffers as long
as the sizes fit in an `int`.  With `input` and `mask` of length the product of the extents,
`coords` of length the rank, `output` of length `levels * levels`, both lengths at most
2147483647 and buffers holding `int` values, each of the machine embeddings of `makecomat1D`
.. `makecomat4D` returns a buffer of the length of `output`, for every offset and every label
content: an access outside a buffer (a read of `input`, `mask` or `coords`, or the increment
of an `output` cell) makes the call return `none`, so no index used by the call leaves its
buffer; `output` is the only buffer the call returns changed. -/
theorem single_image_buffer_safety_i32 :
    (∀ (input mask : List Int) (xi : Int) (coords : List Int) (L : Int)
        (output : List Int),
      (input.length : Int) = xi → (mask.length : Int) = xi →
      coords.length = 1 → (output.length : Int) = L * L →
      (∀ c ∈ coords, IsInt c) → (∀ v ∈ output, IsInt v) →
      xi ≤ 2147483647 → L * L ≤ 2147483647 →
      ∃ out, makecomat1D_i32 input mask xi coords L output = some out ∧
        out.length = output.length) ∧
    (∀ (input mask : List Int) (xi yi : Int) (coords : List Int) (L : Int)
        (output : List Int),
      (input.length : Int) = xi * yi → (mask.length : Int) = xi * yi →
      coords.length = 2 → (output.length : Int) = L * L →
      (∀ c ∈ coords, IsInt c) → (∀ v ∈ output, IsInt v) →
      xi * yi ≤ 2147483647 → L * L ≤ 2147483647 →
      ∃ out, makecomat2D_i32 input mask xi yi coords L output = some out ∧
        out.length = output.length) ∧
    (∀ (input mask : List Int) (xi yi zi : Int) (coords : List Int) (L : Int)
        (output : List Int),
      (input.length : Int) = xi * yi * zi → (mask.length : Int) = xi * yi * zi →
      coords.length = 3 → (output.length : Int) = L * L →
      (∀ c ∈ coords, IsInt c) → (∀ v ∈ output, IsInt v) →
      xi * yi * zi ≤ 2147483647 → L * L ≤ 2147483647 →
      ∃ out, makecomat3D_i32 input mask xi yi zi coords L output = some out ∧
        out.length = output.length) ∧
    (∀ (input mask : List Int) (xi yi zi ti : Int) (coords : List Int) (L : Int)
        (output : List Int),
      (input.length : Int) = xi * yi * zi * ti → (mask.length : Int) = xi * yi * zi * ti →
      coords.length = 4 → (output.length : Int) = L * L →
      (∀ c ∈ coords, IsInt c) → (∀ v ∈ output, IsInt v) →
      xi * yi * zi * ti ≤ 2147483647 → L * L ≤ 2147483647 →
      ∃ out, makecomat4D_i32 input mask xi yi zi ti coords L output = some out ∧
        out.length = output.length) := by
  refine ⟨?_, ?_, ?_, ?_⟩
  · intro input mask xi coords L output hi hm hcl ho hc hv hM hL
    have r := makecomat1D_i32_eq input mask xi coords L output hc hM hL
    rw [map_wrap_of_isInt output hv] at r
    obtain ⟨out, h1, h2⟩ := unbounded_single_image_returns.1 input mask xi coords L
      output hi hm hcl ho
    rw [r, h1]
    exact ⟨_, rfl, by rw [List.length_map]; exact h2⟩
  · intro input mask xi yi coords L output hi hm hcl ho hc hv hM hL
    have r := makecomat2D_i32_eq input mask xi yi coords L output hc hM hL
    rw [map_wrap_of_isInt output hv] at r
    obtain ⟨out, h1, h2⟩ := unbounded_single_image_returns.2.1 input mask xi yi coords L
      output hi hm hcl ho
    rw [r, h1]
    exact ⟨_, rfl, by rw [List.length_map]; exact h2⟩
  · intro input mask xi yi zi coords L output hi hm hcl ho hc hv hM hL
    have r := makecomat3D_i32_eq input mask xi yi zi coords L output hc hM hL
    rw [map_wrap_of_isInt output hv] at r
    obtain ⟨out, h1, h2⟩ := unbounded_single_image_returns.2.2.1 input mask xi yi zi coords L
      output hi hm hcl ho
    rw [r, h1]
    exact ⟨_, rfl, by rw [List.length_map]; exact h2⟩
  · intro input mask xi yi zi ti coords L output hi hm hcl ho hc hv hM hL
    have r := makecomat4D_i32_eq input mask xi yi zi ti coords L output hc hM hL
    rw [map_wrap_of_isInt output hv] at r
    obtain ⟨out, h1, h2⟩ := unbounded_single_image_returns.2.2.2 input mask xi yi zi ti coords L
      output hi hm hcl ho
    rw [r, h1]
    exact ⟨_, rfl, by rw [List.length_map]; exact h2⟩

theorem single_image_buffer_safety_i32_witness :
    ∃ out, makecomat2D_i32 [0, 1, -3, 7] [1, 1, 1, 1] 2 2 [0, 1] 2 [0, 0, 0, 0] = some out ∧
      out.length = [(0 : Int), 0, 0, 0].length ∧ out = [0, 1, 0, 0] := by
  obtain ⟨out, h1, h2⟩ :=
    single_image_buffer_safety_i32.2.1 [0, 1, -3, 7] [1, 1, 1, 1] 2 2 [0, 1] 2 [0, 0, 0, 0]
      (by decide) (by decide) (by decide) (by decide) (by decide) (by decide) (by decide)
      (by decide)
  exact ⟨out, h1, h2, Option.some.inj (h1.symm.trans (by decide))⟩

/-- C12 (counterexample): with `levels = 65536`, a 1 x 1 x 1 x 1 grid of label 32768, mask 1 and
a zero offset, buffers of exactly the stated lengths, the output index computed in `int` is
-2147450880, outside `[0, levels * levels)`: the increment leaves `output`.  Likewise on a
65536 x 65536 x 1 x 1 grid the centre offset of `(32768, 0, 0, 0)` computed in `int` is
negative and the read of `mask` leaves the buffer. -/
theorem single_image_index_leaves_output :
    makecomat4D_i32 [32768] [1] 1 1 1 1 [0, 0, 0, 0] 65536 (List.replicate 4294967296 0) =
        none ∧
      madd (madd (madd 32768 65536 0) 1 0) 1 0 = -2147483648 ∧
      makecomat4D_i32 (List.replicate 4294967296 0) (List.replicate 4294967296 1)
        65536 65536 1 1 [0, 0, 0, 0] 1 [0] = none :=
  ⟨by decide, by decide,
    makecomat4D_i32_none_of_neg _ _ 65536 65536 1 1 [0, 0, 0, 0] 1 [0] (32768, 0, 0, 0)
      ((mem_pts4 65536 65536 1 1 (32768, 0, 0, 0)).2 (by decide)) (by decide)⟩

/-! ## Transposition under offset negation -/

/-- C17 (as the code behaves): negating the offset transposes the histogram as long as the
arithmetic stays in the range of `int`.  For each single-image entry point, on buffers
covering a grid of at most 2147483647 cells, `L * L` at most 2147483647, an offset `d` whose
components and their negations are `int` values and zeroed outputs of `L * L` cells, the
buffer `H` returned by the machine embedding for `d` and the buffer `Hn` returned for `-d`
satisfy `Hn[j * L + i] = H[i * L + j]` for all `i, j` in `[0, L)`. -/
theorem transpose_under_negation_i32 :
    (∀ (input mask : List Int) (xi : Int) (dx : Int) (L : Int),
      xi ≤ mask.length → xi ≤ input.length →
      IsInt dx → IsInt (-dx) →
      xi ≤ 2147483647 → L * L ≤ 2147483647 →
      ∃ H Hn : List Int,
        makecomat1D_i32 input mask xi [dx] L
            (List.replicate (L * L).toNat 0) = some H ∧
        makecomat1D_i32 input mask xi [-dx] L
            (List.replicate (L * L).toNat 0) = some Hn ∧
        ∀ i j : Int, 0 ≤ i → i < L → 0 ≤ j → j < L →
          ∃ v : Int, rd H (i * L + j) = some v ∧ rd Hn (j * L + i) = some v) ∧
    (∀ (input mask : List Int) (xi yi : Int) (dx dy : Int) (L : Int),
      xi * yi ≤ mask.length → xi * yi ≤ input.length →
      IsInt dx → IsInt (-dx) →
      IsInt dy → IsInt (-dy) →
      xi * yi ≤ 2147483647 → L * L ≤ 2147483647 →
      ∃ H Hn : List Int,
        makecomat2D_i32 input mask xi yi [dx, dy] L
            (List.replicate (L * L).toNat 0) = some H ∧
        makecomat2D_i32 input mask xi yi [-dx, -dy] L
            (List.replicate (L * L).toNat 0) = some Hn ∧
        ∀ i j : Int, 0 ≤ i → i < L → 0 ≤ j → j < L →
          ∃ v : Int, rd H (i * L + j) = some v ∧ rd Hn (j * L + i) = some v) ∧
    (∀ (input mask : List Int) (xi yi zi : Int) (dx dy dz : Int) (L : Int),
      xi * yi * zi ≤ mask.length → xi * yi * zi ≤ input.length →
      IsInt dx → IsInt (-dx) →
      IsInt dy → IsInt (-dy) →
      IsInt dz → IsInt (-dz) →
      xi * yi * zi ≤ 2147483647 → L * L ≤ 2147483647 →
      ∃ H Hn : List Int,
        makecomat3D_i32 input mask xi yi zi [dx, dy, dz] L
            (List.replicate (L * L).toNat 0) = some H ∧
        makecomat3D_i32 input mask xi yi zi [-dx, -dy, -dz] L
            (List.replicate (L * L).toNat 0) = some Hn ∧
        ∀ i j : Int, 0 ≤ i → i < L → 0 ≤ j → j < L →
          ∃ v : Int, rd H (i * L + j) = some v ∧ rd Hn (j * L + i) = some v) ∧
    (∀ (input mask : List Int) (xi yi zi ti : Int) (dx dy dz dt : Int) (L : Int),
      xi * yi * zi * ti ≤ mask.length → xi * yi * zi * ti ≤ input.length →
      IsInt dx → IsInt (-dx) →
      IsInt dy → IsInt (-dy) →
      IsInt dz → IsInt (-dz) →
      IsInt dt → IsInt (-dt) →
      xi * yi * zi * ti ≤ 2147483647 → L * L ≤ 2147483647 →
      ∃ H Hn : List Int,
        makecomat4D_i32 input mask xi yi zi ti [dx, dy, dz, dt] L
            (List.replicate (L * L).toNat 0) = some H ∧
        makecomat4D_i32 input mask xi yi zi ti [-dx, -dy, -dz, -dt] L
            (List.replicate (L * L).toNat 0) = some Hn ∧
        ∀ i j : Int, 0 ≤ i → i < L → 0 ≤ j → j < L →
          ∃ v : Int, rd H (i * L + j) = some v ∧ rd Hn (j * L + i) = some v) := by
  refine ⟨?_, ?_, ?_, ?_⟩
  · intro input mask xi dx L hm hi p0 n0 hM hL
    have cp : ∀ c ∈ [dx], IsInt c := by
      intro c hc
      simp only [List.mem_cons, List.mem_singleton, List.not_mem_nil, or_false] at hc
      rcases hc with rfl
      · exact p0
    have cn : ∀ c ∈ [-dx], IsInt c := by
      intro c hc
      simp only [List.mem_cons, List.mem_singleton, List.not_mem_nil, or_false] at hc
      rcases hc with rfl
      · exact n0
    rw [makecomat1D_i32_zero input mask xi _ L _ cp hM hL hm hi (by simp) (le_sq_toNat L),
      makecomat1D_i32_zero input mask xi _ L _ cn hM hL hm hi (by simp) (le_sq_toNat L)]
    exact unbounded_transpose.1 input mask xi dx L hm hi
  · intro input mask xi yi dx dy L hm hi p0 n0 p1 n1 hM hL
    have cp : ∀ c ∈ [dx, dy], IsInt c := by
      intro c hc
      simp only [List.mem_cons, List.mem_singleton, List.not_mem_nil, or_false] at hc
      rcases hc with rfl | rfl
      · exact p0
      · exact p1
    have cn : ∀ c ∈ [-dx, -dy], IsInt c := by
      intro c hc
      simp only [List.mem_cons, List.mem_singleton, List.not_mem_nil, or_false] at hc
      rcases hc with rfl | rfl
      · exact n0
      · exact n1
    rw [makecomat2D_i32_zero input mask xi yi _ L _ cp hM hL hm hi (by simp) (le_sq_toNat L),
      makecomat2D_i32_zero input mask xi yi _ L _ cn hM hL hm hi (by simp) (le_sq_toNat L)]
    exact unbounded_transpose.2.1 input mask xi yi dx dy L hm hi
  · intro input mask xi yi zi dx dy dz L hm hi p0 n0 p1 n1 p2 n2 hM hL
    have cp : ∀ c ∈ [dx, dy, dz], IsInt c := by
      intro c hc
      simp only [List.mem_cons, List.mem_singleton, List.not_mem_nil, or_false] at hc
      rcases hc with rfl | rfl | rfl
      · exact p0
      · exact p1
      · exact p2
    have cn : ∀ c ∈ [-dx, -dy, -dz], IsInt c := by
      intro c hc
      simp only [List.mem_cons, List.mem_singleton, List.not_mem_nil, or_false] at hc
      rcases hc with rfl | rfl | rfl
      · exact n0
      · exact n1
      · exact n2
    rw [makecomat3D_i32_zero input mask xi yi zi _ L _ cp hM hL hm hi (by simp) (le_sq_toNat L),
      makecomat3D_i32_zero input mask xi yi zi _ L _ cn hM hL hm hi (by simp) (le_sq_toNat L)]
    exact unbounded_transpose.2.2.1 input mask xi yi zi dx dy dz L hm hi
  · intro input mask xi yi zi ti dx dy dz dt L hm hi p0 n0 p1 n1 p2 n2 p3 n3 hM hL
    have cp : ∀ c ∈ [dx, dy, dz, dt], IsInt c := by
      intro c hc
      simp only [List.mem_cons, List.mem_singleton, List.not_mem_nil, or_false] at hc
      rcases hc with rfl | rfl | rfl | rfl
      · exact p0
      · exact p1
      · exact p2
      · exact p3
    have cn : ∀ c ∈ [-dx, -dy, -dz, -dt], IsInt c := by
      intro c hc
      simp only [List.mem_cons, List.mem_singleton, List.not_mem_nil, or_false] at hc
      rcases hc with rfl | rfl | rfl | rfl
      · exact n0
      · exact n1
      · exact n2
      · exact n3
    rw [makecomat4D_i32_zero input mask xi yi zi ti _ L _ cp hM hL hm hi (by simp) (le_sq_toNat L),
      makecomat4D_i32_zero input mask xi yi zi ti _ L _ cn hM hL hm hi (by simp) (le_sq_toNat L)]
    exact unbounded_transpose.2.2.2 input mask xi yi zi ti dx dy dz dt L hm hi

theorem transpose_under_negation_i32_witness :
    ∃ H Hn : List Int,
      makecomat2D_i32 [0, 1, 2, 0] [1, 1, 1, 1] 2 2 [0, 1] 3
          (List.replicate ((3 : Int) * 3).toNat 0) = some H ∧
      makecomat2D_i32 [0, 1, 2, 0] [1, 1, 1, 1] 2 2 [-0, -1] 3
          (List.replicate ((3 : Int) * 3).toNat 0) = some Hn ∧
      H = [0, 1, 0, 0, 0, 0, 1, 0, 0] ∧ Hn = [0, 0, 1, 1, 0, 0, 0, 0, 0] ∧
      ∀ i j : Int, 0 ≤ i → i < 3 → 0 ≤ j → j < 3 →
        ∃ v : Int, rd H (i * 3 + j) = some v ∧ rd Hn (j * 3 + i) = some v := by
  obtain ⟨H, Hn, h1, h2, h3⟩ :=
    transpose_under_negation_i32.2.1 [0, 1, 2, 0] [1, 1, 1, 1] 2 2 0 1 3 (by decide)
      (by decide) (by decide) (by decide) (by decide) (by decide) (by decide) (by decide)
  exact ⟨H, Hn, h1, h2, Option.some.inj (h1.symm.trans (by decide)),
    Option.some.inj (h2.symm.trans (by decide)), h3⟩

/-- C17 (counterexample): on the grid `[32768, 0]` with `L = 65536` the offset `-1` counts the
pair of labels `(0, 32768)` at index `0 * 65536 + 32768`, but for the offset `1` the index
`32768 * 65536 + 0` of the transposed cell computed in `int` is -2147483648 and the increment
leaves the zeroed buffer of `L * L = 4294967296` cells: no transposed histogram is
produced.  Likewise on a 1024 x 2048 x 2048 grid the centre offset of `(512, 0, 0)` computed
in `int` is negative and the read of `mask` leaves the buffer. -/
theorem transpose_index_wraps :
    madd 0 65536 32768 = 32768 ∧ madd 32768 65536 0 = -2147483648 ∧
      makecomat1D_i32 [32768, 0] [1, 1] 2 [1] 65536 (List.replicate 4294967296 0) = none ∧
      makecomat3D_i32 (List.replicate 4294967296 0) (List.replicate 4294967296 1)
        1024 2048 2048 [1, 0, 0] 1 [0] = none :=
  ⟨by decide, by decide, by decide,
    makecomat3D_i32_none_of_neg _ _ 1024 2048 2048 [1, 0, 0] 1 [0] (512, 0, 0)
      ((mem_pts3 1024 2048 2048 (512, 0, 0)).2 (by decide)) (by decide)⟩

/-! ## The grid indexer of `makecomat4D` -/

theorem centre4_eq (xi yi zi ti : Int) (hM : xi * yi * zi * ti ≤ 2147483647)
    (p : Int × Int × Int × Int) (hp : p ∈ pts4 xi yi zi ti) :
    madd (madd (madd p.1 yi p.2.1) zi p.2.2.1) ti p.2.2.2 =
      ((p.1 * yi + p.2.1) * zi + p.2.2.1) * ti + p.2.2.2 :=
  congrArg Prod.fst (cell32_4_eq [] xi yi zi ti xi yi zi ti p (by simp) (le_refl _) (le_refl _)
    (le_refl _) (le_refl _) hM hp)

theorem trace4_eq (xi yi zi ti : Int) (hx : 0 ≤ xi) (hy : 0 ≤ yi) (hz : 0 ≤ zi) (ht : 0 ≤ ti)
    (hM : xi * yi * zi * ti ≤ 2147483647) :
    (pts4 xi yi zi ti).map (fun p => madd (madd (madd p.1 yi p.2.1) zi p.2.2.1) ti p.2.2.2) =
      (List.range (xi * yi * zi * ti).toNat).map (fun (k : Nat) => (k : Int)) := by
  rw [List.map_congr_left (fun p hp => centre4_eq xi yi zi ti hM p hp),
    order4 xi yi zi ti hx hy hz ht]
  rfl

/-- C19 (as the code behaves): the grid indexer of `makecomat4D` is row-major and one-to-one
as long as the grid has at most 2147483647 cells.  For non-negative (in particular positive)
extents with `xi * yi * zi * ti` at most 2147483647, the offset that the code computes in
`int` for the centre `(x, y, z, t)` of the grid equals `((x * yi + y) * zi + z) * ti + t` and
lies in `[0, xi * yi * zi * ti)`; distinct coordinates of the grid get distinct offsets; every
offset of that range is reached; incrementing `t` by 1 inside the grid increments the offset
by 1; and the offsets of the centres visited by the loop nest, recorded in the order of
execution, are `0, 1, 2, ..`: the recorded run returns what the call returns together with
this list, and on well-formed buffers both return. -/
theorem grid_indexer_row_major_i32 (xi yi zi ti : Int) (hx : 0 ≤ xi) (hy : 0 ≤ yi)
    (hz : 0 ≤ zi) (ht : 0 ≤ ti) (hM : xi * yi * zi * ti ≤ 2147483647) :
    (∀ x y z t : Int, 0 ≤ x → x < xi → 0 ≤ y → y < yi → 0 ≤ z → z < zi → 0 ≤ t → t < ti →
      madd (madd (madd x yi y) zi z) ti t = ((x * yi + y) * zi + z) * ti + t ∧
        0 ≤ madd (madd (madd x yi y) zi z) ti t ∧
        madd (madd (madd x yi y) zi z) ti t < xi * yi * zi * ti) ∧
    (∀ x y z t x2 y2 z2 t2 : Int,
      0 ≤ x → x < xi → 0 ≤ y → y < yi → 0 ≤ z → z < zi → 0 ≤ t → t < ti →
      0 ≤ x2 → x2 < xi → 0 ≤ y2 → y2 < yi → 0 ≤ z2 → z2 < zi → 0 ≤ t2 → t2 < ti →
      madd (madd (madd x yi y) zi z) ti t = madd (madd (madd x2 yi y2) zi z2) ti t2 →
      x = x2 ∧ y = y2 ∧ z = z2 ∧ t = t2) ∧
    (∀ k : Int, 0 ≤ k → k < xi * yi * zi * ti →
      ∃ x y z t : Int, (0 ≤ x ∧ x < xi) ∧ (0 ≤ y ∧ y < yi) ∧ (0 ≤ z ∧ z < zi) ∧
        (0 ≤ t ∧ t < ti) ∧ madd (madd (madd x yi y) zi z) ti t = k) ∧
    (∀ x y z t : Int, 0 ≤ x → x < xi → 0 ≤ y → y < yi → 0 ≤ z → z < zi → 0 ≤ t →
      t + 1 < ti →
      madd (madd (madd x yi y) zi z) ti (t + 1) = madd (madd (madd x yi y) zi z) ti t + 1) ∧
    (∀ (input mask coords : List Int) (L : Int) (output visited : List Int),
      makecomat4D_i32_traced input mask xi yi zi ti coords L (output, visited) =
        (makecomat4D_i32 input mask xi yi zi ti coords L output).map
          (fun out => (out, visited ++
            (List.range (xi * yi * zi * ti).toNat).map (fun (k : Nat) => (k : Int))))) ∧
    (∀ (input mask coords : List Int) (L : Int) (output : List Int),
      xi * yi * zi * ti ≤ mask.length → xi * yi * zi * ti ≤ input.length →
      4 ≤ coords.length → L * L ≤ output.length →
      (∀ c ∈ coords, IsInt c) → (∀ v ∈ output, IsInt v) → L * L ≤ 2147483647 →
      ∃ out, makecomat4D_i32 input mask xi yi zi ti coords L output = some out ∧
        makecomat4D_i32_traced input mask xi yi zi ti coords L (output, []) =
          some (out, (List.range (xi * yi * zi * ti).toNat).map (fun (k : Nat) => (k : Int))))
    := by
  have hu := unbounded_grid_indexer xi yi zi ti hx hy hz ht
  have hc : ∀ x y z t : Int, 0 ≤ x → x < xi → 0 ≤ y → y < yi → 0 ≤ z → z < zi → 0 ≤ t →
      t < ti → madd (madd (madd x yi y) zi z) ti t = ((x * yi + y) * zi + z) * ti + t := by
    intro x y z t x0 x1 y0 y1 z0 z1 t0 t1
    exact centre4_eq xi yi zi ti hM (x, y, z, t)
      ((mem_pts4 xi yi zi ti (x, y, z, t)).2 ⟨⟨x0, x1⟩, ⟨y0, y1⟩, ⟨z0, z1⟩, t0, t1⟩)
  have htr : ∀ (input mask coords : List Int) (L : Int) (output visited : List Int),
      makecomat4D_i32_traced input mask xi yi zi ti coords L (output, visited) =
        (makecomat4D_i32 input mask xi yi zi ti coords L output).map
          (fun out => (out, visited ++
            (List.range (xi * yi * zi * ti).toNat).map (fun (k : Nat) => (k : Int)))) := by
    intro input mask coords L output visited
    rw [makecomat4D_i32_traced_eq, trace4_eq xi yi zi ti hx hy hz ht hM]
  refine ⟨?_, ?_, ?_, ?_, htr, ?_⟩
  · intro x y z t x0 x1 y0 y1 z0 z1 t0 t1
    have e := hc x y z t x0 x1 y0 y1 z0 z1 t0 t1
    have b := hu.2.2.1 x y z t x0 x1 y0 y1 z0 z1 t0 t1
    rw [e]
    exact ⟨rfl, b.1, b.2⟩
  · intro x y z t x2 y2 z2 t2 x0 x1 y0 y1 z0 z1 t0 t1 a0 a1 b0 b1 c0 c1 d0 d1 h
    rw [hc x y z t x0 x1 y0 y1 z0 z1 t0 t1, hc x2 y2 z2 t2 a0 a1 b0 b1 c0 c1 d0 d1] at h
    exact hu.2.2.2.1 x y z t x2 y2 z2 t2 x0 x1 y0 y1 z0 z1 t0 t1 a0 a1 b0 b1 c0 c1 d0 d1 h
  · intro k k0 k1
    obtain ⟨x, y, z, t, bx, by1, bz, bt, e⟩ := hu.2.2.2.2.1 k k0 k1
    exact ⟨x, y, z, t, bx, by1, bz, bt,
      (hc x y z t bx.1 bx.2 by1.1 by1.2 bz.1 bz.2 bt.1 bt.2).trans e⟩
  · intro x y z t x0 x1 y0 y1 z0 z1 t0 t1
    rw [hc x y z (t + 1) x0 x1 y0 y1 z0 z1 (by omega) t1,
      hc x y z t x0 x1 y0 y1 z0 z1 t0 (by omega)]
    ring
  · intro input mask coords L output hm hi hcl hout hci hv hL
    have r := makecomat4D_i32_eq input mask xi yi zi ti coords L output hci hM hL
    rw [map_wrap_of_isInt output hv] at r
    rw [htr, r, makecomat4D_tally input mask xi yi zi ti coords L output hm hi hcl hout]
    exact ⟨_, rfl, by simp⟩

theorem grid_indexer_row_major_i32_witness :
    makecomat4D_i32_traced [0, 1, 1, 0, 1, 0, 0, 1] [1, 1, 1, 1, 1, 1, 1, 1] 2 1 2 2
        [0, 0, 0, 1] 2 ([0, 0, 0, 0], []) =
      some ([0, 2, 2, 0], [0, 1, 2, 3, 4, 5, 6, 7]) := by
  obtain ⟨out, h1, h2⟩ :=
    (grid_indexer_row_major_i32 2 1 2 2 (by decide) (by decide) (by decide) (by decide)
      (by decide)).2.2.2.2.2 [0, 1, 1, 0, 1, 0, 0, 1] [1, 1, 1, 1, 1, 1, 1, 1] [0, 0, 0, 1] 2
      [0, 0, 0, 0] (by decide) (by decide) (by decide) (by decide) (by decide) (by decide)
      (by decide)
  have e : out = [0, 2, 2, 0] := Option.some.inj (h1.symm.trans (by decide))
  subst e
  exact h2

/-- C19 (counterexample): for the extents `(256, 256, 256, 256)` the offset of the centre
`(128, 0, 0, 0)` computed in `int` is -2147483648, outside `[0, 256 * 256 * 256 * 256)`, and
the call reads `mask` outside its buffer. -/
theorem grid_offset_wraps :
    madd (madd (madd 128 256 0) 256 0) 256 0 = -2147483648 ∧
      makecomat4D_i32 (List.replicate 4294967296 0) (List.replicate 4294967296 1)
        256 256 256 256 [0, 0, 0, 0] 1 [0] = none :=
  ⟨by decide,
    makecomat4D_i32_none_of_neg _ _ 256 256 256 256 [0, 0, 0, 0] 1 [0] (128, 0, 0, 0)
      ((mem_pts4 256 256 256 256 (128, 0, 0, 0)).2 (by decide)) (by decide)⟩

end GenTex
